import Mathlib

/-!
# libusbm: the transfer layer of `src/libusb/core_linux.c` and the benchmark

A shallow embedding of the reference-counted transfer context
(`usb_async_transfer_t`), of `async_inc_ref` / `async_dec_ref`, of the
submit / reap / cancel / free entry points built on them and of the
synchronous bulk and interrupt transfers, followed by the parts of
`src/examples/benchmark.c` that use them: the worker loop, the window of
outstanding transfers of `TransferAsync`, and the test pattern with its
verification by `VerifyData`.

Conventions of the embedding.

* C `int` and `long` values are `Int`.  The counters move by one and are
  taken to stay inside their machine range; the quotient `INT_MIN / -1`, which
  is undefined in C, is outside the model.
* A pointer that the code only tests against `NULL` is an `Option`.
* `-(errno = e)` stores `e` in `errno` and evaluates to `-e`.
* Submit and cancel requests to libusb-1.0 and the blocking wait on the
  completion event are answered by an environment `Env`; every such call is
  appended to the `trace` of the machine state, oldest first.  `freed` counts
  the calls of `async_free`.
* In the benchmark the calls of `TransferAsync` into the async layer are
  answered by a `BenchEnv` and recorded in order; a byte buffer is a function
  from the index to the byte, and the `data mismatch` lines of `VerifyData`
  are recorded in its state.
-/

namespace Libusbm

/-! ## Constants of the system headers (`errno.h` on Linux, `libusb.h`) -/

def ENOENT : Int := 2
def EINTR : Int := 4
def EIO : Int := 5
def ENXIO : Int := 6
def EAGAIN : Int := 11
def ENOMEM : Int := 12
def EACCES : Int := 13
def EFAULT : Int := 14
def EBUSY : Int := 16
def ENODEV : Int := 19
def EINVAL : Int := 22
def EPIPE : Int := 32
def ERANGE : Int := 34
def ENOSYS : Int := 38
def EOVERFLOW : Int := 75
def ETIMEDOUT : Int := 110

/-- Value of `MPL_SUCCESS` in `mpl_threads.h`. -/
def MPL_SUCCESS : Int := 0

def LIBUSB_SUCCESS : Int := 0
def LIBUSB_ERROR_IO : Int := -1
def LIBUSB_ERROR_INVALID_PARAM : Int := -2
def LIBUSB_ERROR_ACCESS : Int := -3
def LIBUSB_ERROR_NO_DEVICE : Int := -4
def LIBUSB_ERROR_NOT_FOUND : Int := -5
def LIBUSB_ERROR_BUSY : Int := -6
def LIBUSB_ERROR_TIMEOUT : Int := -7
def LIBUSB_ERROR_OVERFLOW : Int := -8
def LIBUSB_ERROR_PIPE : Int := -9
def LIBUSB_ERROR_INTERRUPTED : Int := -10
def LIBUSB_ERROR_NO_MEM : Int := -11
def LIBUSB_ERROR_NOT_SUPPORTED : Int := -12

def LIBUSB_TRANSFER_COMPLETED : Int := 0
def LIBUSB_TRANSFER_ERROR : Int := 1
def LIBUSB_TRANSFER_TIMED_OUT : Int := 2
def LIBUSB_TRANSFER_CANCELLED : Int := 3
def LIBUSB_TRANSFER_STALL : Int := 4
def LIBUSB_TRANSFER_NO_DEVICE : Int := 5
def LIBUSB_TRANSFER_OVERFLOW : Int := 6

def LIBUSB_TRANSFER_TYPE_ISOCHRONOUS : Int := 1
def LIBUSB_TRANSFER_TYPE_BULK : Int := 2
def LIBUSB_TRANSFER_TYPE_INTERRUPT : Int := 3

/-! ## Data model -/

/-- One entry of `libusb_transfer.iso_packet_desc`. -/
structure libusb_iso_packet_descriptor where
  length : Int
  actual_length : Int
  status : Int
deriving DecidableEq, Repr

/-- The public fields of `struct libusb_transfer` that this layer reads or
writes.  `callback` and `user_data` are fixed by `usb_setup_async` to
`async_bulk_cb` and to the owning context and are not stored. -/
structure libusb_transfer where
  dev_handle : Nat
  endpoint : Int
  type : Int
  timeout : Nat
  status : Int
  length : Int
  actual_length : Int
  buffer : Option Nat
  num_iso_packets : Int
  iso_packet_desc : List libusb_iso_packet_descriptor
deriving DecidableEq, Repr

/-- The two flags of `struct _MPL_EVENT_T` (`mpl_threads.h`). -/
structure MPL_EVENT_T where
  IsAuto : Int
  IsSet : Int
deriving DecidableEq, Repr

/-- The `usb_async_transfer_t` of `core_linux.c`. -/
structure usb_async_transfer_t where
  dev : Nat
  transfer : libusb_transfer
  complete_event : MPL_EVENT_T
  ref_count : Int
  legacy_iso_pktsize : Int
deriving DecidableEq, Repr

/-- The `usb_async_thread_t` of `core_linux.c` (counters and events only). -/
structure usb_async_thread_t where
  fly_count : Int
  is_run : Int
  event_running : MPL_EVENT_T
  event_terminated : MPL_EVENT_T
deriving DecidableEq, Repr

/-- A call that the environment answers: a request to libusb-1.0, or a
blocking wait on the completion event. -/
inductive Call where
  | libusb_submit_transfer
  | libusb_cancel_transfer
  | Mpl_Event_Wait (rel_milliseconds : Int)
deriving DecidableEq, Repr

/-- The process-wide state: the global `async_thread` and `errno`, with two
observers added: the chronological record of the calls answered by the
environment, and the number of times `async_free` has run. -/
structure Machine where
  async_thread : usb_async_thread_t
  errno : Int
  trace : List Call
  freed : Nat
deriving DecidableEq, Repr

/-- What one blocking wait on the completion event yields: the value that
`Mpl_Event_Wait` returns and, when the driver completes the transfer while the
caller is blocked, the completion status and byte count it stores before it
runs the completion callback. -/
structure WaitOutcome where
  ret : Int
  completion : Option (Int × Int)
deriving DecidableEq, Repr

/-- The environment of one API call: the results of the libusb-1.0 primitives
and the outcome of the `k`-th wait of the call for a given timeout. -/
structure Env where
  libusb_submit_transfer : libusb_transfer → Int
  libusb_cancel_transfer : libusb_transfer → Int
  wait : Nat → Int → WaitOutcome

/-! ## Error translation -/

/-- The `libusb_to_errno` switch. -/
def libusb_to_errno (result : Int) : Int :=
  if result = LIBUSB_SUCCESS then 0
  else if result = LIBUSB_ERROR_IO then EIO
  else if result = LIBUSB_ERROR_INVALID_PARAM then EINVAL
  else if result = LIBUSB_ERROR_ACCESS then EACCES
  else if result = LIBUSB_ERROR_NO_DEVICE then ENXIO
  else if result = LIBUSB_ERROR_NOT_FOUND then ENOENT
  else if result = LIBUSB_ERROR_BUSY then EBUSY
  else if result = LIBUSB_ERROR_TIMEOUT then ETIMEDOUT
  else if result = LIBUSB_ERROR_OVERFLOW then EOVERFLOW
  else if result = LIBUSB_ERROR_PIPE then EPIPE
  else if result = LIBUSB_ERROR_INTERRUPTED then EINTR
  else if result = LIBUSB_ERROR_NO_MEM then ENOMEM
  else if result = LIBUSB_ERROR_NOT_SUPPORTED then ENOSYS
  else ERANGE

/-- The `libusb_transfer_to_errno` switch. -/
def libusb_transfer_to_errno (status : Int) : Int :=
  if status = LIBUSB_TRANSFER_COMPLETED then 0
  else if status = LIBUSB_TRANSFER_TIMED_OUT then ETIMEDOUT
  else if status = LIBUSB_TRANSFER_CANCELLED then ETIMEDOUT
  else if status = LIBUSB_TRANSFER_STALL then EIO
  else if status = LIBUSB_TRANSFER_NO_DEVICE then ENODEV
  else if status = LIBUSB_TRANSFER_OVERFLOW then EOVERFLOW
  else EFAULT

/-! ## Events (`mpl_threads.c`, with the event's own mutex always granted) -/

/-- `Mpl_Event_Set` on a non-null event. -/
def Mpl_Event_Set (e : MPL_EVENT_T) : MPL_EVENT_T :=
  if e.IsSet = 0 then { e with IsSet := 1 } else e

/-- `Mpl_Event_Reset` on a non-null event. -/
def Mpl_Event_Reset (e : MPL_EVENT_T) : MPL_EVENT_T :=
  if e.IsSet ≠ 0 then { e with IsSet := 0 } else e

/-! ## Reference counting -/

/-- `async_free`: the transfer handle, the event and the context memory are
released.  The context value is kept, so that what the code reads from it
afterwards stays visible in the model. -/
def async_free (_c : usb_async_transfer_t) (m : Machine) : Machine :=
  { m with freed := m.freed + 1 }

/-- The `ALLOW_HANDLE_EVENTS_THREAD_IDLE` tail of `async_dec_ref`. -/
def fly_count_dec (m : Machine) : Machine :=
  let fly := m.async_thread.fly_count - 1
  { m with async_thread :=
      { m.async_thread with
        fly_count := fly
        event_running :=
          if fly = 0 then Mpl_Event_Reset m.async_thread.event_running
          else m.async_thread.event_running } }

/-- The `ALLOW_HANDLE_EVENTS_THREAD_IDLE` tail of `async_inc_ref`. -/
def fly_count_inc (m : Machine) : Machine :=
  let fly := m.async_thread.fly_count + 1
  { m with async_thread :=
      { m.async_thread with
        fly_count := fly
        event_running :=
          if fly = 1 then Mpl_Event_Set m.async_thread.event_running
          else m.async_thread.event_running } }

/-- `async_dec_ref` (release). -/
def async_dec_ref (c : usb_async_transfer_t) (m : Machine) :
    Int × usb_async_transfer_t × Machine :=
  let r := c.ref_count - 1
  let c1 := { c with ref_count := r }
  if r = 0 then
    (0, c1, fly_count_dec (async_free c1 m))
  else if r < 0 then
    (EACCES, c1, m)
  else
    (r, c1, fly_count_dec m)

/-- `async_inc_ref` (acquire). -/
def async_inc_ref (c : usb_async_transfer_t) (m : Machine) :
    Int × usb_async_transfer_t × Machine :=
  let r := c.ref_count + 1
  if r < 1 then
    (EACCES, { c with ref_count := r - 1 }, m)
  else
    (0, { c with ref_count := r }, fly_count_inc m)

/-! ## Setup -/

/-- `libusb_alloc_transfer(iso_packets)` of libusb-1.0, on success: a zeroed
transfer with room for `iso_packets` packet descriptors. -/
def libusb_alloc_transfer (iso_packets : Nat) : libusb_transfer :=
  { dev_handle := 0, endpoint := 0, type := 0, timeout := 0, status := 0,
    length := 0, actual_length := 0, buffer := none, num_iso_packets := 0,
    iso_packet_desc := List.replicate iso_packets ⟨0, 0, 0⟩ }

/-- `usb_setup_async` when both allocations succeed: the fresh context stored
through `*context`. -/
def usb_setup_async (dev : Nat) (dev_handle : Nat) (transfer_type : Int) (ep : Int)
    (num_iso_packets : Nat) : usb_async_transfer_t :=
  { dev := dev
    transfer :=
      { libusb_alloc_transfer num_iso_packets with
        dev_handle := dev_handle
        endpoint := ep
        timeout := 0
        type := transfer_type
        status := LIBUSB_TRANSFER_ERROR }
    complete_event := ⟨0, 0⟩
    ref_count := 1
    legacy_iso_pktsize := 0 }

/-- `usb_isochronous_setup_async` when `usb_setup_async` returns 0. -/
def usb_isochronous_setup_async (dev : Nat) (dev_handle : Nat) (ep : Int) (pktsize : Int) :
    usb_async_transfer_t :=
  let c := usb_setup_async dev dev_handle LIBUSB_TRANSFER_TYPE_ISOCHRONOUS ep 1024
  { c with
    legacy_iso_pktsize := pktsize
    transfer := { c.transfer with num_iso_packets := 1024 } }

/-! ## Submit -/

/-- The assignment `iso_packet_desc[ipacket].length = pktsize`; a store past
the allocated descriptors is not modelled and leaves the list as it is. -/
def store_iso_length (descs : List libusb_iso_packet_descriptor) (ipacket : Nat)
    (pktsize : Int) : List libusb_iso_packet_descriptor :=
  match descs[ipacket]? with
  | some d => descs.set ipacket { d with length := pktsize }
  | none => descs

/-- The loop `for (ipacket = 0; ipacket < num_packets; ipacket++)` of
`async_submit`. -/
def set_iso_lengths (descs : List libusb_iso_packet_descriptor) (num_packets : Int)
    (pktsize : Int) : List libusb_iso_packet_descriptor :=
  (List.range num_packets.toNat).foldl
    (fun ds ipacket => store_iso_length ds ipacket pktsize) descs

/-- The isochronous block of `async_submit`: `none` when the packet count is
rejected, otherwise the context with the packet count and lengths stored. -/
def async_submit_iso (c : usb_async_transfer_t) (size : Int) :
    Option usb_async_transfer_t :=
  if c.legacy_iso_pktsize ≠ 0 ∧ c.transfer.type = LIBUSB_TRANSFER_TYPE_ISOCHRONOUS then
    let num_packets := Int.tdiv size c.legacy_iso_pktsize
    if num_packets = 0 ∨ num_packets > 1024 then none
    else
      some { c with transfer :=
        { c.transfer with
          num_iso_packets := num_packets
          iso_packet_desc :=
            set_iso_lengths c.transfer.iso_packet_desc num_packets c.legacy_iso_pktsize } }
  else some c

/-- The five stores into the transfer and the `Mpl_Event_Reset` that precede
`libusb_submit_transfer` in `async_submit`. -/
def async_submit_attach (c : usb_async_transfer_t) (bytes : Option Nat) (size : Int)
    (timeout : Nat) : usb_async_transfer_t :=
  { c with
    transfer :=
      { c.transfer with
        buffer := bytes
        length := size
        status := LIBUSB_TRANSFER_ERROR
        actual_length := 0
        timeout := timeout }
    complete_event := Mpl_Event_Reset c.complete_event }

/-- `async_submit`.  The result is the return value, the context after the
call (`none` for a null `context`), and the machine state after the call. -/
def async_submit (env : Env) (context : Option usb_async_transfer_t) (bytes : Option Nat)
    (size : Int) (timeout : Nat) (m : Machine) :
    Int × Option usb_async_transfer_t × Machine :=
  match context with
  | none => (-EINVAL, none, { m with errno := EINVAL })
  | some c =>
    if (bytes = none ∧ size > 0) ∨ c.ref_count ≠ 1 then
      (-EINVAL, some c, { m with errno := EINVAL })
    else
      match async_submit_iso c size with
      | none => (-EINVAL, some c, { m with errno := EINVAL })
      | some c1 =>
        let inc := async_inc_ref c1 m
        if inc.1 ≠ 0 then
          (-inc.1, some inc.2.1, { inc.2.2 with errno := inc.1 })
        else
          let c2 := async_submit_attach inc.2.1 bytes size timeout
          let r := env.libusb_submit_transfer c2.transfer
          let m2 : Machine :=
            { inc.2.2 with trace := inc.2.2.trace ++ [Call.libusb_submit_transfer] }
          if r ≠ LIBUSB_SUCCESS then
            let dec := async_dec_ref c2 m2
            (-(libusb_to_errno r), some dec.2.1,
              { dec.2.2 with errno := libusb_to_errno r })
          else
            (0, some c2, m2)

/-- `usb_submit_async`. -/
def usb_submit_async (env : Env) (context : Option usb_async_transfer_t)
    (bytes : Option Nat) (size : Int) (m : Machine) :
    Int × Option usb_async_transfer_t × Machine :=
  async_submit env context bytes size 0 m

/-! ## Cancel, reap, free -/

/-- `usb_cancel_async`. -/
def usb_cancel_async (env : Env) (context : Option usb_async_transfer_t) (m : Machine) :
    Int × Option usb_async_transfer_t × Machine :=
  match context with
  | none => (-EINVAL, none, { m with errno := EINVAL })
  | some c =>
    if c.ref_count > 1 then
      let r := env.libusb_cancel_transfer c.transfer
      let m1 : Machine := { m with trace := m.trace ++ [Call.libusb_cancel_transfer] }
      if r ≠ 0 then
        (-(libusb_to_errno r), some c, { m1 with errno := libusb_to_errno r })
      else (0, some c, m1)
    else (0, some c, m)

/-- `async_bulk_cb`, the completion callback: signal the completion event and
drop the reference taken by the submit. -/
def async_bulk_cb (c : usb_async_transfer_t) (m : Machine) :
    usb_async_transfer_t × Machine :=
  let c1 := { c with complete_event := Mpl_Event_Set c.complete_event }
  let dec := async_dec_ref c1 m
  (dec.2.1, dec.2.2)

/-- The call `Mpl_Event_Wait(&async_context->complete_event, timeout)` as seen
by the waiting thread: the environment decides what the wait returns, and
whether the driver completes the transfer meanwhile, in which case the
completion fields are stored and `async_bulk_cb` runs before the wait
returns. -/
def wait_complete_event (env : Env) (k : Nat) (c : usb_async_transfer_t)
    (timeout : Int) (m : Machine) : Int × usb_async_transfer_t × Machine :=
  let o := env.wait k timeout
  let m1 : Machine := { m with trace := m.trace ++ [Call.Mpl_Event_Wait timeout] }
  match o.completion with
  | none => (o.ret, c, m1)
  | some (status, actual_length) =>
    let c1 : usb_async_transfer_t :=
      { c with transfer :=
          { c.transfer with status := status, actual_length := actual_length } }
    let cb := async_bulk_cb c1 m1
    (o.ret, cb.1, cb.2)

/-- The end of `async_reap`, from `if (r == MPL_SUCCESS)` on, for the result
`w` of the last wait: the value returned, the context and the machine state. -/
def reap_finish (w : Int × usb_async_transfer_t × Machine) :
    Int × usb_async_transfer_t × Machine :=
  if w.1 = MPL_SUCCESS then
    let r := libusb_transfer_to_errno w.2.1.transfer.status
    if r = 0 ∨ (r = ETIMEDOUT ∧ w.2.1.transfer.actual_length > 0) then
      let dec := async_dec_ref w.2.1 w.2.2
      (dec.2.1.transfer.actual_length, dec.2.1, dec.2.2)
    else
      let dec := async_dec_ref w.2.1 w.2.2
      (-r, dec.2.1, { dec.2.2 with errno := r })
  else
    let dec := async_dec_ref w.2.1 w.2.2
    (-w.1, dec.2.1, { dec.2.2 with errno := w.1 })

/-- The body of `async_reap` from the label `reap_retry_for_cancel` on; the
`goto` is the recursive call.  `k` counts the waits already made. -/
def reap_retry_for_cancel (env : Env) (k : Nat) (c : usb_async_transfer_t)
    (timeout : Int) (cancel_on_timeout : Int) (m : Machine) :
    Int × usb_async_transfer_t × Machine :=
  let w := wait_complete_event env k c timeout m
  if h : w.1 = ETIMEDOUT ∧ cancel_on_timeout ≠ 0 then
    let cancel := usb_cancel_async env (some w.2.1) w.2.2
    reap_retry_for_cancel env (k + 1) w.2.1 (-1) 0 cancel.2.2
  else
    reap_finish w
termination_by (if cancel_on_timeout = 0 then 0 else 1)
decreasing_by
  simp only [if_true]
  rw [if_neg h.2]
  exact Nat.zero_lt_one

/-- `async_reap`. -/
def async_reap (env : Env) (context : Option usb_async_transfer_t) (timeout : Int)
    (cancel_on_timeout : Int) (m : Machine) :
    Int × Option usb_async_transfer_t × Machine :=
  match context with
  | none => (-EINVAL, none, { m with errno := EINVAL })
  | some c =>
    if c.ref_count < 1 then
      (-EINVAL, some c, { m with errno := EINVAL })
    else
      let inc := async_inc_ref c m
      if inc.1 ≠ 0 then
        (-EACCES, some inc.2.1, { inc.2.2 with errno := EACCES })
      else
        let r := reap_retry_for_cancel env 0 inc.2.1 timeout cancel_on_timeout inc.2.2
        (r.1, some r.2.1, r.2.2)

/-- `usb_reap_async`. -/
def usb_reap_async (env : Env) (context : Option usb_async_transfer_t) (timeout : Int)
    (m : Machine) : Int × Option usb_async_transfer_t × Machine :=
  async_reap env context timeout 1 m

/-- `usb_reap_async_nocancel`. -/
def usb_reap_async_nocancel (env : Env) (context : Option usb_async_transfer_t)
    (timeout : Int) (m : Machine) : Int × Option usb_async_transfer_t × Machine :=
  async_reap env context timeout 0 m

/-- What `usb_free_async` leaves behind. -/
structure FreeResult where
  /-- The return value. -/
  ret : Int
  /-- The caller's pointer `*context` after the call (`none` is `NULL`);
  for a null `context` there is no such pointer and the field is `none`. -/
  pointer : Option usb_async_transfer_t
  /-- The context object after the call, when there was one. -/
  object : Option usb_async_transfer_t
  /-- The machine state after the call. -/
  m : Machine

/-- `usb_free_async(void **context)`: the outer `Option` is the reference
`context`, the inner one the pointer `*context` it refers to. -/
def usb_free_async (context : Option (Option usb_async_transfer_t)) (m : Machine) :
    FreeResult :=
  match context with
  | none => ⟨-EINVAL, none, none, { m with errno := EINVAL }⟩
  | some none => ⟨-EINVAL, none, none, { m with errno := EINVAL }⟩
  | some (some c) =>
    let dec := async_dec_ref c m
    if dec.1 ≠ 0 then
      ⟨-dec.1, none, some dec.2.1, { dec.2.2 with errno := dec.1 }⟩
    else
      ⟨0, none, some dec.2.1, dec.2.2⟩

/-! ## Sequences of acquire and release on one context -/

/-- One reference-count operation on a context. -/
inductive RefOp where
  | acquire
  | release
deriving DecidableEq, Repr

/-- Run one operation: `acquire` is `async_inc_ref`, `release` is
`async_dec_ref`; the value they return is dropped. -/
def apply_ref_op (op : RefOp) (s : usb_async_transfer_t × Machine) :
    usb_async_transfer_t × Machine :=
  match op with
  | RefOp.acquire => ((async_inc_ref s.1 s.2).2.1, (async_inc_ref s.1 s.2).2.2)
  | RefOp.release => ((async_dec_ref s.1 s.2).2.1, (async_dec_ref s.1 s.2).2.2)

/-- Run a finite sequence of operations, first to last. -/
def run_ref_ops (ops : List RefOp) (s : usb_async_transfer_t × Machine) :
    usb_async_transfer_t × Machine :=
  ops.foldl (fun s op => apply_ref_op op s) s

/-! ## Sample values -/

/-- A machine with no transfer in flight and nothing recorded. -/
def idle_machine : Machine :=
  { async_thread := ⟨0, 1, ⟨0, 0⟩, ⟨0, 0⟩⟩, errno := 0, trace := [], freed := 0 }

/-- A machine with one transfer in flight. -/
def busy_machine : Machine :=
  { async_thread := ⟨1, 1, ⟨0, 1⟩, ⟨0, 0⟩⟩, errno := 0, trace := [], freed := 0 }

/-- An environment in which every libusb-1.0 request succeeds and every wait
is served at once by a full completion of 512 bytes. -/
def env_ok : Env :=
  { libusb_submit_transfer := fun _ => LIBUSB_SUCCESS
    libusb_cancel_transfer := fun _ => LIBUSB_SUCCESS
    wait := fun _ _ => ⟨MPL_SUCCESS, some (LIBUSB_TRANSFER_COMPLETED, 512)⟩ }

/-- An environment whose transfer never completes on its own: the first wait
times out, the driver accepts the cancel request, and the transfer then
completes as cancelled with `moved` bytes during the second wait. -/
def env_cancelled (moved : Int) : Env :=
  { libusb_submit_transfer := fun _ => LIBUSB_SUCCESS
    libusb_cancel_transfer := fun _ => LIBUSB_SUCCESS
    wait := fun k _ =>
      if k = 0 then ⟨ETIMEDOUT, none⟩
      else ⟨MPL_SUCCESS, some (LIBUSB_TRANSFER_CANCELLED, moved)⟩ }

/-- An isochronous context with legacy packet size 512, as set up by
`usb_isochronous_setup_async`. -/
def iso512 : usb_async_transfer_t := usb_isochronous_setup_async 1 1 0x81 512

/-- A bulk context as set up by `usb_bulk_setup_async`. -/
def bulk_idle : usb_async_transfer_t :=
  usb_setup_async 1 1 LIBUSB_TRANSFER_TYPE_BULK 0x81 0

/-- A bulk context that has been submitted and has not completed. -/
def bulk_in_flight : usb_async_transfer_t :=
  { bulk_idle with
    ref_count := 2
    transfer := { bulk_idle.transfer with buffer := some 4096, length := 512 } }

/-! ## Atomic counters (`mpl_threads.h`) -/

/-- `MPL_Atomic_Add32`, that is `__sync_add_and_fetch`: the sum is stored in
the counter and is also the value returned. -/
def MPL_Atomic_Add32 (value add : Int) : Int := value + add

/-- `MPL_Atomic_Inc32`. -/
def MPL_Atomic_Inc32 (value : Int) : Int := MPL_Atomic_Add32 value 1

/-- `MPL_Atomic_Dec32`. -/
def MPL_Atomic_Dec32 (value : Int) : Int := MPL_Atomic_Add32 value (-1)

/-! ## Synchronous transfers (`core_linux.c`) -/

/-- Value of `USB_ENDPOINT_IN` in `usb.h`. -/
def USB_ENDPOINT_IN : Int := 0x80

/-- The blocking transfer calls of libusb-1.0: for a device handle, an
endpoint, a buffer, a size and a timeout they give the result code and the
byte count stored through `actual_length`. -/
structure SyncDriver where
  libusb_bulk_transfer : Nat → Int → Nat → Int → Int → Int × Int
  libusb_interrupt_transfer : Nat → Int → Nat → Int → Int → Int × Int

/-- `usb_bulk_io`, from the value of `errno` on entry to the value returned and
the value of `errno` on return. -/
def usb_bulk_io (drv : SyncDriver) (dev_handle : Nat) (ep : Int) (bytes : Nat) (size : Int)
    (timeout : Int) (errno : Int) : Int × Int :=
  let errno1 := if errno = ETIMEDOUT then 0 else errno
  let t := drv.libusb_bulk_transfer dev_handle (Int.land ep 0xff) bytes size timeout
  if t.1 = LIBUSB_SUCCESS then (t.2, errno1)
  else if t.1 = LIBUSB_ERROR_TIMEOUT ∧ t.2 > 0 then (t.2, ETIMEDOUT)
  else (-(libusb_to_errno t.1), libusb_to_errno t.1)

/-- `usb_interrupt_io`. -/
def usb_interrupt_io (drv : SyncDriver) (dev_handle : Nat) (ep : Int) (bytes : Nat)
    (size : Int) (timeout : Int) (errno : Int) : Int × Int :=
  let errno1 := if errno = ETIMEDOUT then 0 else errno
  let t := drv.libusb_interrupt_transfer dev_handle (Int.land ep 0xff) bytes size timeout
  if t.1 = LIBUSB_SUCCESS then (t.2, errno1)
  else if t.1 = LIBUSB_ERROR_TIMEOUT ∧ t.2 > 0 then (t.2, ETIMEDOUT)
  else (-(libusb_to_errno t.1), libusb_to_errno t.1)

/-- `usb_bulk_read`. -/
def usb_bulk_read (drv : SyncDriver) (dev_handle : Nat) (ep : Int) (bytes : Nat) (size : Int)
    (timeout : Int) (errno : Int) : Int × Int :=
  usb_bulk_io drv dev_handle
    (if Int.land ep USB_ENDPOINT_IN = 0 then Int.lor ep USB_ENDPOINT_IN else ep)
    bytes size timeout errno

/-- `usb_bulk_write`. -/
def usb_bulk_write (drv : SyncDriver) (dev_handle : Nat) (ep : Int) (bytes : Nat)
    (size : Int) (timeout : Int) (errno : Int) : Int × Int :=
  usb_bulk_io drv dev_handle
    (if Int.land ep USB_ENDPOINT_IN ≠ 0 then Int.land ep (Int.lnot USB_ENDPOINT_IN) else ep)
    bytes size timeout errno

/-- `usb_interrupt_read`. -/
def usb_interrupt_read (drv : SyncDriver) (dev_handle : Nat) (ep : Int) (bytes : Nat)
    (size : Int) (timeout : Int) (errno : Int) : Int × Int :=
  usb_interrupt_io drv dev_handle
    (if Int.land ep USB_ENDPOINT_IN = 0 then Int.lor ep USB_ENDPOINT_IN else ep)
    bytes size timeout errno

/-- `usb_interrupt_write`. -/
def usb_interrupt_write (drv : SyncDriver) (dev_handle : Nat) (ep : Int) (bytes : Nat)
    (size : Int) (timeout : Int) (errno : Int) : Int × Int :=
  usb_interrupt_io drv dev_handle
    (if Int.land ep USB_ENDPOINT_IN ≠ 0 then Int.land ep (Int.lnot USB_ENDPOINT_IN) else ep)
    bytes size timeout errno

/-! ## Operations on one context, as a caller can order them -/

/-- One operation on a context, with what the environment answers during it:
the driver's result for a submit or cancel request, the completion status and
byte count stored before the callback, and for a reap the values returned by
its first and second wait and by the cancel request between them. -/
inductive ApiOp where
  | acquire
  | release
  | submit (bytes : Option Nat) (size : Int) (driver_result : Int)
  | completion (status actual_length : Int)
  | reap (timeout cancel_on_timeout wait0 wait1 cancel_result : Int)
  | cancel (driver_result : Int)
  | free
deriving DecidableEq, Repr

/-- The environment of one operation; a completion is an operation of its own
and does not arrive inside a wait. -/
def api_env (submit_result cancel_result wait0 wait1 : Int) : Env :=
  { libusb_submit_transfer := fun _ => submit_result
    libusb_cancel_transfer := fun _ => cancel_result
    wait := fun k _ => ⟨if k = 0 then wait0 else wait1, none⟩ }

/-- Run one operation on a context: `async_inc_ref`, `async_dec_ref`,
`usb_submit_async`, `async_bulk_cb` after the driver has stored the completion
fields, `async_reap`, `usb_cancel_async`, `usb_free_async`. -/
def apply_api_op (op : ApiOp) (s : usb_async_transfer_t × Machine) :
    usb_async_transfer_t × Machine :=
  match op with
  | ApiOp.acquire => ((async_inc_ref s.1 s.2).2.1, (async_inc_ref s.1 s.2).2.2)
  | ApiOp.release => ((async_dec_ref s.1 s.2).2.1, (async_dec_ref s.1 s.2).2.2)
  | ApiOp.submit bytes size r =>
    (((usb_submit_async (api_env r 0 0 0) (some s.1) bytes size s.2).2.1).getD s.1,
      (usb_submit_async (api_env r 0 0 0) (some s.1) bytes size s.2).2.2)
  | ApiOp.completion status actual_length =>
    async_bulk_cb
      { s.1 with transfer :=
          { s.1.transfer with status := status, actual_length := actual_length } } s.2
  | ApiOp.reap timeout cancel_on_timeout wait0 wait1 cancel_result =>
    (((async_reap (api_env 0 cancel_result wait0 wait1) (some s.1) timeout
        cancel_on_timeout s.2).2.1).getD s.1,
      (async_reap (api_env 0 cancel_result wait0 wait1) (some s.1) timeout
        cancel_on_timeout s.2).2.2)
  | ApiOp.cancel r => (s.1, (usb_cancel_async (api_env 0 r 0 0) (some s.1) s.2).2.2)
  | ApiOp.free =>
    (((usb_free_async (some (some s.1)) s.2).object).getD s.1,
      (usb_free_async (some (some s.1)) s.2).m)

/-- Run a finite sequence of operations, first to last. -/
def run_api_ops (ops : List ApiOp) (s : usb_async_transfer_t × Machine) :
    usb_async_transfer_t × Machine :=
  ops.foldl (fun s op => apply_api_op op s) s

/-- Whether an operation releases a reference it did not take itself. -/
def releases (op : ApiOp) : Bool :=
  match op with
  | ApiOp.release => true
  | ApiOp.completion _ _ => true
  | ApiOp.free => true
  | _ => false

/-- A run in which every operation that releases a reference it did not take
itself meets a ref-count of at least 1. -/
def releases_held (ops : List ApiOp) (s : usb_async_transfer_t × Machine) : Prop :=
  match ops with
  | [] => True
  | op :: rest =>
    (releases op = true → 1 ≤ s.1.ref_count) ∧ releases_held rest (apply_api_op op s)

/-! ## Benchmark: data model (`benchmark.c`) -/

/-- Value of `MAX_OUTSTANDING_TRANSFERS`. -/
def MAX_OUTSTANDING_TRANSFERS : Int := 10

def USB_ENDPOINT_TYPE_ISOCHRONOUS : Int := 1
def USB_ENDPOINT_TYPE_BULK : Int := 2
def USB_ENDPOINT_TYPE_INTERRUPT : Int := 3

/-- The fields of `struct BM_TEST_PARAM` read by the transfer code. -/
structure BM_TEST_PARAM where
  Timeout : Int
  Retry : Int
  BufferSize : Int
  BufferCount : Int
  IsoPacketSize : Int
  Verify : Int
  IsCancelled : Int
  IsUserAborted : Int
deriving DecidableEq, Repr

/-- `struct BM_TRANSFER_HANDLE`; `Data` is the offset of the slot's segment in
the buffer of the transfer param, `Context` the pointer stored by the setup
call. -/
structure BM_TRANSFER_HANDLE where
  Context : Option Nat
  InUse : Int
  Data : Int
  DataMaxLength : Int
  ReturnCode : Int
deriving DecidableEq, Repr

/-- The fields of `struct usb_endpoint_descriptor` read by the benchmark. -/
structure usb_endpoint_descriptor where
  bEndpointAddress : Int
  bmAttributes : Int
  wMaxPacketSize : Int
deriving DecidableEq, Repr

/-- The counters and the window of `struct BM_TRANSFER_PARAM`; the tick and
byte statistics, which no transfer decision reads, are left out.
`TransferHandles` is the array, indexed as the code indexes it. -/
structure BM_TRANSFER_PARAM where
  Test : BM_TEST_PARAM
  Ep : usb_endpoint_descriptor
  IsoPacketSize : Int
  TotalTimeoutCount : Int
  RunningTimeoutCount : Int
  TotalErrorCount : Int
  RunningErrorCount : Int
  ShortTransferCount : Int
  TransferHandleNextIndex : Int
  TransferHandleWaitIndex : Int
  OutstandingTransferCount : Int
  TransferHandles : Int → BM_TRANSFER_HANDLE

/-- `ValidateBenchmarkArgs`. -/
def ValidateBenchmarkArgs (testParam : BM_TEST_PARAM) : Int :=
  if testParam.BufferCount < 1 ∨ testParam.BufferCount > MAX_OUTSTANDING_TRANSFERS then -1
  else 0

/-! ## Benchmark: the worker loop -/

/-- One pass of the `while` loop of `TransferThreadProc` from `if (r < 0)` to
the end of the success branch, for the result `r` of the transfer made in
this pass: the transfer param afterwards and whether a `break` was taken.
The data check changes no counter, and the statistics block that follows
has no `break`. -/
def TransferThreadProc_pass (r : Int) (p : BM_TRANSFER_PARAM) : BM_TRANSFER_PARAM × Bool :=
  if r < 0 then
    if r = -ETIMEDOUT then
      let p1 : BM_TRANSFER_PARAM :=
        { p with
          TotalTimeoutCount := p.TotalTimeoutCount + 1
          RunningTimeoutCount := p.RunningTimeoutCount + 1 }
      if p1.Test.IsUserAborted ≠ 0 then (p1, true)
      else if p1.RunningTimeoutCount > p1.Test.Retry then (p1, true)
      else (p1, false)
    else
      if p.Test.IsUserAborted ≠ 0 then (p, true)
      else
        let p1 : BM_TRANSFER_PARAM :=
          { p with
            TotalErrorCount := p.TotalErrorCount + 1
            RunningErrorCount := p.RunningErrorCount + 1 }
        if p1.RunningErrorCount > p1.Test.Retry then (p1, true) else (p1, false)
  else
    let transferLength := r
    if transferLength < p.Test.BufferSize ∧ p.Test.IsCancelled = 0 then
      if transferLength > 0 then
        ({ p with ShortTransferCount := p.ShortTransferCount + 1 }, false)
      else
        let p1 : BM_TRANSFER_PARAM :=
          { p with
            TotalErrorCount := p.TotalErrorCount + 1
            RunningErrorCount := p.RunningErrorCount + 1 }
        if p1.RunningErrorCount > p1.Test.Retry then (p1, true) else (p1, false)
    else
      ({ p with RunningErrorCount := 0, RunningTimeoutCount := 0 }, false)

/-- The `while (!IsCancelled)` loop of `TransferThreadProc`, fed with the
results of the transfers it makes, in order: the transfer param when the loop
is left or the results run out, whether the loop was left, and the number of
transfers made. -/
def TransferThreadProc_loop (results : List Int) (p : BM_TRANSFER_PARAM) :
    BM_TRANSFER_PARAM × Bool × Nat :=
  match results with
  | [] => (p, decide (p.Test.IsCancelled ≠ 0), 0)
  | r :: rest =>
    if p.Test.IsCancelled ≠ 0 then (p, true, 0)
    else if (TransferThreadProc_pass r p).2 = true then
      ((TransferThreadProc_pass r p).1, true, 1)
    else
      ((TransferThreadProc_loop rest (TransferThreadProc_pass r p).1).1,
        (TransferThreadProc_loop rest (TransferThreadProc_pass r p).1).2.1,
        (TransferThreadProc_loop rest (TransferThreadProc_pass r p).1).2.2 + 1)

/-- A transfer param as `CreateTransferParam` leaves the fields modelled here:
counters and window zeroed by `memset`. -/
def fresh_transfer_param (test : BM_TEST_PARAM) (ep : usb_endpoint_descriptor) :
    BM_TRANSFER_PARAM :=
  { Test := test
    Ep := ep
    IsoPacketSize := if test.IsoPacketSize ≠ 0 then test.IsoPacketSize else ep.wMaxPacketSize
    TotalTimeoutCount := 0
    RunningTimeoutCount := 0
    TotalErrorCount := 0
    RunningErrorCount := 0
    ShortTransferCount := 0
    TransferHandleNextIndex := 0
    TransferHandleWaitIndex := 0
    OutstandingTransferCount := 0
    TransferHandles := fun _ => ⟨none, 0, 0, 0, 0⟩ }

/-- A test with the defaults of `SetTestDefaults` and the given retry budget
and window size. -/
def sample_test (retry bufferCount : Int) : BM_TEST_PARAM :=
  { Timeout := 1000, Retry := retry, BufferSize := 4096, BufferCount := bufferCount,
    IsoPacketSize := 0, Verify := 0, IsCancelled := 0, IsUserAborted := 0 }

/-- A bulk IN endpoint with 512-byte packets. -/
def sample_bulk_in : usb_endpoint_descriptor :=
  { bEndpointAddress := 0x81, bmAttributes := 2, wMaxPacketSize := 512 }

/-! ## Benchmark: the window of outstanding transfers -/

/-- A call of `TransferAsync` into the async layer, with the ring slot it is
made for; a reap also records the `InUse` flag the slot had when it was handed
over. -/
inductive BenchCall where
  | setup (slot : Int)
  | submit (slot : Int)
  | reap (slot : Int) (InUse : Int)
deriving DecidableEq, Repr

/-- What the async layer answers to the calls of `TransferAsync`, by the number
of calls made before: the context stored by a setup call (`none` when it fails
with `-ENOMEM`), and the value returned by a submit or a reap. -/
structure BenchEnv where
  setup : Nat → Option Nat
  submit : Nat → Int
  reap : Nat → Int

/-- The transfer param together with the record of the calls made so far. -/
structure BenchState where
  param : BM_TRANSFER_PARAM
  calls : List BenchCall

/-- The macro `ENDPOINT_TYPE`. -/
def ENDPOINT_TYPE (p : BM_TRANSFER_PARAM) : Int := Int.land p.Ep.bmAttributes 3

/-- The macro `INC_ROLL`, as the new value of the field. -/
def INC_ROLL (IncField RollOverValue : Int) : Int :=
  if IncField + 1 ≥ RollOverValue then 0 else IncField + 1

/-- The block `if (!handle->Context)` of `TransferAsync` up to its `switch`:
the value of `ret`, the handle array and the call record after it. -/
def TransferAsync_setup (env : BenchEnv) (s : BenchState) (idx : Int) :
    Int × (Int → BM_TRANSFER_HANDLE) × List BenchCall :=
  let h : BM_TRANSFER_HANDLE :=
    { s.param.TransferHandles idx with
      Data := idx * s.param.Test.BufferSize
      DataMaxLength := s.param.Test.BufferSize }
  if ENDPOINT_TYPE s.param = USB_ENDPOINT_TYPE_ISOCHRONOUS ∨
      ENDPOINT_TYPE s.param = USB_ENDPOINT_TYPE_BULK ∨
      ENDPOINT_TYPE s.param = USB_ENDPOINT_TYPE_INTERRUPT then
    match env.setup s.calls.length with
    | some context =>
      (0, Function.update s.param.TransferHandles idx { h with Context := some context },
        s.calls ++ [BenchCall.setup idx])
    | none =>
      (-ENOMEM, Function.update s.param.TransferHandles idx h,
        s.calls ++ [BenchCall.setup idx])
  else
    (-1, Function.update s.param.TransferHandles idx h, s.calls)

/-- The part of one pass of the submit loop of `TransferAsync` that works on
the handle at `TransferHandleNextIndex`, from the top of the loop body to the
test of the submit result: whether `goto Done` is taken, the value of `ret`,
the handle array and the call record. -/
def TransferAsync_submit_pass (env : BenchEnv) (s : BenchState) (ret : Int) :
    Bool × Int × (Int → BM_TRANSFER_HANDLE) × List BenchCall :=
  let idx := s.param.TransferHandleNextIndex
  let su : Int × (Int → BM_TRANSFER_HANDLE) × List BenchCall :=
    if (s.param.TransferHandles idx).Context = none then TransferAsync_setup env s idx
    else (ret, s.param.TransferHandles, s.calls)
  if (s.param.TransferHandles idx).Context = none ∧ su.1 < 0 then
    (true, su.1, su.2.1, su.2.2)
  else
    let r := env.submit su.2.2.length
    (decide (r < 0), r,
      Function.update su.2.1 idx { su.2.1 idx with ReturnCode := r },
      su.2.2 ++ [BenchCall.submit idx])

/-- The submit loop of `TransferAsync`: whether it left through `goto Done`,
the value of `ret`, the handle stored through `handleRef`, and the state. -/
def TransferAsync_submit_loop (env : BenchEnv) (s : BenchState) (ret : Int)
    (handleRef : Option Int) : Bool × Int × Option Int × BenchState :=
  if _hloop : s.param.OutstandingTransferCount < s.param.Test.BufferCount then
    if (TransferAsync_submit_pass env s ret).1 = true then
      (true, (TransferAsync_submit_pass env s ret).2.1, some s.param.TransferHandleNextIndex,
        { param :=
            { s.param with TransferHandles := (TransferAsync_submit_pass env s ret).2.2.1 }
          calls := (TransferAsync_submit_pass env s ret).2.2.2 })
    else
      TransferAsync_submit_loop env
        { param :=
            { s.param with
              TransferHandles :=
                Function.update (TransferAsync_submit_pass env s ret).2.2.1
                  s.param.TransferHandleNextIndex
                  { (TransferAsync_submit_pass env s ret).2.2.1
                      s.param.TransferHandleNextIndex with InUse := 1 }
              OutstandingTransferCount := s.param.OutstandingTransferCount + 1
              TransferHandleNextIndex :=
                INC_ROLL s.param.TransferHandleNextIndex s.param.Test.BufferCount }
          calls := (TransferAsync_submit_pass env s ret).2.2.2 }
        (TransferAsync_submit_pass env s ret).2.1 (some s.param.TransferHandleNextIndex)
  else (false, ret, handleRef, s)
termination_by (s.param.Test.BufferCount - s.param.OutstandingTransferCount).toNat
decreasing_by
  omega

/-- `TransferAsync`: the value returned, the handle stored through `handleRef`
(`none` is `NULL`), and the state after the call. -/
def TransferAsync (env : BenchEnv) (s : BenchState) : Int × Option Int × BenchState :=
  let l := TransferAsync_submit_loop env s (-EFAULT) none
  if l.1 = true then (l.2.1, l.2.2.1, l.2.2.2)
  else if l.2.2.2.param.OutstandingTransferCount = l.2.2.2.param.Test.BufferCount then
    let p := l.2.2.2.param
    let idx := p.TransferHandleWaitIndex
    let r := env.reap l.2.2.2.calls.length
    let handles1 := Function.update p.TransferHandles idx
      { p.TransferHandles idx with ReturnCode := r }
    let calls1 := l.2.2.2.calls ++ [BenchCall.reap idx (p.TransferHandles idx).InUse]
    if r < 0 then (r, some idx, { param := { p with TransferHandles := handles1 }, calls := calls1 })
    else
      (r, some idx,
        { param :=
            { p with
              TransferHandles := Function.update handles1 idx { handles1 idx with InUse := 0 }
              OutstandingTransferCount := p.OutstandingTransferCount - 1
              TransferHandleWaitIndex := INC_ROLL p.TransferHandleWaitIndex p.Test.BufferCount }
          calls := calls1 })
  else (l.2.1, l.2.2.1, l.2.2.2)

/-- The state after `k` calls of `TransferAsync` in a row. -/
def run_TransferAsync (env : BenchEnv) (k : Nat) (s : BenchState) : BenchState :=
  match k with
  | 0 => s
  | k + 1 => (TransferAsync env (run_TransferAsync env k s)).2.2

/-- A window that starts zeroed, with no call made yet. -/
def fresh_window (test : BM_TEST_PARAM) (ep : usb_endpoint_descriptor) : BenchState :=
  { param := fresh_transfer_param test ep, calls := [] }

/-- An async layer in which every setup, submit and reap succeeds; each reap
returns a full buffer of 4096 bytes. -/
def bench_env_ok : BenchEnv :=
  { setup := fun k => some (k + 1), submit := fun _ => 0, reap := fun _ => 4096 }

/-- The window invariant in linear form: the counters are in range, the
next-submit index is the wait index advanced by the outstanding count around
the ring, every slot of the ring from the wait index on, for the outstanding
count, is marked `InUse`, and every slot handed to a reap so far was. -/
def window_ok (s : BenchState) : Prop :=
  0 ≤ s.param.OutstandingTransferCount ∧
  s.param.OutstandingTransferCount ≤ s.param.Test.BufferCount ∧
  0 ≤ s.param.TransferHandleNextIndex ∧
  s.param.TransferHandleNextIndex < s.param.Test.BufferCount ∧
  0 ≤ s.param.TransferHandleWaitIndex ∧
  s.param.TransferHandleWaitIndex < s.param.Test.BufferCount ∧
  (s.param.TransferHandleWaitIndex + s.param.OutstandingTransferCount <
      s.param.Test.BufferCount →
    s.param.TransferHandleNextIndex =
      s.param.TransferHandleWaitIndex + s.param.OutstandingTransferCount) ∧
  (s.param.Test.BufferCount ≤
      s.param.TransferHandleWaitIndex + s.param.OutstandingTransferCount →
    s.param.TransferHandleNextIndex =
      s.param.TransferHandleWaitIndex + s.param.OutstandingTransferCount -
        s.param.Test.BufferCount) ∧
  (∀ idx : Int,
    ((s.param.TransferHandleWaitIndex ≤ idx ∧ idx < s.param.Test.BufferCount ∧
        idx < s.param.TransferHandleWaitIndex + s.param.OutstandingTransferCount) ∨
      (0 ≤ idx ∧ idx + s.param.Test.BufferCount <
        s.param.TransferHandleWaitIndex + s.param.OutstandingTransferCount)) →
    (s.param.TransferHandles idx).InUse = 1) ∧
  (∀ idx u : Int, BenchCall.reap idx u ∈ s.calls → u = 1)

/-- The ring slots of the submit calls in a call record, in the order made. -/
def submitted_slots (calls : List BenchCall) : List Int :=
  calls.filterMap (fun c => match c with
    | BenchCall.submit slot => some slot
    | _ => none)

/-- The ring slots of the reap calls in a call record, in the order made. -/
def reaped_slots (calls : List BenchCall) : List Int :=
  calls.filterMap (fun c => match c with
    | BenchCall.reap slot _ => some slot
    | _ => none)

/-! ## Benchmark: test pattern and its verification -/

/-- One pass of the `for` loop of `CreateVerifyBuffer`, on the buffer and
`indexC`: the store of `indexC++` (an `unsigned char`) at index `i` and the
step from 0 to 1 after a roll-over. -/
def CreateVerifyBuffer_step (st : (Int → Int) × Int) (i : Nat) : (Int → Int) × Int :=
  let indexC := (st.2 + 1) % 256
  (Function.update st.1 (i : Int) st.2, if indexC = 0 then 1 else indexC)

/-- `CreateVerifyBuffer` when `malloc` succeeds: the contents of `VerifyBuffer`,
from the contents `mem` of the fresh block; `VerifyBufferSize` is set to
`endpointMaxPacketSize`. -/
def CreateVerifyBuffer (endpointMaxPacketSize : Int) (mem : Int → Int) : Int → Int :=
  ((List.range endpointMaxPacketSize.toNat).foldl CreateVerifyBuffer_step (mem, 0)).1

/-- One pass of the inner `for` loop of the pattern generator of
`CreateTransferParam`, on `Buffer`, `bufferIndex` and `indexC`. -/
def CreateTransferParam_fill_step (packetIndex : Int) (st : (Int → Int) × Int × Int)
    (dataIndex : Nat) : (Int → Int) × Int × Int :=
  let w : (Int → Int) × Int :=
    if dataIndex = 0 then (Function.update st.1 st.2.1 0, st.2.2)
    else if dataIndex = 1 then (Function.update st.1 st.2.1 (Int.land packetIndex 0xFF), st.2.2)
    else (Function.update st.1 st.2.1 st.2.2, (st.2.2 + 1) % 256)
  (w.1, st.2.1 + 1, if w.2 = 0 then 1 else w.2)

/-- One pass of the outer `for` loop of the pattern generator, on `Buffer` and
`bufferIndex`: `indexC` restarts at 2 and one packet is written. -/
def CreateTransferParam_fill_packet (wMaxPacketSize : Int) (st : (Int → Int) × Int)
    (packetIndex : Nat) : (Int → Int) × Int :=
  let r := (List.range wMaxPacketSize.toNat).foldl
    (CreateTransferParam_fill_step (packetIndex : Int)) (st.1, st.2, 2)
  (r.1, r.2.1)

/-- The pattern generator of `CreateTransferParam` (the block under
`Test->Verify` for a write endpoint of a loop test): the contents of `Buffer`
after it, from the contents before. -/
def CreateTransferParam_fill (p : BM_TRANSFER_PARAM) (Buffer : Int → Int) : Int → Int :=
  let packetCount := Int.tdiv (p.Test.BufferCount * p.Test.BufferSize) p.Ep.wMaxPacketSize
  ((List.range packetCount.toNat).foldl
    (CreateTransferParam_fill_packet p.Ep.wMaxPacketSize) (Buffer, 0)).1

/-- The locals of `VerifyData` and the contents of `VerifyBuffer`, with the
record of the `data mismatch` lines written so far, each as the pair
`(packetIndex, dataIndex)` it prints. -/
structure VerifyState where
  verifyData : Int → Int
  keyC : Int
  seedKey : Int
  dataLeft : Int
  dataIndex : Int
  packetIndex : Int
  mismatches : List (Int × Int)

/-- Whether `memcmp(&data[dataIndex], verifyData, verifyDataSize)` is not 0. -/
def memcmp_differs (data : Int → Int) (dataIndex : Int) (verifyData : Int → Int)
    (verifyDataSize : Int) : Bool :=
  (List.range verifyDataSize.toNat).any
    (fun i => decide (data (dataIndex + (i : Int)) ≠ verifyData (i : Int)))

/-- One pass of the `while` loop of `VerifyData`; `VerifyBufferSize` is the
field of `transferParam->Test`. The lines printed under `VerifyDetails` are
left out: they change no variable. -/
def VerifyData_pass (VerifyBufferSize : Int) (data : Int → Int) (st : VerifyState) :
    VerifyState :=
  let verifyDataSize := if st.dataLeft > VerifyBufferSize then VerifyBufferSize else st.dataLeft
  let keyC :=
    if st.seedKey ≠ 0 then data (st.dataIndex + 1)
    else if data (st.dataIndex + 1) = 0 then 0
    else (st.keyC + 1) % 256
  let verifyData := Function.update st.verifyData 1 keyC
  let differs := memcmp_differs data st.dataIndex verifyData verifyDataSize
  { verifyData := verifyData
    keyC := keyC
    seedKey := if differs = true then 1 else 0
    dataLeft := st.dataLeft - verifyDataSize
    dataIndex := st.dataIndex + verifyDataSize
    packetIndex := st.packetIndex + 1
    mismatches :=
      if differs = true then st.mismatches ++ [(st.packetIndex, st.dataIndex)]
      else st.mismatches }

/-- The `while (dataLeft > 1)` loop of `VerifyData` for a positive
`VerifyBufferSize`, which makes every pass consume at least one byte. -/
def VerifyData_loop (VerifyBufferSize : Int) (data : Int → Int) (st : VerifyState) :
    VerifyState :=
  if _hloop : st.dataLeft > 1 ∧ 0 < VerifyBufferSize then
    VerifyData_loop VerifyBufferSize data (VerifyData_pass VerifyBufferSize data st)
  else st
termination_by st.dataLeft.toNat
decreasing_by
  show (st.dataLeft -
    (if st.dataLeft > VerifyBufferSize then VerifyBufferSize else st.dataLeft)).toNat <
    st.dataLeft.toNat
  split_ifs <;> omega

/-- `VerifyData`: the value returned and the final state, or `none` when the
loop is entered with a `VerifyBufferSize` that is not positive, with which it
does not come to an end. -/
def VerifyData (VerifyBufferSize : Int) (VerifyBuffer : Int → Int) (data : Int → Int)
    (dataLength : Int) : Option (Int × VerifyState) :=
  if dataLength > 1 ∧ VerifyBufferSize ≤ 0 then none
  else
    some (0, VerifyData_loop VerifyBufferSize data
      { verifyData := VerifyBuffer, keyC := 0, seedKey := 1, dataLeft := dataLength,
        dataIndex := 0, packetIndex := 0, mismatches := [] })

/-- Packet `p` of a stream of packets of `s` bytes follows the data format
noted at the generator: byte 0 is 0, byte 1 is the key, and the bytes from
index 2 on count up from 2 and go from 255 to 1. -/
def well_formed_packet (s : Int) (data : Int → Int) (p key : Int) : Prop :=
  data (p * s) = 0 ∧ data (p * s + 1) = key ∧
  ∀ d : Int, 2 ≤ d → d < s → data (p * s + d) = (d - 1) % 255 + 1

/-- A transfer param of a verify test with two buffers of 8 bytes on a bulk OUT
endpoint with 4-byte packets: four packets in all. -/
def sample_verify_param : BM_TRANSFER_PARAM :=
  fresh_transfer_param
    { Timeout := 1000, Retry := 0, BufferSize := 8, BufferCount := 2,
      IsoPacketSize := 0, Verify := 1, IsCancelled := 0, IsUserAborted := 0 }
    { bEndpointAddress := 0x01, bmAttributes := 2, wMaxPacketSize := 4 }

/-- The invariant of the loop of `VerifyData` at the start of packet `q` of a
stream of `N` packets of `s` bytes with keys counting up from `k0`, in which
packet `j` is the one that is reported (no packet when `j` is negative): the
position, the bytes of `verifyData` other than the key, the key state (seeding
at the start and right after packet `j`, the key of the packet before
otherwise), and the lines written so far. -/
def verify_inv (s N j k0 q : Int) (st : VerifyState) : Prop :=
  st.dataIndex = q * s ∧ st.dataLeft = (N - q) * s ∧ st.packetIndex = q ∧
  st.verifyData 0 = 0 ∧
  (∀ d : Int, 2 ≤ d → d < s → st.verifyData d = (d - 1) % 255 + 1) ∧
  ((st.seedKey ≠ 0 ∧ (q = 0 ∨ q = j + 1)) ∨
    (st.seedKey = 0 ∧ 1 ≤ q ∧ q ≠ j + 1 ∧ st.keyC = (k0 + (q - 1)) % 256)) ∧
  st.mismatches = (if 0 ≤ j ∧ j < q then [(j, j * s)] else [])

/-- The buffer of `sample_verify_param` after the pattern generator, from a
zeroed buffer: the four packets `0 0 2 3`, `0 1 2 3`, `0 2 2 3`, `0 3 2 3`. -/
def sample_pattern : Int → Int :=
  CreateTransferParam_fill sample_verify_param (fun _ => 0)

/-! ## Kernel driver detach (`core_linux.c`) -/

/-- Value of `ENODATA` in `errno.h` on Linux. -/
def ENODATA : Int := 61

def LIBUSB_ERROR_OTHER : Int := -99

/-- `usb_detach_kernel_driver_np`, from the result of
`libusb_detach_kernel_driver`: the value returned and the value of `errno` on
return.  `r` holds what `compat_err` evaluates to, minus the errno
translation, and the `switch` is taken on that value. -/
def usb_detach_kernel_driver_np (driver_result : Int) : Int × Int :=
  let errno := libusb_to_errno driver_result
  let r := -errno
  if r = LIBUSB_SUCCESS then (0, errno)
  else if r = LIBUSB_ERROR_NOT_FOUND then (-ENODATA, errno)
  else if r = LIBUSB_ERROR_INVALID_PARAM then (-EINVAL, errno)
  else if r = LIBUSB_ERROR_NO_DEVICE then (-ENODEV, errno)
  else if r = LIBUSB_ERROR_OTHER then (-errno, errno)
  else (-ENOSYS, errno)

/-! ## The event thread (`core_linux.c`) -/

/-- Value of `ASYNC_TIMVAL_SEC`. -/
def ASYNC_TIMVAL_SEC : Int := 1

/-- A call made by one iteration of the loop of `async_event_handler`. -/
inductive EventCall where
  | libusb_lock_events
  | libusb_unlock_events
  | Mpl_Event_Wait_running (rel_milliseconds : Int)
  | libusb_event_handling_ok
  | libusb_handle_events_locked (tv_sec : Int)
deriving DecidableEq, Repr

/-- What one iteration of the loop of `async_event_handler` reads from outside
the thread: the value of `async_thread.fly_count` at the outer test and at the
inner test (other threads change it in between), and the answer of
`libusb_event_handling_ok`. -/
structure EventPassReads where
  fly_count_outer : Int
  fly_count_inner : Int
  event_handling_ok : Int
deriving DecidableEq, Repr

/-- One iteration of the `while (async_thread.is_run > 0)` loop of
`async_event_handler` (with `ALLOW_HANDLE_EVENTS_THREAD_IDLE` defined, as in
the file), from the value of `events_locked`: its new value and the calls
made, in order. -/
def async_event_handler_pass (reads : EventPassReads) (events_locked : Int) :
    Int × List EventCall :=
  let lock : List EventCall :=
    if events_locked = 0 then [EventCall.libusb_lock_events] else []
  if reads.fly_count_outer = 0 then
    (0, lock ++ [EventCall.libusb_unlock_events] ++
      (if reads.fly_count_inner = 0 then
        [EventCall.Mpl_Event_Wait_running (ASYNC_TIMVAL_SEC * 1000)]
       else []))
  else if reads.event_handling_ok = 0 then
    (0, lock ++ [EventCall.libusb_event_handling_ok, EventCall.libusb_unlock_events])
  else
    (1, lock ++ [EventCall.libusb_event_handling_ok,
      EventCall.libusb_handle_events_locked ASYNC_TIMVAL_SEC])

/-- The loop of `async_event_handler`, fed with the value of
`async_thread.is_run` and the reads of each iteration, in order: the value of
`events_locked` and the calls made when the loop is left or the iterations run
out. -/
def async_event_handler_loop (iterations : List (Int × EventPassReads))
    (events_locked : Int) : Int × List EventCall :=
  match iterations with
  | [] => (events_locked, [])
  | (is_run, reads) :: rest =>
    if is_run > 0 then
      ((async_event_handler_loop rest (async_event_handler_pass reads events_locked).1).1,
        (async_event_handler_pass reads events_locked).2 ++
          (async_event_handler_loop rest (async_event_handler_pass reads events_locked).1).2)
    else (events_locked, [])

/-- `async_start_events`, from the result of `Mpl_Thread_Init`: the value
returned, the thread state afterwards, and the number of event threads
created. -/
def async_start_events (thread_init : Int) (t : usb_async_thread_t) :
    Int × usb_async_thread_t × Nat :=
  if t.is_run ≠ 0 then (0, t, 0)
  else
    let is_run := MPL_Atomic_Inc32 t.is_run
    if is_run = 1 then
      if thread_init = MPL_SUCCESS then
        (thread_init,
          { t with is_run := is_run, event_running := Mpl_Event_Set t.event_running }, 1)
      else (thread_init, { t with is_run := MPL_Atomic_Dec32 is_run }, 0)
    else (0, { t with is_run := MPL_Atomic_Dec32 is_run }, 0)

/-! ## Library start-up (`core_linux.c`) -/

/-- The globals of `core_linux.c` that `usb_init` and `usb_initex` use, with
the number of `libusb_init` calls made so far as an observer. -/
structure LibState where
  ctx : Option Nat
  g_usb0_lib_init_lock : Int
  errno : Int
  async_thread : usb_async_thread_t
  libusb_init_calls : Nat
deriving DecidableEq, Repr

/-- The results of the calls that `usb_initex` makes: `libusb_init` (which
stores a context unless it fails), `Mpl_Init`, `Mpl_Mutex_Init`, the two
`Mpl_Event_Init` calls and, inside `async_start_events`, `Mpl_Thread_Init`. -/
structure InitEnv where
  libusb_init : Int
  Mpl_Init : Int
  Mpl_Mutex_Init : Int
  Mpl_Event_Init_running : Int
  Mpl_Event_Init_terminated : Int
  Mpl_Thread_Init : Int
deriving DecidableEq, Repr

/-- `usb_init`. -/
def usb_init (env : InitEnv) (s : LibState) : LibState :=
  match s.ctx with
  | some _ => s
  | none =>
    if env.libusb_init < 0 then
      { s with
        libusb_init_calls := s.libusb_init_calls + 1
        g_usb0_lib_init_lock := MPL_Atomic_Dec32 s.g_usb0_lib_init_lock }
    else
      { s with
        libusb_init_calls := s.libusb_init_calls + 1
        ctx := some 1
        async_thread := ⟨0, 0, ⟨0, 0⟩, ⟨0, 0⟩⟩ }

/-- The clean-up common to the failing paths of `usb_initex` after `usb_init`:
`libusb_exit(ctx); ctx = NULL;`, the decrement of the lock and
`return -(errno=r)`. -/
def usb_initex_fail (r : Int) (s : LibState) : Int × LibState :=
  (-r,
    { s with
      ctx := none
      g_usb0_lib_init_lock := MPL_Atomic_Dec32 s.g_usb0_lib_init_lock
      errno := r })

/-- `usb_initex`: the value returned and the globals afterwards. -/
def usb_initex (env : InitEnv) (s : LibState) : Int × LibState :=
  let s0 : LibState :=
    { s with g_usb0_lib_init_lock := MPL_Atomic_Inc32 s.g_usb0_lib_init_lock }
  if s0.g_usb0_lib_init_lock = 1 then
    let s1 := usb_init env s0
    match s1.ctx with
    | none =>
      (-s1.errno,
        { s1 with g_usb0_lib_init_lock := MPL_Atomic_Dec32 s1.g_usb0_lib_init_lock })
    | some _ =>
      if env.Mpl_Init ≠ MPL_SUCCESS then usb_initex_fail env.Mpl_Init s1
      else if env.Mpl_Mutex_Init ≠ MPL_SUCCESS then usb_initex_fail env.Mpl_Mutex_Init s1
      else
        let s2 : LibState :=
          { s1 with async_thread := { s1.async_thread with event_running := ⟨1, 0⟩ } }
        if env.Mpl_Event_Init_running ≠ MPL_SUCCESS then
          usb_initex_fail env.Mpl_Event_Init_running s2
        else
          let s3 : LibState :=
            { s2 with async_thread := { s2.async_thread with event_terminated := ⟨0, 0⟩ } }
          if env.Mpl_Event_Init_terminated ≠ MPL_SUCCESS then
            usb_initex_fail env.Mpl_Event_Init_terminated s3
          else
            let st := async_start_events env.Mpl_Thread_Init s3.async_thread
            let s4 : LibState := { s3 with async_thread := st.2.1 }
            if st.1 ≠ 0 then usb_initex_fail st.1 s4 else (st.1, s4)
  else (0, s0)

/-- The globals before the first call of `usb_initex`. -/
def lib_start : LibState :=
  { ctx := none, g_usb0_lib_init_lock := 0, errno := 0,
    async_thread := ⟨0, 0, ⟨0, 0⟩, ⟨0, 0⟩⟩, libusb_init_calls := 0 }

/-- An environment in which `libusb_init` fails with `LIBUSB_ERROR_OTHER`. -/
def init_env_no_usb : InitEnv :=
  { libusb_init := -99, Mpl_Init := 0, Mpl_Mutex_Init := 0, Mpl_Event_Init_running := 0,
    Mpl_Event_Init_terminated := 0, Mpl_Thread_Init := 0 }

/-- An environment in which every start-up call succeeds. -/
def init_env_ok : InitEnv :=
  { libusb_init := 0, Mpl_Init := 0, Mpl_Mutex_Init := 0, Mpl_Event_Init_running := 0,
    Mpl_Event_Init_terminated := 0, Mpl_Thread_Init := 0 }

/-- The number of bytes one pass of `VerifyData` compares and consumes. -/
def verifyDataSize (VerifyBufferSize : Int) (st : VerifyState) : Int :=
  if st.dataLeft > VerifyBufferSize then VerifyBufferSize else st.dataLeft

/-- Two packets of four bytes with the given keys and the data bytes 2, 3. -/
def sample_two_packets (key0 key1 : Int) : Int → Int :=
  fun i => ([0, key0, 2, 3, 0, key1, 2, 3] : List Int).getD i.toNat 0

/-- A transfer param of a verify test with one buffer of 1028 bytes on a bulk
OUT endpoint with 4-byte packets: 257 packets. -/
def sample_long_param : BM_TRANSFER_PARAM :=
  fresh_transfer_param
    { Timeout := 1000, Retry := 0, BufferSize := 1028, BufferCount := 1,
      IsoPacketSize := 0, Verify := 1, IsCancelled := 0, IsUserAborted := 0 }
    { bEndpointAddress := 0x01, bmAttributes := 2, wMaxPacketSize := 4 }

/-! ## Benchmark: the window on top of the async layer -/

/-- The two early returns of `Mpl_Event_Wait` (`mpl_threads.c`): on an event
that is set the call returns `MPL_SUCCESS` without blocking, and only an
auto-reset event is cleared by it.  `none` is the case in which the call goes
on to the condition wait. -/
def Mpl_Event_Wait_signalled (e : MPL_EVENT_T) : Option (Int × MPL_EVENT_T) :=
  if e.IsSet ≠ 0 then
    some (MPL_SUCCESS, if e.IsAuto ≠ 0 then { e with IsSet := 0 } else e)
  else none

/-- What the worker of the benchmark meets below the async layer, by the
number of calls `TransferAsync` has made before: the context pointer stored by
a setup call (`none` when it fails with `-ENOMEM`), the driver's answer to the
submit request, and the outcome of the wait of a reap when that wait has to
block. -/
structure WorkerEnv where
  setup : Nat → Option Nat
  libusb_submit_transfer : Nat → Int
  blocked : Nat → WaitOutcome

/-- The environment of `usb_reap_async_nocancel` on the context `c`: the wait
on the completion event returns at once when the event is set; otherwise it
blocks with the outcome `blocked`, in which the driver can complete the
transfer only if one is in flight (ref-count 2 before the reap). -/
def reap_env (c : usb_async_transfer_t) (blocked : WaitOutcome) : Env :=
  { libusb_submit_transfer := fun _ => LIBUSB_SUCCESS
    libusb_cancel_transfer := fun _ => LIBUSB_SUCCESS
    wait := fun _ _ =>
      match Mpl_Event_Wait_signalled c.complete_event with
      | some r => ⟨r.1, none⟩
      | none => if c.ref_count = 2 then blocked else ⟨blocked.ret, none⟩ }

/-- A blocking wait returns an `MPL_` code, which is not negative, and returns
`MPL_SUCCESS` only when the event was set meanwhile, which only the completion
callback does. -/
def blocked_ok (o : WaitOutcome) : Prop :=
  0 ≤ o.ret ∧ (o.ret = MPL_SUCCESS → o.completion ≠ none)

/-- The transfer param with the context objects behind its handles:
`objects i` is what `TransferHandles[i].Context` points to when that pointer
is not null. -/
structure WorkerState where
  param : BM_TRANSFER_PARAM
  calls : List BenchCall
  objects : Int → usb_async_transfer_t
  m : Machine

/-- The setup answers of a `WorkerEnv` as a `BenchEnv`. -/
def worker_bench_env (env : WorkerEnv) : BenchEnv :=
  { setup := env.setup, submit := fun _ => 0, reap := fun _ => 0 }

/-- The context object that the setup call of `TransferAsync` creates for the
endpoint type of the transfer param. -/
def worker_new_object (p : BM_TRANSFER_PARAM) : usb_async_transfer_t :=
  if ENDPOINT_TYPE p = USB_ENDPOINT_TYPE_ISOCHRONOUS then
    usb_isochronous_setup_async 0 0 p.Ep.bEndpointAddress
      (if p.IsoPacketSize ≠ 0 then p.IsoPacketSize else p.Ep.wMaxPacketSize)
  else if ENDPOINT_TYPE p = USB_ENDPOINT_TYPE_BULK then
    usb_setup_async 0 0 LIBUSB_TRANSFER_TYPE_BULK p.Ep.bEndpointAddress 0
  else
    usb_setup_async 0 0 LIBUSB_TRANSFER_TYPE_INTERRUPT p.Ep.bEndpointAddress 0

/-- The block `if (!handle->Context)` of `TransferAsync` on the async layer:
`TransferAsync_setup` for the handle, and the fresh context object when the
setup call returned 0. -/
def worker_setup (env : WorkerEnv) (w : WorkerState) (idx : Int) : Int × WorkerState :=
  let b := TransferAsync_setup (worker_bench_env env) ⟨w.param, w.calls⟩ idx
  (b.1,
    { param := { w.param with TransferHandles := b.2.1 }
      calls := b.2.2
      objects :=
        if b.1 = 0 then Function.update w.objects idx (worker_new_object w.param)
        else w.objects
      m := w.m })

/-- The context argument of a layer call for the handle at `idx`. -/
def worker_context (w : WorkerState) (idx : Int) : Option usb_async_transfer_t :=
  if (w.param.TransferHandles idx).Context = none then none else some (w.objects idx)

/-- The statement `handle->ReturnCode = ret = usb_submit_async(...)` of
`TransferAsync` for the handle at `idx`: the value of `ret` and the state. -/
def worker_submit (env : WorkerEnv) (w : WorkerState) (idx : Int) : Int × WorkerState :=
  let h := w.param.TransferHandles idx
  let sub := usb_submit_async (api_env (env.libusb_submit_transfer w.calls.length) 0 0 0)
    (worker_context w idx) (some h.Data.toNat) h.DataMaxLength w.m
  (sub.1,
    { param :=
        { w.param with
          TransferHandles :=
            Function.update w.param.TransferHandles idx { h with ReturnCode := sub.1 } }
      calls := w.calls ++ [BenchCall.submit idx]
      objects :=
        match sub.2.1 with
        | some c => Function.update w.objects idx c
        | none => w.objects
      m := sub.2.2 })

/-- One pass of the submit loop of `TransferAsync` on the async layer, from
the top of the loop body to the test of the submit result: whether
`goto Done` is taken, the value of `ret`, and the state. -/
def worker_submit_pass (env : WorkerEnv) (w : WorkerState) (ret : Int) :
    Bool × Int × WorkerState :=
  let idx := w.param.TransferHandleNextIndex
  let su : Int × WorkerState :=
    if (w.param.TransferHandles idx).Context = none then worker_setup env w idx else (ret, w)
  if (w.param.TransferHandles idx).Context = none ∧ su.1 < 0 then (true, su.1, su.2)
  else
    (decide ((worker_submit env su.2 idx).1 < 0), (worker_submit env su.2 idx).1,
      (worker_submit env su.2 idx).2)

/-- The submit loop of `TransferAsync` on the async layer. -/
def worker_submit_loop (env : WorkerEnv) (w : WorkerState) (ret : Int)
    (handleRef : Option Int) : Bool × Int × Option Int × WorkerState :=
  if _hloop : w.param.OutstandingTransferCount < w.param.Test.BufferCount then
    if (worker_submit_pass env w ret).1 = true then
      (true, (worker_submit_pass env w ret).2.1, some w.param.TransferHandleNextIndex,
        { param :=
            { w.param with
              TransferHandles := (worker_submit_pass env w ret).2.2.param.TransferHandles }
          calls := (worker_submit_pass env w ret).2.2.calls
          objects := (worker_submit_pass env w ret).2.2.objects
          m := (worker_submit_pass env w ret).2.2.m })
    else
      worker_submit_loop env
        { param :=
            { w.param with
              TransferHandles :=
                Function.update (worker_submit_pass env w ret).2.2.param.TransferHandles
                  w.param.TransferHandleNextIndex
                  { (worker_submit_pass env w ret).2.2.param.TransferHandles
                      w.param.TransferHandleNextIndex with InUse := 1 }
              OutstandingTransferCount := w.param.OutstandingTransferCount + 1
              TransferHandleNextIndex :=
                INC_ROLL w.param.TransferHandleNextIndex w.param.Test.BufferCount }
          calls := (worker_submit_pass env w ret).2.2.calls
          objects := (worker_submit_pass env w ret).2.2.objects
          m := (worker_submit_pass env w ret).2.2.m }
        (worker_submit_pass env w ret).2.1 (some w.param.TransferHandleNextIndex)
  else (false, ret, handleRef, w)
termination_by (w.param.Test.BufferCount - w.param.OutstandingTransferCount).toNat
decreasing_by
  omega

/-- The statement `handle->ReturnCode = ret = usb_reap_async_nocancel(...)` of
`TransferAsync` for the handle at `idx`: the value of `ret` and the state. -/
def worker_reap (env : WorkerEnv) (w : WorkerState) (idx : Int) : Int × WorkerState :=
  let h := w.param.TransferHandles idx
  let rp := usb_reap_async_nocancel (reap_env (w.objects idx) (env.blocked w.calls.length))
    (worker_context w idx) w.param.Test.Timeout w.m
  (rp.1,
    { param :=
        { w.param with
          TransferHandles :=
            Function.update w.param.TransferHandles idx { h with ReturnCode := rp.1 } }
      calls := w.calls ++ [BenchCall.reap idx h.InUse]
      objects :=
        match rp.2.1 with
        | some c => Function.update w.objects idx c
        | none => w.objects
      m := rp.2.2 })

/-- `TransferAsync` on the async layer: the value returned, the handle stored
through `handleRef`, and the state after the call. -/
def worker_TransferAsync (env : WorkerEnv) (w : WorkerState) :
    Int × Option Int × WorkerState :=
  let l := worker_submit_loop env w (-EFAULT) none
  if l.1 = true then (l.2.1, l.2.2.1, l.2.2.2)
  else if l.2.2.2.param.OutstandingTransferCount = l.2.2.2.param.Test.BufferCount then
    let idx := l.2.2.2.param.TransferHandleWaitIndex
    let rp := worker_reap env l.2.2.2 idx
    if rp.1 < 0 then (rp.1, some idx, rp.2)
    else
      (rp.1, some idx,
        { param :=
            { l.2.2.2.param with
              TransferHandles :=
                Function.update rp.2.param.TransferHandles idx
                  { rp.2.param.TransferHandles idx with InUse := 0 }
              OutstandingTransferCount := l.2.2.2.param.OutstandingTransferCount - 1
              TransferHandleWaitIndex :=
                INC_ROLL l.2.2.2.param.TransferHandleWaitIndex
                  l.2.2.2.param.Test.BufferCount }
          calls := rp.2.calls, objects := rp.2.objects, m := rp.2.m })
  else (l.2.1, l.2.2.1, l.2.2.2)

/-- What happens to the worker's state from outside a `TransferAsync` call:
the worker makes its next call, or the driver completes the transfer of a slot
with the given status and byte count. -/
inductive WorkerEvent where
  | call
  | completion (slot status actual_length : Int)
deriving DecidableEq, Repr

/-- The driver completes the transfer in flight on a slot (ref-count 2): it
stores the status and the byte count and runs `async_bulk_cb`.  A slot with no
transfer in flight is left alone. -/
def worker_completion (w : WorkerState) (slot status actual_length : Int) : WorkerState :=
  if (w.param.TransferHandles slot).Context ≠ none ∧ (w.objects slot).ref_count = 2 then
    let cb := async_bulk_cb
      { w.objects slot with
        transfer :=
          { (w.objects slot).transfer with status := status, actual_length := actual_length } }
      w.m
    { w with objects := Function.update w.objects slot cb.1, m := cb.2 }
  else w

/-- One event of the worker's life. -/
def worker_step (env : WorkerEnv) (w : WorkerState) (e : WorkerEvent) : WorkerState :=
  match e with
  | WorkerEvent.call => (worker_TransferAsync env w).2.2
  | WorkerEvent.completion slot status actual_length =>
    worker_completion w slot status actual_length

/-- The state after a finite sequence of events, first to last. -/
def worker_run (env : WorkerEnv) (events : List WorkerEvent) (w : WorkerState) :
    WorkerState :=
  events.foldl (worker_step env) w

/-- The worker's state before its first `TransferAsync` call. -/
def fresh_worker (test : BM_TEST_PARAM) (ep : usb_endpoint_descriptor) : WorkerState :=
  { param := fresh_transfer_param test ep, calls := [], objects := fun _ => bulk_idle,
    m := idle_machine }

/-- Whether `idx` lies in the ring window of outstanding transfers, which
starts at the wait index and holds `OutstandingTransferCount` slots. -/
def in_window (p : BM_TRANSFER_PARAM) (idx : Int) : Prop :=
  (p.TransferHandleWaitIndex ≤ idx ∧ idx < p.Test.BufferCount ∧
      idx < p.TransferHandleWaitIndex + p.OutstandingTransferCount) ∨
    (0 ≤ idx ∧ idx + p.Test.BufferCount <
      p.TransferHandleWaitIndex + p.OutstandingTransferCount)

/-- The state of one slot: a handle with no context is not in use; a context
has a manual-reset completion event; behind a handle that is not in use it is
idle (ref-count 1), and behind a handle in use its transfer is in flight
(ref-count 2, event not set) or has completed (ref-count 1, event set). -/
def slot_ok (h : BM_TRANSFER_HANDLE) (c : usb_async_transfer_t) : Prop :=
  (h.Context = none → h.InUse = 0) ∧
  (h.Context ≠ none →
    c.complete_event.IsAuto = 0 ∧
    ((h.InUse = 0 ∧ c.ref_count = 1) ∨
      (h.InUse ≠ 0 ∧
        ((c.ref_count = 2 ∧ c.complete_event.IsSet = 0) ∨
          (c.ref_count = 1 ∧ c.complete_event.IsSet ≠ 0)))))

/-- The invariant of the worker's state: the counters of the window are in
range and the next-submit index is the wait index advanced by the outstanding
count, every handle in use lies in the window, and every slot is in a state
that `slot_ok` allows. -/
def worker_ok (w : WorkerState) : Prop :=
  0 ≤ w.param.OutstandingTransferCount ∧
  w.param.OutstandingTransferCount ≤ w.param.Test.BufferCount ∧
  0 ≤ w.param.TransferHandleNextIndex ∧
  w.param.TransferHandleNextIndex < w.param.Test.BufferCount ∧
  0 ≤ w.param.TransferHandleWaitIndex ∧
  w.param.TransferHandleWaitIndex < w.param.Test.BufferCount ∧
  (w.param.TransferHandleWaitIndex + w.param.OutstandingTransferCount <
      w.param.Test.BufferCount →
    w.param.TransferHandleNextIndex =
      w.param.TransferHandleWaitIndex + w.param.OutstandingTransferCount) ∧
  (w.param.Test.BufferCount ≤
      w.param.TransferHandleWaitIndex + w.param.OutstandingTransferCount →
    w.param.TransferHandleNextIndex =
      w.param.TransferHandleWaitIndex + w.param.OutstandingTransferCount -
        w.param.Test.BufferCount) ∧
  (∀ idx : Int, (w.param.TransferHandles idx).InUse ≠ 0 → in_window w.param idx) ∧
  (∀ idx : Int, slot_ok (w.param.TransferHandles idx) (w.objects idx))

/-- An environment in which the driver accepts every submit and every wait
that blocks times out. -/
def worker_env_timeouts : WorkerEnv :=
  { setup := fun k => some (k + 1), libusb_submit_transfer := fun _ => LIBUSB_SUCCESS,
    blocked := fun _ => ⟨ETIMEDOUT, none⟩ }

/-! ## Basic facts about the embedding -/

theorem store_iso_length_getElem? (descs : List libusb_iso_packet_descriptor)
    (i : Nat) (p : Int) (j : Nat) :
    (store_iso_length descs i p)[j]? =
      if j = i then descs[j]?.map (fun d => { d with length := p }) else descs[j]? := by
  unfold store_iso_length
  by_cases hji : j = i
  · subst hji
    cases hd : descs[j]? with
    | none => simp [hd]
    | some d =>
      have hlt : j < descs.length := by
        rcases Nat.lt_or_ge j descs.length with h | h
        · exact h
        · rw [List.getElem?_eq_none h] at hd; cases hd
      simp [hd, List.getElem?_set_self hlt]
  · cases hd : descs[i]? with
    | none => simp [hji]
    | some d => simp [hji, List.getElem?_set_ne (Ne.symm hji)]

theorem foldl_store_iso_length_getElem? (p : Int) (k : Nat) :
    ∀ (descs : List libusb_iso_packet_descriptor) (j : Nat),
      ((List.range k).foldl (fun ds ipacket => store_iso_length ds ipacket p) descs)[j]? =
        if j < k then descs[j]?.map (fun d => { d with length := p }) else descs[j]? := by
  induction k with
  | zero => intro descs j; simp
  | succ k ih =>
    intro descs j
    rw [List.range_succ, List.foldl_append]
    simp only [List.foldl_cons, List.foldl_nil]
    rw [store_iso_length_getElem?, ih]
    by_cases hjk : j = k
    · subst hjk; simp
    · by_cases hlt : j < k
      · have : j < k + 1 := Nat.lt_succ_of_lt hlt
        simp [hjk, hlt, this]
      · have : ¬ j < k + 1 := by omega
        simp [hjk, hlt, this]

theorem set_iso_lengths_eq (descs : List libusb_iso_packet_descriptor) (n p : Int) :
    set_iso_lengths descs n p =
      (descs.take n.toNat).map (fun d => { d with length := p }) ++ descs.drop n.toNat := by
  apply List.ext_getElem?
  intro j
  unfold set_iso_lengths
  rw [foldl_store_iso_length_getElem?]
  by_cases hj : j < n.toNat
  · rw [if_pos hj]
    by_cases hl : j < descs.length
    · rw [List.getElem?_append_left (by simp only [List.length_map, List.length_take]; omega)]
      rw [List.getElem?_map, List.getElem?_take_of_lt hj]
    · have hl2 : descs.length ≤ j := Nat.le_of_not_lt hl
      rw [List.getElem?_eq_none hl2, List.getElem?_eq_none]
      · rfl
      · simp only [List.length_append, List.length_map, List.length_take, List.length_drop]
        omega
  · rw [if_neg hj]
    have hn : n.toNat ≤ j := Nat.le_of_not_lt hj
    by_cases hl : j < descs.length
    · have hlen : ((descs.take n.toNat).map
          (fun d => ({ d with length := p } : libusb_iso_packet_descriptor))).length = n.toNat := by
        simp only [List.length_map, List.length_take]; omega
      rw [List.getElem?_append_right (by omega), hlen, List.getElem?_drop]
      have h3 : n.toNat + (j - n.toNat) = j := by omega
      rw [h3]
    · have hl2 : descs.length ≤ j := Nat.le_of_not_lt hl
      rw [List.getElem?_eq_none hl2, List.getElem?_eq_none]
      simp only [List.length_append, List.length_map, List.length_take, List.length_drop]
      omega

theorem async_inc_ref_of_nonneg (c : usb_async_transfer_t) (m : Machine)
    (h : 0 ≤ c.ref_count) :
    async_inc_ref c m = (0, { c with ref_count := c.ref_count + 1 }, fly_count_inc m) := by
  unfold async_inc_ref
  have h1 : ¬ c.ref_count + 1 < 1 := by omega
  simp only [if_neg h1]

theorem async_dec_ref_of_gt_one (c : usb_async_transfer_t) (m : Machine)
    (h : 1 < c.ref_count) :
    async_dec_ref c m =
      (c.ref_count - 1, { c with ref_count := c.ref_count - 1 }, fly_count_dec m) := by
  unfold async_dec_ref
  have h1 : ¬ c.ref_count - 1 = 0 := by omega
  have h2 : ¬ c.ref_count - 1 < 0 := by omega
  simp only [if_neg h1, if_neg h2]

theorem async_dec_ref_of_eq_one (c : usb_async_transfer_t) (m : Machine)
    (h : c.ref_count = 1) :
    async_dec_ref c m =
      (0, { c with ref_count := 0 }, fly_count_dec (async_free c m)) := by
  unfold async_dec_ref
  have h1 : c.ref_count - 1 = 0 := by omega
  simp [h1, async_free]

theorem fly_count_dec_inc (m : Machine) :
    (fly_count_dec (fly_count_inc m)).async_thread.fly_count = m.async_thread.fly_count ∧
    (fly_count_dec (fly_count_inc m)).trace = m.trace ∧
    (fly_count_dec (fly_count_inc m)).freed = m.freed := by
  simp [fly_count_dec, fly_count_inc]


theorem async_submit_iso_of_not_iso (c : usb_async_transfer_t) (size : Int)
    (h : ¬ (c.legacy_iso_pktsize ≠ 0 ∧
      c.transfer.type = LIBUSB_TRANSFER_TYPE_ISOCHRONOUS)) :
    async_submit_iso c size = some c := by
  unfold async_submit_iso
  rw [if_neg h]

theorem async_submit_iso_of_rejected (c : usb_async_transfer_t) (size : Int)
    (h : c.legacy_iso_pktsize ≠ 0 ∧ c.transfer.type = LIBUSB_TRANSFER_TYPE_ISOCHRONOUS)
    (hq : Int.tdiv size c.legacy_iso_pktsize = 0 ∨
      Int.tdiv size c.legacy_iso_pktsize > 1024) :
    async_submit_iso c size = none := by
  unfold async_submit_iso
  rw [if_pos h]
  exact if_pos hq

theorem async_submit_iso_of_accepted (c : usb_async_transfer_t) (size : Int)
    (h : c.legacy_iso_pktsize ≠ 0 ∧ c.transfer.type = LIBUSB_TRANSFER_TYPE_ISOCHRONOUS)
    (hq : ¬ (Int.tdiv size c.legacy_iso_pktsize = 0 ∨
      Int.tdiv size c.legacy_iso_pktsize > 1024)) :
    async_submit_iso c size =
      some { c with transfer :=
        { c.transfer with
          num_iso_packets := Int.tdiv size c.legacy_iso_pktsize
          iso_packet_desc :=
            set_iso_lengths c.transfer.iso_packet_desc
              (Int.tdiv size c.legacy_iso_pktsize) c.legacy_iso_pktsize } } := by
  unfold async_submit_iso
  rw [if_pos h]
  exact if_neg hq

theorem async_submit_iso_ref_count (c c1 : usb_async_transfer_t) (size : Int)
    (h : async_submit_iso c size = some c1) :
    c1.ref_count = c.ref_count ∧ c1.complete_event = c.complete_event ∧
    c1.legacy_iso_pktsize = c.legacy_iso_pktsize ∧ c1.transfer.type = c.transfer.type := by
  by_cases h1 : c.legacy_iso_pktsize ≠ 0 ∧
      c.transfer.type = LIBUSB_TRANSFER_TYPE_ISOCHRONOUS
  · by_cases h2 : Int.tdiv size c.legacy_iso_pktsize = 0 ∨
        Int.tdiv size c.legacy_iso_pktsize > 1024
    · rw [async_submit_iso_of_rejected c size h1 h2] at h; cases h
    · rw [async_submit_iso_of_accepted c size h1 h2] at h
      cases h; exact ⟨rfl, rfl, rfl, rfl⟩
  · rw [async_submit_iso_of_not_iso c size h1] at h
    cases h; exact ⟨rfl, rfl, rfl, rfl⟩

theorem async_submit_attach_fields (c : usb_async_transfer_t) (bytes : Option Nat)
    (size : Int) (timeout : Nat) :
    (async_submit_attach c bytes size timeout).ref_count = c.ref_count ∧
    (async_submit_attach c bytes size timeout).complete_event.IsSet = 0 ∧
    (async_submit_attach c bytes size timeout).transfer.buffer = bytes ∧
    (async_submit_attach c bytes size timeout).transfer.length = size ∧
    (async_submit_attach c bytes size timeout).transfer.timeout = timeout ∧
    (async_submit_attach c bytes size timeout).transfer.status = LIBUSB_TRANSFER_ERROR ∧
    (async_submit_attach c bytes size timeout).transfer.actual_length = 0 ∧
    (async_submit_attach c bytes size timeout).transfer.num_iso_packets =
      c.transfer.num_iso_packets ∧
    (async_submit_attach c bytes size timeout).transfer.iso_packet_desc =
      c.transfer.iso_packet_desc := by
  refine ⟨rfl, ?_, rfl, rfl, rfl, rfl, rfl, rfl, rfl⟩
  unfold async_submit_attach Mpl_Event_Reset
  by_cases h : c.complete_event.IsSet = 0
  · simp [h]
  · simp [h]

/-- What `async_submit` computes once its argument checks have passed, with
`c1` the context after the isochronous block and `c2` the context handed to
the driver. -/
theorem async_submit_of_checked (env : Env) (c c1 : usb_async_transfer_t)
    (bytes : Option Nat) (size : Int) (timeout : Nat) (m : Machine)
    (hbuf : bytes = none → size ≤ 0) (href : c.ref_count = 1)
    (hc1 : async_submit_iso c size = some c1) :
    (env.libusb_submit_transfer
        (async_submit_attach { c1 with ref_count := 2 } bytes size timeout).transfer =
          LIBUSB_SUCCESS →
      async_submit env (some c) bytes size timeout m =
        (0, some (async_submit_attach { c1 with ref_count := 2 } bytes size timeout),
          { fly_count_inc m with
            trace := (fly_count_inc m).trace ++ [Call.libusb_submit_transfer] })) ∧
    (env.libusb_submit_transfer
        (async_submit_attach { c1 with ref_count := 2 } bytes size timeout).transfer ≠
          LIBUSB_SUCCESS →
      async_submit env (some c) bytes size timeout m =
        (-(libusb_to_errno (env.libusb_submit_transfer
            (async_submit_attach { c1 with ref_count := 2 } bytes size timeout).transfer)),
          some { async_submit_attach { c1 with ref_count := 2 } bytes size timeout with
            ref_count := 1 },
          { fly_count_dec { fly_count_inc m with
              trace := (fly_count_inc m).trace ++ [Call.libusb_submit_transfer] } with
            errno := libusb_to_errno (env.libusb_submit_transfer
              (async_submit_attach { c1 with ref_count := 2 } bytes size
                timeout).transfer) })) := by
  have h1 : ¬ ((bytes = none ∧ size > 0) ∨ c.ref_count ≠ 1) := by
    rintro (⟨hb, hs⟩ | hr)
    · have := hbuf hb; omega
    · exact hr href
  have href1 : c1.ref_count = 1 := (async_submit_iso_ref_count c c1 size hc1).1.trans href
  have hinc : async_inc_ref c1 m = (0, { c1 with ref_count := 2 }, fly_count_inc m) := by
    rw [async_inc_ref_of_nonneg c1 m (by omega), href1]; rfl
  constructor
  · intro hr
    unfold async_submit
    simp only [if_neg h1, hc1, hinc, ne_eq, not_true_eq_false, if_false, hr]
  · intro hr
    have hdec := async_dec_ref_of_gt_one
      (async_submit_attach { c1 with ref_count := 2 } bytes size timeout)
      { fly_count_inc m with
        trace := (fly_count_inc m).trace ++ [Call.libusb_submit_transfer] }
      (by show (1 : Int) < 2; decide)
    unfold async_submit
    simp only [if_neg h1, hc1, hinc, ne_eq, not_true_eq_false, if_false, hr,
      not_false_eq_true, if_true, hdec]
    rfl

theorem usb_isochronous_setup_async_fresh (dev dev_handle : Nat) (ep pktsize : Int) :
    (usb_isochronous_setup_async dev dev_handle ep pktsize).ref_count = 1 ∧
    (usb_isochronous_setup_async dev dev_handle ep pktsize).legacy_iso_pktsize = pktsize ∧
    (usb_isochronous_setup_async dev dev_handle ep pktsize).transfer.type =
      LIBUSB_TRANSFER_TYPE_ISOCHRONOUS ∧
    (usb_isochronous_setup_async dev dev_handle ep pktsize).transfer.num_iso_packets = 1024 ∧
    (usb_isochronous_setup_async dev dev_handle ep pktsize).transfer.iso_packet_desc.length =
      1024 :=
  ⟨rfl, rfl, rfl, rfl, List.length_replicate 1024 (⟨0, 0, 0⟩ : libusb_iso_packet_descriptor)⟩

theorem set_iso_lengths_getElem? (descs : List libusb_iso_packet_descriptor) (n p : Int)
    (j : Nat) :
    (set_iso_lengths descs n p)[j]? =
      if j < n.toNat then descs[j]?.map (fun d => { d with length := p }) else descs[j]? := by
  unfold set_iso_lengths
  exact foldl_store_iso_length_getElem? p n.toNat descs j

theorem set_iso_lengths_take (descs : List libusb_iso_packet_descriptor) (n p : Int)
    (hn : n.toNat ≤ descs.length) :
    ((set_iso_lengths descs n p).take n.toNat).map (fun d => d.length) =
      List.replicate n.toNat p := by
  apply List.ext_getElem?
  intro j
  rw [List.getElem?_map, List.getElem?_replicate]
  by_cases hj : j < n.toNat
  · have hl : j < descs.length := Nat.lt_of_lt_of_le hj hn
    rw [List.getElem?_take_of_lt hj, set_iso_lengths_getElem?, if_pos hj, if_pos hj,
      List.getElem?_eq_getElem hl]
    rfl
  · rw [if_neg hj, List.getElem?_eq_none]
    · rfl
    · rw [List.length_take]
      have := Nat.min_le_left n.toNat (set_iso_lengths descs n p).length
      omega

theorem sum_replicate_packets (n p : Int) (hn : 0 ≤ n) :
    (List.replicate n.toNat p).sum = n * p := by
  rw [List.sum_replicate, nsmul_eq_mul]
  have h1 : ((n.toNat : Nat) : Int) = n := Int.toNat_of_nonneg hn
  simp [h1]

/-! ## Submit: argument checks -/

/-- C1: `async_submit` answers `-EINVAL`, makes no call to the driver, and
leaves the context (its ref-count and every field of its transfer) and the
global thread record (its fly-count) as they were, whenever the context is
null, or the buffer is null while `size > 0`, or the ref-count is not exactly
1, or the context is isochronous with a non-zero legacy packet size `p` and the
C quotient `size / p` is 0 or exceeds 1024. -/
theorem async_submit_invalid_argument (env : Env)
    (context : Option usb_async_transfer_t) (bytes : Option Nat) (size : Int)
    (timeout : Nat) (m : Machine)
    (h : context = none ∨ ∃ c, context = some c ∧
      ((bytes = none ∧ size > 0) ∨ c.ref_count ≠ 1 ∨
        (c.transfer.type = LIBUSB_TRANSFER_TYPE_ISOCHRONOUS ∧
          c.legacy_iso_pktsize ≠ 0 ∧
          (Int.tdiv size c.legacy_iso_pktsize = 0 ∨
            Int.tdiv size c.legacy_iso_pktsize > 1024)))) :
    (async_submit env context bytes size timeout m).1 = -EINVAL ∧
    (async_submit env context bytes size timeout m).2.1 = context ∧
    (async_submit env context bytes size timeout m).2.2.async_thread = m.async_thread ∧
    (async_submit env context bytes size timeout m).2.2.trace = m.trace ∧
    (async_submit env context bytes size timeout m).2.2.freed = m.freed := by
  rcases h with rfl | ⟨c, rfl, h⟩
  · simp [async_submit]
  · unfold async_submit
    by_cases h1 : (bytes = none ∧ size > 0) ∨ c.ref_count ≠ 1
    · simp only [if_pos h1, and_self]
    · have h2 : c.transfer.type = LIBUSB_TRANSFER_TYPE_ISOCHRONOUS ∧
          c.legacy_iso_pktsize ≠ 0 ∧
          (Int.tdiv size c.legacy_iso_pktsize = 0 ∨
            Int.tdiv size c.legacy_iso_pktsize > 1024) := by
        rcases h with h | h | h
        · exact absurd (Or.inl h) h1
        · exact absurd (Or.inr h) h1
        · exact h
      have h3 : async_submit_iso c size = none := by
        unfold async_submit_iso
        simp only [if_pos (And.intro h2.2.1 h2.1), if_pos h2.2.2]
      simp only [if_neg h1, h3, and_self]

/-- C1, at an isochronous context with packet size 512 and a 100-byte buffer. -/
theorem async_submit_invalid_argument_witness :
    (∃ c, some iso512 = some c ∧
      ((some 4096 = none ∧ (100 : Int) > 0) ∨ c.ref_count ≠ 1 ∨
        (c.transfer.type = LIBUSB_TRANSFER_TYPE_ISOCHRONOUS ∧
          c.legacy_iso_pktsize ≠ 0 ∧
          (Int.tdiv 100 c.legacy_iso_pktsize = 0 ∨
            Int.tdiv 100 c.legacy_iso_pktsize > 1024)))) ∧
    (async_submit env_ok (some iso512) (some 4096) 100 0 idle_machine).1 = -EINVAL ∧
    (async_submit env_ok (some iso512) (some 4096) 100 0 idle_machine).2.1 = some iso512 ∧
    (async_submit env_ok (some iso512) (some 4096) 100 0 idle_machine).2.2.trace = [] :=
  have h : ∃ c, some iso512 = some c ∧
      ((some 4096 = none ∧ (100 : Int) > 0) ∨ c.ref_count ≠ 1 ∨
        (c.transfer.type = LIBUSB_TRANSFER_TYPE_ISOCHRONOUS ∧
          c.legacy_iso_pktsize ≠ 0 ∧
          (Int.tdiv 100 c.legacy_iso_pktsize = 0 ∨
            Int.tdiv 100 c.legacy_iso_pktsize > 1024))) :=
    ⟨iso512, rfl, Or.inr (Or.inr ⟨by decide, by decide, Or.inl (by decide)⟩)⟩
  have t := async_submit_invalid_argument env_ok (some iso512) (some 4096) 100 0
    idle_machine (Or.inr h)
  ⟨h, t.1, t.2.1, t.2.2.2.1⟩

/-! ## Submit: isochronous packet layout -/

/-- C2: for an isochronous context with legacy packet size `p > 0`, ref-count
1 and the 1024 descriptors of its setup, and a non-null buffer with
`1 ≤ size / p ≤ 1024`, `async_submit` passes its checks (the driver is called,
and the call returns 0 when the driver accepts), stores `size / p` in
`num_iso_packets` and `p` in the length of each of the first `size / p` packet
descriptors; these packets cover `size - size % p` bytes, so a trailing
remainder of `size % p` bytes lies in no packet.  No divisibility of `size` by
`p` is assumed. -/
theorem async_submit_iso_packets (env : Env) (c : usb_async_transfer_t) (buf : Nat)
    (size : Int) (timeout : Nat) (m : Machine)
    (htype : c.transfer.type = LIBUSB_TRANSFER_TYPE_ISOCHRONOUS)
    (hp : 0 < c.legacy_iso_pktsize) (href : c.ref_count = 1)
    (hdesc : c.transfer.iso_packet_desc.length = 1024)
    (hlo : 1 ≤ size / c.legacy_iso_pktsize) (hhi : size / c.legacy_iso_pktsize ≤ 1024) :
    ∃ c', (async_submit env (some c) (some buf) size timeout m).2.1 = some c' ∧
      (async_submit env (some c) (some buf) size timeout m).2.2.trace =
        m.trace ++ [Call.libusb_submit_transfer] ∧
      (env.libusb_submit_transfer c'.transfer = LIBUSB_SUCCESS →
        (async_submit env (some c) (some buf) size timeout m).1 = 0) ∧
      c'.transfer.num_iso_packets = size / c.legacy_iso_pktsize ∧
      (∀ i : Nat, (i : Int) < size / c.legacy_iso_pktsize →
        ∃ d, c'.transfer.iso_packet_desc[i]? = some d ∧ d.length = c.legacy_iso_pktsize) ∧
      ((c'.transfer.iso_packet_desc.take (size / c.legacy_iso_pktsize).toNat).map
          (fun d => d.length)).sum = size - size % c.legacy_iso_pktsize := by
  have hsize : 0 ≤ size := by
    have := (Int.le_ediv_iff_mul_le hp).1 hlo
    omega
  have htd : Int.tdiv size c.legacy_iso_pktsize = size / c.legacy_iso_pktsize :=
    Int.tdiv_eq_ediv hsize (Int.le_of_lt hp)
  have hq : ¬ (Int.tdiv size c.legacy_iso_pktsize = 0 ∨
      Int.tdiv size c.legacy_iso_pktsize > 1024) := by
    rw [htd]; omega
  obtain ⟨c1, hc1, hnum, hds⟩ : ∃ c1, async_submit_iso c size = some c1 ∧
      c1.transfer.num_iso_packets = size / c.legacy_iso_pktsize ∧
      c1.transfer.iso_packet_desc =
        set_iso_lengths c.transfer.iso_packet_desc (size / c.legacy_iso_pktsize)
          c.legacy_iso_pktsize := by
    refine ⟨_, async_submit_iso_of_accepted c size ⟨ne_of_gt hp, htype⟩ hq, ?_, ?_⟩
    · exact htd
    · show set_iso_lengths _ _ _ = _
      rw [htd]
  have hk := async_submit_of_checked env c c1 (some buf) size timeout m
    (fun h => by cases h) href hc1
  have hf := async_submit_attach_fields { c1 with ref_count := 2 } (some buf) size timeout
  generalize async_submit_attach { c1 with ref_count := 2 } (some buf) size timeout = c2
    at hk hf
  have hnum2 : c2.transfer.num_iso_packets = size / c.legacy_iso_pktsize :=
    hf.2.2.2.2.2.2.2.1.trans hnum
  have hds2 : c2.transfer.iso_packet_desc =
      set_iso_lengths c.transfer.iso_packet_desc (size / c.legacy_iso_pktsize)
        c.legacy_iso_pktsize := hf.2.2.2.2.2.2.2.2.trans hds
  have hnat : (size / c.legacy_iso_pktsize).toNat ≤ c.transfer.iso_packet_desc.length := by
    rw [hdesc]; omega
  have hpk : ∀ i : Nat, (i : Int) < size / c.legacy_iso_pktsize →
      ∃ d, c2.transfer.iso_packet_desc[i]? = some d ∧ d.length = c.legacy_iso_pktsize := by
    intro i hi
    have hi1 : i < (size / c.legacy_iso_pktsize).toNat := by omega
    have hi2 : i < c.transfer.iso_packet_desc.length := Nat.lt_of_lt_of_le hi1 hnat
    rw [hds2, set_iso_lengths_getElem?, if_pos hi1, List.getElem?_eq_getElem hi2]
    exact ⟨_, rfl, rfl⟩
  have hsum : ((c2.transfer.iso_packet_desc.take (size / c.legacy_iso_pktsize).toNat).map
      (fun d => d.length)).sum = size - size % c.legacy_iso_pktsize := by
    rw [hds2, set_iso_lengths_take _ _ _ hnat, sum_replicate_packets _ _ (by omega)]
    have h2 := Int.ediv_add_emod size c.legacy_iso_pktsize
    rw [Int.mul_comm] at h2
    omega
  by_cases hr : env.libusb_submit_transfer c2.transfer = LIBUSB_SUCCESS
  · rw [hk.1 hr]
    refine ⟨c2, rfl, ?_, fun _ => rfl, hnum2, hpk, hsum⟩
    simp [fly_count_inc]
  · rw [hk.2 hr]
    refine ⟨{ c2 with ref_count := 1 }, rfl, ?_, fun h => absurd h hr, hnum2, hpk, hsum⟩
    simp [fly_count_inc, fly_count_dec]

/-- C2, at packet size 512: 2047 bytes are accepted with 3 packets of length 512
that cover 1536 bytes and leave 511 bytes outside every packet, and 2048 bytes
are accepted with 4 packets of length 512. -/
theorem async_submit_iso_packets_witness :
    (iso512.transfer.type = LIBUSB_TRANSFER_TYPE_ISOCHRONOUS ∧
      0 < iso512.legacy_iso_pktsize ∧ iso512.ref_count = 1 ∧
      iso512.transfer.iso_packet_desc.length = 1024 ∧
      1 ≤ (2047 : Int) / iso512.legacy_iso_pktsize ∧
      (2047 : Int) / iso512.legacy_iso_pktsize ≤ 1024) ∧
    (∃ c', (async_submit env_ok (some iso512) (some 4096) 2047 0 idle_machine).2.1 =
        some c' ∧
      (async_submit env_ok (some iso512) (some 4096) 2047 0 idle_machine).1 = 0 ∧
      c'.transfer.num_iso_packets = 3 ∧
      (∀ i : Nat, (i : Int) < 3 →
        ∃ d, c'.transfer.iso_packet_desc[i]? = some d ∧ d.length = 512) ∧
      ((c'.transfer.iso_packet_desc.take 3).map (fun d => d.length)).sum = 2047 - 511) ∧
    (∃ c', (async_submit env_ok (some iso512) (some 4096) 2048 0 idle_machine).2.1 =
        some c' ∧
      (async_submit env_ok (some iso512) (some 4096) 2048 0 idle_machine).1 = 0 ∧
      c'.transfer.num_iso_packets = 4 ∧
      (∀ i : Nat, (i : Int) < 4 →
        ∃ d, c'.transfer.iso_packet_desc[i]? = some d ∧ d.length = 512)) := by
  have hdesc : iso512.transfer.iso_packet_desc.length = 1024 :=
    List.length_replicate 1024 (⟨0, 0, 0⟩ : libusb_iso_packet_descriptor)
  obtain ⟨c', h1, _, h3, h4, h5, h6⟩ :=
    async_submit_iso_packets env_ok iso512 4096 2047 0 idle_machine (by decide) (by decide)
      (by decide) hdesc (by decide) (by decide)
  obtain ⟨c'', k1, _, k3, k4, k5, _⟩ :=
    async_submit_iso_packets env_ok iso512 4096 2048 0 idle_machine (by decide) (by decide)
      (by decide) hdesc (by decide) (by decide)
  exact ⟨⟨by decide, by decide, by decide, hdesc, by decide, by decide⟩,
    ⟨c', h1, h3 rfl, h4, h5, h6⟩, ⟨c'', k1, k3 rfl, k4, k5⟩⟩

/-! ## Submit: outcome after the checks -/

/-- C3: when the argument checks of `async_submit` pass, the driver's submit
primitive is called once.  If it succeeds the call returns 0, the ref-count is
2, the fly-count is one higher than before, the completion event is unset, and
the transfer holds the given buffer, length and timeout with status
`LIBUSB_TRANSFER_ERROR` and `actual_length` 0.  If it fails with code `e` the
call returns `-libusb_to_errno e`, and the ref-count and the fly-count have
their values from before the call. -/
theorem async_submit_outcome (env : Env) (c : usb_async_transfer_t) (bytes : Option Nat)
    (size : Int) (timeout : Nat) (m : Machine)
    (hbuf : bytes = none → size ≤ 0) (href : c.ref_count = 1)
    (hiso : c.transfer.type = LIBUSB_TRANSFER_TYPE_ISOCHRONOUS →
      c.legacy_iso_pktsize ≠ 0 →
      Int.tdiv size c.legacy_iso_pktsize ≠ 0 ∧ Int.tdiv size c.legacy_iso_pktsize ≤ 1024) :
    ∃ c', (async_submit env (some c) bytes size timeout m).2.1 = some c' ∧
      (async_submit env (some c) bytes size timeout m).2.2.trace =
        m.trace ++ [Call.libusb_submit_transfer] ∧
      (env.libusb_submit_transfer c'.transfer = LIBUSB_SUCCESS →
        (async_submit env (some c) bytes size timeout m).1 = 0 ∧
        c'.ref_count = 2 ∧
        (async_submit env (some c) bytes size timeout m).2.2.async_thread.fly_count =
          m.async_thread.fly_count + 1 ∧
        c'.complete_event.IsSet = 0 ∧
        c'.transfer.buffer = bytes ∧ c'.transfer.length = size ∧
        c'.transfer.timeout = timeout ∧
        c'.transfer.status = LIBUSB_TRANSFER_ERROR ∧ c'.transfer.actual_length = 0) ∧
      (env.libusb_submit_transfer c'.transfer ≠ LIBUSB_SUCCESS →
        (async_submit env (some c) bytes size timeout m).1 =
          -(libusb_to_errno (env.libusb_submit_transfer c'.transfer)) ∧
        c'.ref_count = c.ref_count ∧
        (async_submit env (some c) bytes size timeout m).2.2.async_thread.fly_count =
          m.async_thread.fly_count) := by
  obtain ⟨c1, hc1⟩ : ∃ c1, async_submit_iso c size = some c1 := by
    by_cases h2 : c.legacy_iso_pktsize ≠ 0 ∧
        c.transfer.type = LIBUSB_TRANSFER_TYPE_ISOCHRONOUS
    · have h3 := hiso h2.2 h2.1
      have hq : ¬ (Int.tdiv size c.legacy_iso_pktsize = 0 ∨
          Int.tdiv size c.legacy_iso_pktsize > 1024) := by
        rintro (h | h)
        · exact h3.1 h
        · omega
      exact ⟨_, async_submit_iso_of_accepted c size h2 hq⟩
    · exact ⟨_, async_submit_iso_of_not_iso c size h2⟩
  have hk := async_submit_of_checked env c c1 bytes size timeout m hbuf href hc1
  have hf := async_submit_attach_fields { c1 with ref_count := 2 } bytes size timeout
  generalize async_submit_attach { c1 with ref_count := 2 } bytes size timeout = c2
    at hk hf
  by_cases hr : env.libusb_submit_transfer c2.transfer = LIBUSB_SUCCESS
  · rw [hk.1 hr]
    refine ⟨c2, rfl, ?_, fun _ => ⟨rfl, hf.1, ?_, hf.2.1, hf.2.2.1, hf.2.2.2.1,
      hf.2.2.2.2.1, hf.2.2.2.2.2.1, hf.2.2.2.2.2.2.1⟩, fun h => absurd hr h⟩
    · simp [fly_count_inc]
    · simp [fly_count_inc]
  · rw [hk.2 hr]
    refine ⟨{ c2 with ref_count := 1 }, rfl, ?_, fun h => absurd h hr,
      fun _ => ⟨rfl, href.symm, ?_⟩⟩
    · simp [fly_count_inc, fly_count_dec]
    · simp [fly_count_inc, fly_count_dec]

/-- C3, at an idle bulk context and a driver that accepts the submit. -/
theorem async_submit_outcome_witness :
    ((some 4096 : Option Nat) = none → (512 : Int) ≤ 0) ∧ bulk_idle.ref_count = 1 ∧
    ∃ c', (async_submit env_ok (some bulk_idle) (some 4096) 512 0 idle_machine).2.1 =
        some c' ∧
      (async_submit env_ok (some bulk_idle) (some 4096) 512 0 idle_machine).1 = 0 ∧
      c'.ref_count = 2 ∧
      (async_submit env_ok (some bulk_idle) (some 4096) 512 0
        idle_machine).2.2.async_thread.fly_count = 1 ∧
      c'.transfer.buffer = some 4096 ∧ c'.transfer.length = 512 := by
  obtain ⟨c', h1, _, h3, _⟩ :=
    async_submit_outcome env_ok bulk_idle (some 4096) 512 0 idle_machine
      (fun h => by cases h) (by decide) (fun h => absurd h (by decide))
  have h := h3 rfl
  have h0 : (some 4096 : Option Nat) = none → (512 : Int) ≤ 0 := fun h => by cases h
  exact ⟨h0, by decide, c', h1, h.1, h.2.1, h.2.2.1, h.2.2.2.2.1, h.2.2.2.2.2.1⟩

/-! ## Basic facts about the reap path -/

theorem async_dec_ref_keeps (c : usb_async_transfer_t) (m : Machine) :
    (async_dec_ref c m).2.1.transfer = c.transfer ∧
    (async_dec_ref c m).2.1.ref_count = c.ref_count - 1 ∧
    (async_dec_ref c m).2.2.trace = m.trace := by
  unfold async_dec_ref
  by_cases h1 : c.ref_count - 1 = 0
  · simp [h1, fly_count_dec, async_free]
  · by_cases h2 : c.ref_count - 1 < 0
    · simp [h1, h2]
    · simp [h1, h2, fly_count_dec]

theorem wait_complete_event_of_none (env : Env) (k : Nat) (c : usb_async_transfer_t)
    (timeout : Int) (m : Machine) (ret : Int) (h : env.wait k timeout = ⟨ret, none⟩) :
    wait_complete_event env k c timeout m =
      (ret, c, { m with trace := m.trace ++ [Call.Mpl_Event_Wait timeout] }) := by
  unfold wait_complete_event
  rw [h]

theorem wait_complete_event_of_some (env : Env) (k : Nat) (c : usb_async_transfer_t)
    (timeout : Int) (m : Machine) (ret status actual_length : Int)
    (h : env.wait k timeout = ⟨ret, some (status, actual_length)⟩) :
    wait_complete_event env k c timeout m =
      (ret,
        (async_bulk_cb
          { c with transfer :=
              { c.transfer with status := status, actual_length := actual_length } }
          { m with trace := m.trace ++ [Call.Mpl_Event_Wait timeout] }).1,
        (async_bulk_cb
          { c with transfer :=
              { c.transfer with status := status, actual_length := actual_length } }
          { m with trace := m.trace ++ [Call.Mpl_Event_Wait timeout] }).2) := by
  unfold wait_complete_event
  rw [h]

theorem wait_complete_event_facts (env : Env) (k : Nat) (c : usb_async_transfer_t)
    (timeout : Int) (m : Machine) :
    (wait_complete_event env k c timeout m).1 = (env.wait k timeout).ret ∧
    (wait_complete_event env k c timeout m).2.2.trace =
      m.trace ++ [Call.Mpl_Event_Wait timeout] ∧
    c.ref_count - 1 ≤ (wait_complete_event env k c timeout m).2.1.ref_count ∧
    ((env.wait k timeout).completion = none →
      (wait_complete_event env k c timeout m).2.1 = c) := by
  rcases ho : env.wait k timeout with ⟨ret, _ | ⟨st, al⟩⟩
  · rw [wait_complete_event_of_none env k c timeout m ret ho]
    exact ⟨rfl, rfl, by simp, fun _ => rfl⟩
  · rw [wait_complete_event_of_some env k c timeout m ret st al ho]
    simp only [async_bulk_cb]
    refine ⟨trivial, ?_, ?_, fun h => by cases h⟩
    · rw [(async_dec_ref_keeps _ _).2.2]
    · rw [(async_dec_ref_keeps _ _).2.1]

theorem reap_retry_for_cancel_eq (env : Env) (k : Nat) (c : usb_async_transfer_t)
    (timeout : Int) (cancel_on_timeout : Int) (m : Machine) :
    reap_retry_for_cancel env k c timeout cancel_on_timeout m =
      if (wait_complete_event env k c timeout m).1 = ETIMEDOUT ∧ cancel_on_timeout ≠ 0 then
        reap_finish (wait_complete_event env (k + 1)
          (wait_complete_event env k c timeout m).2.1 (-1)
          (usb_cancel_async env (some (wait_complete_event env k c timeout m).2.1)
            (wait_complete_event env k c timeout m).2.2).2.2)
      else reap_finish (wait_complete_event env k c timeout m) := by
  rw [reap_retry_for_cancel]
  by_cases h : (wait_complete_event env k c timeout m).1 = ETIMEDOUT ∧ cancel_on_timeout ≠ 0
  · simp only [dif_pos h, if_pos h]
    rw [reap_retry_for_cancel]
    simp
  · simp only [dif_neg h, if_neg h]

theorem usb_cancel_async_trace (env : Env) (c : usb_async_transfer_t) (m : Machine) :
    (usb_cancel_async env (some c) m).2.2.trace =
      if c.ref_count > 1 then m.trace ++ [Call.libusb_cancel_transfer] else m.trace := by
  unfold usb_cancel_async
  by_cases h : c.ref_count > 1
  · by_cases hr : env.libusb_cancel_transfer c.transfer = 0
    · simp [h, hr]
    · simp [h, hr]
  · simp [h]

theorem libusb_transfer_to_errno_eq_zero (status : Int) :
    libusb_transfer_to_errno status = 0 ↔ status = LIBUSB_TRANSFER_COMPLETED := by
  unfold libusb_transfer_to_errno
  split_ifs with h1 h2 h3 h4 h5 h6 <;> simp_all <;> decide

theorem libusb_transfer_to_errno_eq_timedout (status : Int) :
    libusb_transfer_to_errno status = ETIMEDOUT ↔
      (status = LIBUSB_TRANSFER_TIMED_OUT ∨ status = LIBUSB_TRANSFER_CANCELLED) := by
  unfold libusb_transfer_to_errno
  split_ifs with h1 h2 h3 h4 h5 h6 <;> simp_all <;> decide

theorem reap_finish_facts (w : Int × usb_async_transfer_t × Machine) :
    (reap_finish w).2.1.transfer = w.2.1.transfer ∧
    (reap_finish w).2.1.ref_count = w.2.1.ref_count - 1 ∧
    (reap_finish w).2.2.trace = w.2.2.trace ∧
    (w.1 ≠ MPL_SUCCESS → (reap_finish w).1 = -w.1) ∧
    (w.1 = MPL_SUCCESS →
      (reap_finish w).1 =
        if w.2.1.transfer.status = LIBUSB_TRANSFER_COMPLETED ∨
            ((w.2.1.transfer.status = LIBUSB_TRANSFER_TIMED_OUT ∨
              w.2.1.transfer.status = LIBUSB_TRANSFER_CANCELLED) ∧
              0 < w.2.1.transfer.actual_length)
        then w.2.1.transfer.actual_length
        else -(libusb_transfer_to_errno w.2.1.transfer.status)) := by
  have hk := async_dec_ref_keeps w.2.1 w.2.2
  unfold reap_finish
  by_cases h0 : w.1 = MPL_SUCCESS
  · simp only [if_pos h0]
    by_cases h1 : libusb_transfer_to_errno w.2.1.transfer.status = 0 ∨
        (libusb_transfer_to_errno w.2.1.transfer.status = ETIMEDOUT ∧
          w.2.1.transfer.actual_length > 0)
    · have h2 := h1
      rw [libusb_transfer_to_errno_eq_zero, libusb_transfer_to_errno_eq_timedout] at h2
      simp only [if_pos h1]
      refine ⟨hk.1, hk.2.1, hk.2.2, fun h => absurd h0 h, fun _ => ?_⟩
      rw [if_pos h2, hk.1]
    · have h2 := h1
      rw [libusb_transfer_to_errno_eq_zero, libusb_transfer_to_errno_eq_timedout] at h2
      simp only [if_neg h1]
      refine ⟨hk.1, hk.2.1, hk.2.2, fun h => absurd h0 h, fun _ => ?_⟩
      rw [if_neg h2]
  · simp only [if_neg h0]
    exact ⟨hk.1, hk.2.1, hk.2.2, fun _ => trivial, fun h => absurd h h0⟩

theorem async_reap_of_valid (env : Env) (c : usb_async_transfer_t) (timeout : Int)
    (cancel_on_timeout : Int) (m : Machine) (h : 1 ≤ c.ref_count) :
    async_reap env (some c) timeout cancel_on_timeout m =
      ((reap_retry_for_cancel env 0 { c with ref_count := c.ref_count + 1 } timeout
          cancel_on_timeout (fly_count_inc m)).1,
        some (reap_retry_for_cancel env 0 { c with ref_count := c.ref_count + 1 } timeout
          cancel_on_timeout (fly_count_inc m)).2.1,
        (reap_retry_for_cancel env 0 { c with ref_count := c.ref_count + 1 } timeout
          cancel_on_timeout (fly_count_inc m)).2.2) := by
  have h1 : ¬ c.ref_count < 1 := by omega
  unfold async_reap
  simp only [if_neg h1, async_inc_ref_of_nonneg c m (by omega), ne_eq, not_true_eq_false,
    if_false]

/-! ## Reap: translation of the completion status -/

/-- C4: for `async_reap` on a context with ref-count at least 1 whose wait on
the completion event succeeds (the first wait, or the retry after a timeout
with `cancel_on_timeout` set), the result is the transfer's `actual_length`
when the completion status is `COMPLETED`, or is `TIMED_OUT` or `CANCELLED`
with `actual_length > 0`, and is minus `libusb_transfer_to_errno` of the status
otherwise: `-EIO` for `STALL`, `-ENODEV` for `NO_DEVICE`, `-EOVERFLOW` for
`OVERFLOW`, `-ETIMEDOUT` for `TIMED_OUT` or `CANCELLED` without bytes, and
`-EFAULT` for every other status. -/
theorem async_reap_status_translation (env : Env) (c : usb_async_transfer_t)
    (timeout : Int) (cancel_on_timeout : Int) (m : Machine)
    (href : 1 ≤ c.ref_count)
    (hwait : (env.wait 0 timeout).ret = MPL_SUCCESS ∨
      ((env.wait 0 timeout).ret = ETIMEDOUT ∧ cancel_on_timeout ≠ 0 ∧
        (env.wait 1 (-1)).ret = MPL_SUCCESS)) :
    ∃ c', (async_reap env (some c) timeout cancel_on_timeout m).2.1 = some c' ∧
      ((c'.transfer.status = LIBUSB_TRANSFER_COMPLETED ∨
          ((c'.transfer.status = LIBUSB_TRANSFER_TIMED_OUT ∨
            c'.transfer.status = LIBUSB_TRANSFER_CANCELLED) ∧
            0 < c'.transfer.actual_length)) →
        (async_reap env (some c) timeout cancel_on_timeout m).1 =
          c'.transfer.actual_length) ∧
      (¬ (c'.transfer.status = LIBUSB_TRANSFER_COMPLETED ∨
          ((c'.transfer.status = LIBUSB_TRANSFER_TIMED_OUT ∨
            c'.transfer.status = LIBUSB_TRANSFER_CANCELLED) ∧
            0 < c'.transfer.actual_length)) →
        (async_reap env (some c) timeout cancel_on_timeout m).1 =
          -(libusb_transfer_to_errno c'.transfer.status)) ∧
      (c'.transfer.status = LIBUSB_TRANSFER_STALL →
        (async_reap env (some c) timeout cancel_on_timeout m).1 = - EIO) ∧
      (c'.transfer.status = LIBUSB_TRANSFER_NO_DEVICE →
        (async_reap env (some c) timeout cancel_on_timeout m).1 = -ENODEV) ∧
      (c'.transfer.status = LIBUSB_TRANSFER_OVERFLOW →
        (async_reap env (some c) timeout cancel_on_timeout m).1 = -EOVERFLOW) ∧
      ((c'.transfer.status = LIBUSB_TRANSFER_TIMED_OUT ∨
          c'.transfer.status = LIBUSB_TRANSFER_CANCELLED) →
        c'.transfer.actual_length ≤ 0 →
        (async_reap env (some c) timeout cancel_on_timeout m).1 = -ETIMEDOUT) ∧
      (c'.transfer.status ≠ LIBUSB_TRANSFER_COMPLETED →
        c'.transfer.status ≠ LIBUSB_TRANSFER_TIMED_OUT →
        c'.transfer.status ≠ LIBUSB_TRANSFER_CANCELLED →
        c'.transfer.status ≠ LIBUSB_TRANSFER_STALL →
        c'.transfer.status ≠ LIBUSB_TRANSFER_NO_DEVICE →
        c'.transfer.status ≠ LIBUSB_TRANSFER_OVERFLOW →
        (async_reap env (some c) timeout cancel_on_timeout m).1 = -EFAULT) := by
  obtain ⟨w, hw, hw0⟩ : ∃ w : Int × usb_async_transfer_t × Machine,
      async_reap env (some c) timeout cancel_on_timeout m =
        ((reap_finish w).1, some (reap_finish w).2.1, (reap_finish w).2.2) ∧
      w.1 = MPL_SUCCESS := by
    rw [async_reap_of_valid env c timeout cancel_on_timeout m href,
      reap_retry_for_cancel_eq]
    rcases hwait with h0 | ⟨h0, hc, h1⟩
    · have hne : ¬ ((wait_complete_event env 0 { c with ref_count := c.ref_count + 1 }
          timeout (fly_count_inc m)).1 = ETIMEDOUT ∧ cancel_on_timeout ≠ 0) := by
        rw [(wait_complete_event_facts _ _ _ _ _).1, h0]
        rintro ⟨h, _⟩
        exact absurd h (by decide)
      rw [if_neg hne]
      exact ⟨_, rfl, by rw [(wait_complete_event_facts _ _ _ _ _).1, h0]⟩
    · have hyes : (wait_complete_event env 0 { c with ref_count := c.ref_count + 1 }
          timeout (fly_count_inc m)).1 = ETIMEDOUT ∧ cancel_on_timeout ≠ 0 := by
        rw [(wait_complete_event_facts _ _ _ _ _).1, h0]
        exact ⟨rfl, hc⟩
      rw [if_pos hyes]
      exact ⟨_, rfl, by rw [(wait_complete_event_facts _ _ _ _ _).1, h1]⟩
  have hf := reap_finish_facts w
  have htr := hf.1
  have hval := hf.2.2.2.2 hw0
  rw [← htr] at hval
  rw [hw]
  refine ⟨(reap_finish w).2.1, rfl, ?_⟩
  show (_ → (reap_finish w).1 = _) ∧ (_ → (reap_finish w).1 = _) ∧
    (_ → (reap_finish w).1 = _) ∧ (_ → (reap_finish w).1 = _) ∧
    (_ → (reap_finish w).1 = _) ∧ (_ → _ → (reap_finish w).1 = _) ∧
    (_ → _ → _ → _ → _ → _ → (reap_finish w).1 = _)
  generalize (reap_finish w).2.1.transfer.status = st at hval ⊢
  generalize (reap_finish w).2.1.transfer.actual_length = al at hval ⊢
  generalize (reap_finish w).1 = r at hval ⊢
  refine ⟨fun h => by rw [hval, if_pos h], fun h => by rw [hval, if_neg h], ?_, ?_, ?_, ?_, ?_⟩
  · intro h; subst h
    rw [hval, if_neg (by rintro (h | ⟨h | h, _⟩) <;> exact absurd h (by decide))]
    decide
  · intro h; subst h
    rw [hval, if_neg (by rintro (h | ⟨h | h, _⟩) <;> exact absurd h (by decide))]
    decide
  · intro h; subst h
    rw [hval, if_neg (by rintro (h | ⟨h | h, _⟩) <;> exact absurd h (by decide))]
    decide
  · intro h hal
    have hn : ¬ (st = LIBUSB_TRANSFER_COMPLETED ∨
        ((st = LIBUSB_TRANSFER_TIMED_OUT ∨ st = LIBUSB_TRANSFER_CANCELLED) ∧ 0 < al)) := by
      rintro (h' | ⟨_, h'⟩)
      · rcases h with h | h <;> rw [h] at h' <;> exact absurd h' (by decide)
      · omega
    rw [hval, if_neg hn, (libusb_transfer_to_errno_eq_timedout st).2 h]
  · intro h1 h2 h3 h4 h5 h6
    have hn : ¬ (st = LIBUSB_TRANSFER_COMPLETED ∨
        ((st = LIBUSB_TRANSFER_TIMED_OUT ∨ st = LIBUSB_TRANSFER_CANCELLED) ∧ 0 < al)) := by
      rintro (h' | ⟨h' | h', _⟩)
      · exact h1 h'
      · exact h2 h'
      · exact h3 h'
    rw [hval, if_neg hn]
    unfold libusb_transfer_to_errno
    rw [if_neg h1, if_neg h2, if_neg h3, if_neg h4, if_neg h5, if_neg h6]

/-- C4, at an in-flight bulk context whose first wait is served by a full
completion. -/
theorem async_reap_status_translation_witness :
    (1 ≤ bulk_in_flight.ref_count ∧
      ((env_ok.wait 0 100).ret = MPL_SUCCESS ∨
        ((env_ok.wait 0 100).ret = ETIMEDOUT ∧ (0 : Int) ≠ 0 ∧
          (env_ok.wait 1 (-1)).ret = MPL_SUCCESS))) ∧
    ∃ c', (async_reap env_ok (some bulk_in_flight) 100 0 busy_machine).2.1 = some c' ∧
      (c'.transfer.status = LIBUSB_TRANSFER_STALL →
        (async_reap env_ok (some bulk_in_flight) 100 0 busy_machine).1 = - EIO) ∧
      ((c'.transfer.status = LIBUSB_TRANSFER_TIMED_OUT ∨
          c'.transfer.status = LIBUSB_TRANSFER_CANCELLED) →
        c'.transfer.actual_length ≤ 0 →
        (async_reap env_ok (some bulk_in_flight) 100 0 busy_machine).1 = -ETIMEDOUT) := by
  have h1 : 1 ≤ bulk_in_flight.ref_count := by decide
  have h2 : (env_ok.wait 0 100).ret = MPL_SUCCESS ∨
      ((env_ok.wait 0 100).ret = ETIMEDOUT ∧ (0 : Int) ≠ 0 ∧
        (env_ok.wait 1 (-1)).ret = MPL_SUCCESS) := Or.inl rfl
  obtain ⟨c', h, t⟩ :=
    async_reap_status_translation env_ok bulk_in_flight 100 0 busy_machine h1 h2
  exact ⟨⟨h1, h2⟩, c', h, t.2.2.1, t.2.2.2.2.2.1⟩

/-! ## Reap: one escalation at most -/

/-- C5: whatever the waits and the driver answer, one `async_reap` call adds
to the trace nothing (rejected context), or one wait, or the first wait and
one retry wait with timeout `-1` (infinite), with at most one cancel request
between them.  A second wait happens only after the first wait returned
`ETIMEDOUT` with `cancel_on_timeout` set, and when the retry wait returns
`ETIMEDOUT` as well the call returns `-ETIMEDOUT`, with no further cancel or
wait. -/
theorem async_reap_escalates_once (env : Env) (context : Option usb_async_transfer_t)
    (timeout : Int) (cancel_on_timeout : Int) (m : Machine) :
    ∃ new : List Call,
      (async_reap env context timeout cancel_on_timeout m).2.2.trace = m.trace ++ new ∧
      (new = [] ∨ new = [Call.Mpl_Event_Wait timeout] ∨
        new = [Call.Mpl_Event_Wait timeout, Call.Mpl_Event_Wait (-1)] ∨
        new = [Call.Mpl_Event_Wait timeout, Call.libusb_cancel_transfer,
          Call.Mpl_Event_Wait (-1)]) ∧
      (2 ≤ new.length ↔
        (∃ c, context = some c ∧ 1 ≤ c.ref_count) ∧
          (env.wait 0 timeout).ret = ETIMEDOUT ∧ cancel_on_timeout ≠ 0) ∧
      (2 ≤ new.length → (env.wait 1 (-1)).ret = ETIMEDOUT →
        (async_reap env context timeout cancel_on_timeout m).1 = -ETIMEDOUT) := by
  cases context with
  | none =>
    refine ⟨[], by simp [async_reap], Or.inl rfl, ?_, ?_⟩
    · constructor
      · intro h; exact absurd h (by decide)
      · rintro ⟨⟨c, hc, _⟩, _⟩; cases hc
    · intro h; exact absurd h (by decide)
  | some c =>
    by_cases href : c.ref_count < 1
    · refine ⟨[], by simp [async_reap, href], Or.inl rfl, ?_, ?_⟩
      · constructor
        · intro h; exact absurd h (by decide)
        · rintro ⟨⟨c', hc, h1⟩, _⟩
          cases hc; omega
      · intro h; exact absurd h (by decide)
    · rw [async_reap_of_valid env c timeout cancel_on_timeout m (by omega),
        reap_retry_for_cancel_eq]
      have hw0 := wait_complete_event_facts env 0 { c with ref_count := c.ref_count + 1 }
        timeout (fly_count_inc m)
      have hm : (fly_count_inc m).trace = m.trace := rfl
      by_cases hcond : (wait_complete_event env 0 { c with ref_count := c.ref_count + 1 }
          timeout (fly_count_inc m)).1 = ETIMEDOUT ∧ cancel_on_timeout ≠ 0
      · rw [if_pos hcond]
        have hcond' : (env.wait 0 timeout).ret = ETIMEDOUT ∧ cancel_on_timeout ≠ 0 := by
          rw [← hw0.1]; exact hcond
        generalize wait_complete_event env 0 { c with ref_count := c.ref_count + 1 }
          timeout (fly_count_inc m) = w0 at hw0 ⊢
        have hcan := usb_cancel_async_trace env w0.2.1 w0.2.2
        generalize usb_cancel_async env (some w0.2.1) w0.2.2 = ca at hcan ⊢
        have hw1 := wait_complete_event_facts env (0 + 1) w0.2.1 (-1) ca.2.2
        generalize wait_complete_event env (0 + 1) w0.2.1 (-1) ca.2.2 = w1 at hw1 ⊢
        have hf := reap_finish_facts w1
        have hret : (env.wait 1 (-1)).ret = ETIMEDOUT → (reap_finish w1).1 = -ETIMEDOUT := by
          intro h
          have h1 : w1.1 = ETIMEDOUT := hw1.1.trans h
          rw [hf.2.2.2.1 (by rw [h1]; decide), h1]
        by_cases hrc : w0.2.1.ref_count > 1
        · rw [if_pos hrc] at hcan
          refine ⟨[Call.Mpl_Event_Wait timeout, Call.libusb_cancel_transfer,
            Call.Mpl_Event_Wait (-1)], ?_, Or.inr (Or.inr (Or.inr rfl)), ?_, fun _ => hret⟩
          · show (reap_finish w1).2.2.trace = _
            rw [hf.2.2.1, hw1.2.1, hcan, hw0.2.1, hm]
            simp
          · exact ⟨fun _ => ⟨⟨c, rfl, by omega⟩, hcond'⟩, fun _ => by simp⟩
        · rw [if_neg hrc] at hcan
          refine ⟨[Call.Mpl_Event_Wait timeout, Call.Mpl_Event_Wait (-1)], ?_,
            Or.inr (Or.inr (Or.inl rfl)), ?_, fun _ => hret⟩
          · show (reap_finish w1).2.2.trace = _
            rw [hf.2.2.1, hw1.2.1, hcan, hw0.2.1, hm]
            simp
          · exact ⟨fun _ => ⟨⟨c, rfl, by omega⟩, hcond'⟩, fun _ => by simp⟩
      · rw [if_neg hcond]
        have hcond' : ¬ ((env.wait 0 timeout).ret = ETIMEDOUT ∧ cancel_on_timeout ≠ 0) := by
          rw [← hw0.1]; exact hcond
        refine ⟨[Call.Mpl_Event_Wait timeout], ?_, Or.inr (Or.inl rfl), ?_, ?_⟩
        · show (reap_finish _).2.2.trace = _
          rw [(reap_finish_facts _).2.2.1, hw0.2.1, hm]
        · constructor
          · intro h; exact absurd h (by simp)
          · rintro ⟨_, h⟩; exact absurd h hcond'
        · intro h; exact absurd h (by simp)

/-! ## Reap: completion by cancellation -/

/-- C6 as stated fails: with `cancel_on_timeout` set, on an in-flight context
whose first wait times out and whose transfer then completes as cancelled
without having moved a byte, `async_reap` issues its one cancel and returns
`-ETIMEDOUT`, which is negative and not the byte count 0. -/
theorem async_reap_cancelled_zero_bytes :
    bulk_in_flight.ref_count = 2 ∧
    (env_cancelled 0).wait 0 100 = ⟨ETIMEDOUT, none⟩ ∧
    (env_cancelled 0).wait 1 (-1) = ⟨MPL_SUCCESS, some (LIBUSB_TRANSFER_CANCELLED, 0)⟩ ∧
    (async_reap (env_cancelled 0) (some bulk_in_flight) 100 1 busy_machine).2.2.trace =
      [Call.Mpl_Event_Wait 100, Call.libusb_cancel_transfer, Call.Mpl_Event_Wait (-1)] ∧
    (async_reap (env_cancelled 0) (some bulk_in_flight) 100 1 busy_machine).1 = -ETIMEDOUT ∧
    ¬ (0 ≤ (async_reap (env_cancelled 0) (some bulk_in_flight) 100 1 busy_machine).1) := by
  unfold async_reap
  simp only [reap_retry_for_cancel_eq]
  decide

/-- C6, amended: with `cancel_on_timeout` set, on an in-flight context
(ref-count at least 2) whose first wait times out and whose transfer then
completes as cancelled with `moved` bytes during the retry wait, `async_reap`
issues exactly one cancel request, between its two waits, and returns `moved`
when `moved > 0` and `-ETIMEDOUT` when no byte was moved. -/
theorem async_reap_cancelled (env : Env) (c : usb_async_transfer_t) (timeout : Int)
    (cancel_on_timeout : Int) (moved : Int) (m : Machine)
    (href : 2 ≤ c.ref_count) (hcancel : cancel_on_timeout ≠ 0)
    (hfirst : env.wait 0 timeout = ⟨ETIMEDOUT, none⟩)
    (hthen : env.wait 1 (-1) = ⟨MPL_SUCCESS, some (LIBUSB_TRANSFER_CANCELLED, moved)⟩) :
    (async_reap env (some c) timeout cancel_on_timeout m).2.2.trace =
      m.trace ++ [Call.Mpl_Event_Wait timeout, Call.libusb_cancel_transfer,
        Call.Mpl_Event_Wait (-1)] ∧
    (async_reap env (some c) timeout cancel_on_timeout m).1 =
      if 0 < moved then moved else -ETIMEDOUT := by
  rw [async_reap_of_valid env c timeout cancel_on_timeout m (by omega),
    reap_retry_for_cancel_eq,
    wait_complete_event_of_none env 0 _ timeout _ ETIMEDOUT hfirst,
    if_pos ⟨rfl, hcancel⟩]
  have hrc : ({ c with ref_count := c.ref_count + 1 } : usb_async_transfer_t).ref_count > 1 := by
    show c.ref_count + 1 > 1
    omega
  have hcan := usb_cancel_async_trace env { c with ref_count := c.ref_count + 1 }
    { fly_count_inc m with trace := (fly_count_inc m).trace ++ [Call.Mpl_Event_Wait timeout] }
  rw [if_pos hrc] at hcan
  generalize usb_cancel_async env (some { c with ref_count := c.ref_count + 1 })
    { fly_count_inc m with
      trace := (fly_count_inc m).trace ++ [Call.Mpl_Event_Wait timeout] } = ca at hcan ⊢
  have hw1 := wait_complete_event_facts env (0 + 1)
    { c with ref_count := c.ref_count + 1 } (-1) ca.2.2
  have hw1e := wait_complete_event_of_some env (0 + 1)
    { c with ref_count := c.ref_count + 1 } (-1) ca.2.2 MPL_SUCCESS
    LIBUSB_TRANSFER_CANCELLED moved hthen
  have hst : (wait_complete_event env (0 + 1) { c with ref_count := c.ref_count + 1 } (-1)
      ca.2.2).2.1.transfer.status = LIBUSB_TRANSFER_CANCELLED := by
    rw [hw1e]
    simp only [async_bulk_cb]
    rw [(async_dec_ref_keeps _ _).1]
  have hal : (wait_complete_event env (0 + 1) { c with ref_count := c.ref_count + 1 } (-1)
      ca.2.2).2.1.transfer.actual_length = moved := by
    rw [hw1e]
    simp only [async_bulk_cb]
    rw [(async_dec_ref_keeps _ _).1]
  have hok : (wait_complete_event env (0 + 1) { c with ref_count := c.ref_count + 1 } (-1)
      ca.2.2).1 = MPL_SUCCESS := by
    rw [hw1.1, hthen]
  generalize wait_complete_event env (0 + 1) { c with ref_count := c.ref_count + 1 } (-1)
    ca.2.2 = w1 at hw1 hst hal hok ⊢
  have hf := reap_finish_facts w1
  constructor
  · show (reap_finish w1).2.2.trace = _
    rw [hf.2.2.1, hw1.2.1, hcan]
    show (m.trace ++ [Call.Mpl_Event_Wait timeout]) ++ [Call.libusb_cancel_transfer] ++
      [Call.Mpl_Event_Wait (-1)] = _
    simp
  · show (reap_finish w1).1 = _
    rw [hf.2.2.2.2 hok, hst, hal]
    by_cases hm : 0 < moved
    · rw [if_pos (Or.inr ⟨Or.inr rfl, hm⟩), if_pos hm]
    · rw [if_neg (by
        rintro (h | ⟨_, h⟩)
        · exact absurd h (by decide)
        · exact hm h), if_neg hm]
      decide

/-- C6 as amended, at a cancelled transfer that had moved 64 bytes. -/
theorem async_reap_cancelled_witness :
    (2 ≤ bulk_in_flight.ref_count ∧ (1 : Int) ≠ 0 ∧
      (env_cancelled 64).wait 0 100 = ⟨ETIMEDOUT, none⟩ ∧
      (env_cancelled 64).wait 1 (-1) =
        ⟨MPL_SUCCESS, some (LIBUSB_TRANSFER_CANCELLED, 64)⟩) ∧
    (async_reap (env_cancelled 64) (some bulk_in_flight) 100 1 busy_machine).2.2.trace =
      [Call.Mpl_Event_Wait 100, Call.libusb_cancel_transfer, Call.Mpl_Event_Wait (-1)] ∧
    (async_reap (env_cancelled 64) (some bulk_in_flight) 100 1 busy_machine).1 = 64 :=
  ⟨⟨by decide, by decide, rfl, rfl⟩,
    async_reap_cancelled (env_cancelled 64) bulk_in_flight 100 1 64 busy_machine
      (by decide) (by decide) rfl rfl⟩

/-! ## Free -/

theorem usb_free_async_null (m : Machine) :
    (usb_free_async none m).ret = -EINVAL ∧ (usb_free_async (some none) m).ret = -EINVAL ∧
    (usb_free_async none m).m.freed = m.freed ∧
    (usb_free_async (some none) m).m.freed = m.freed ∧
    (usb_free_async none m).m.async_thread = m.async_thread ∧
    (usb_free_async (some none) m).m.async_thread = m.async_thread :=
  ⟨rfl, rfl, rfl, rfl, rfl, rfl⟩

theorem usb_free_async_last_reference (c : usb_async_transfer_t) (m : Machine)
    (h : c.ref_count = 1) :
    (usb_free_async (some (some c)) m).ret = 0 ∧
    (usb_free_async (some (some c)) m).pointer = none ∧
    (usb_free_async (some (some c)) m).m.freed = m.freed + 1 := by
  simp only [usb_free_async]
  rw [async_dec_ref_of_eq_one c m h]
  simp [fly_count_dec, async_free]

/-- C7 fails on the code for a context that is still referenced elsewhere:
for every context with ref-count at least 2, `usb_free_async` clears the
caller's pointer and performs its one release (ref-count and fly-count go
down by one, nothing is destroyed), but it returns minus the remaining
ref-count, which is not 0, and stores that count in `errno`. -/
theorem usb_free_async_still_referenced (c : usb_async_transfer_t) (m : Machine)
    (h : 2 ≤ c.ref_count) :
    (usb_free_async (some (some c)) m).ret = -(c.ref_count - 1) ∧
    (usb_free_async (some (some c)) m).ret ≠ 0 ∧
    (usb_free_async (some (some c)) m).m.errno = c.ref_count - 1 ∧
    (usb_free_async (some (some c)) m).pointer = none ∧
    (usb_free_async (some (some c)) m).object = some { c with ref_count := c.ref_count - 1 } ∧
    (usb_free_async (some (some c)) m).m.async_thread.fly_count =
      m.async_thread.fly_count - 1 ∧
    (usb_free_async (some (some c)) m).m.freed = m.freed := by
  have hne : c.ref_count - 1 ≠ 0 := by omega
  simp only [usb_free_async]
  rw [async_dec_ref_of_gt_one c m (by omega)]
  simp only [ne_eq, hne, not_false_eq_true, if_true]
  refine ⟨trivial, ?_, trivial, trivial, trivial, ?_, ?_⟩
  · omega
  · simp [fly_count_dec]
  · simp [fly_count_dec]

/-- C7 at a submitted bulk context (ref-count 2): the call returns -1. -/
theorem usb_free_async_still_referenced_witness :
    2 ≤ bulk_in_flight.ref_count ∧
    (usb_free_async (some (some bulk_in_flight)) busy_machine).ret = -1 ∧
    (usb_free_async (some (some bulk_in_flight)) busy_machine).ret ≠ 0 ∧
    (usb_free_async (some (some bulk_in_flight)) busy_machine).pointer = none :=
  have t := usb_free_async_still_referenced bulk_in_flight busy_machine (by decide)
  ⟨by decide, t.1, t.2.1, t.2.2.2.1⟩

/-! ## Cancel -/

/-- C8: `usb_cancel_async` never writes the context (so never changes its
ref-count).  For a null context it returns `-EINVAL` without a driver call; for
a context with ref-count at most 1 it returns 0 and leaves the machine state
as it was; for a context with ref-count above 1 it calls the driver's cancel
primitive exactly once and returns 0 when the driver answers 0 and minus
`libusb_to_errno` of the driver's answer otherwise. -/
theorem usb_cancel_async_contract (env : Env) (context : Option usb_async_transfer_t)
    (m : Machine) :
    (usb_cancel_async env context m).2.1 = context ∧
    (usb_cancel_async env context m).2.2.async_thread = m.async_thread ∧
    (usb_cancel_async env context m).2.2.freed = m.freed ∧
    match context with
    | none =>
      (usb_cancel_async env context m).1 = -EINVAL ∧
      (usb_cancel_async env context m).2.2.trace = m.trace
    | some c =>
      if c.ref_count ≤ 1 then
        (usb_cancel_async env context m).1 = 0 ∧ (usb_cancel_async env context m).2.2 = m
      else
        (usb_cancel_async env context m).2.2.trace =
          m.trace ++ [Call.libusb_cancel_transfer] ∧
        (usb_cancel_async env context m).1 =
          if env.libusb_cancel_transfer c.transfer = 0 then 0
          else -(libusb_to_errno (env.libusb_cancel_transfer c.transfer)) := by
  cases context with
  | none => exact ⟨rfl, rfl, rfl, rfl, rfl⟩
  | some c =>
    unfold usb_cancel_async
    by_cases h : c.ref_count > 1
    · have h' : ¬ c.ref_count ≤ 1 := by omega
      by_cases hr : env.libusb_cancel_transfer c.transfer = 0
      · simp [h, h', hr]
      · simp [h, h', hr]
    · have h' : c.ref_count ≤ 1 := by omega
      simp [h, h']

/-! ## Reference counting -/

theorem async_inc_ref_of_negative (c : usb_async_transfer_t) (m : Machine)
    (h : c.ref_count < 0) :
    async_inc_ref c m = (EACCES, c, m) := by
  unfold async_inc_ref
  have h1 : c.ref_count + 1 < 1 := by omega
  simp [h1]

/-- C9 fails on the code at a stored ref-count of exactly 0: the test of
`async_inc_ref` is made on the incremented value, which is then 1 and not
below 1, so the call returns 0 (success) and leaves the ref-count at 1. -/
theorem async_inc_ref_at_zero (c : usb_async_transfer_t) (m : Machine)
    (h : c.ref_count = 0) :
    (async_inc_ref c m).1 = 0 ∧ (async_inc_ref c m).2.1.ref_count = 1 ∧
    (async_inc_ref c m).2.2.async_thread.fly_count = m.async_thread.fly_count + 1 := by
  rw [async_inc_ref_of_nonneg c m (by omega), h]
  exact ⟨rfl, rfl, rfl⟩

/-- C9 at a bulk context whose last reference has just been released. -/
theorem async_inc_ref_at_zero_witness :
    ({ bulk_idle with ref_count := 0 } : usb_async_transfer_t).ref_count = 0 ∧
    (async_inc_ref { bulk_idle with ref_count := 0 } idle_machine).1 = 0 ∧
    (async_inc_ref { bulk_idle with ref_count := 0 } idle_machine).2.1.ref_count = 1 :=
  have t := async_inc_ref_at_zero { bulk_idle with ref_count := 0 } idle_machine rfl
  ⟨rfl, t.1, t.2.1⟩

theorem apply_ref_op_freed (op : RefOp) (c : usb_async_transfer_t) (m : Machine) :
    (apply_ref_op op (c, m)).2.freed =
      if op = RefOp.release ∧ c.ref_count = 1 then m.freed + 1 else m.freed := by
  cases op with
  | acquire =>
    simp only [apply_ref_op, async_inc_ref]
    by_cases h : c.ref_count + 1 < 1
    · simp [h]
    · simp [h, fly_count_inc]
  | release =>
    simp only [apply_ref_op, async_dec_ref]
    by_cases h1 : c.ref_count - 1 = 0
    · have : c.ref_count = 1 := by omega
      simp [h1, this, fly_count_dec, async_free]
    · have : ¬ c.ref_count = 1 := by omega
      by_cases h2 : c.ref_count - 1 < 0
      · simp [h1, h2, this]
      · simp [h1, h2, this, fly_count_dec]

/-- C10 fails on the code: from any context with ref-count 1, the sequence
release, acquire, release runs `async_free` twice.  The first release brings
the count to 0 and destroys the handle, the acquire is let through at a stored
count of 0 and brings it back to 1, and the second release brings it to 0 and
destroys the handle again. -/
theorem run_ref_ops_frees_twice (c : usb_async_transfer_t) (m : Machine)
    (h : c.ref_count = 1) :
    (run_ref_ops [RefOp.release, RefOp.acquire, RefOp.release] (c, m)).2.freed =
      m.freed + 2 ∧
    (run_ref_ops [RefOp.release, RefOp.acquire, RefOp.release] (c, m)).1.ref_count = 0 := by
  simp only [run_ref_ops, List.foldl_cons, List.foldl_nil, apply_ref_op]
  rw [async_dec_ref_of_eq_one c m h]
  simp only []
  rw [async_inc_ref_of_nonneg _ _ (by show (0 : Int) ≤ 0; decide)]
  simp only []
  rw [async_dec_ref_of_eq_one _ _ (by show (0 : Int) + 1 = 1; decide)]
  simp [fly_count_dec, fly_count_inc, async_free]

/-- C10 at a freshly set up bulk context: two destructions of one handle. -/
theorem run_ref_ops_frees_twice_witness :
    bulk_idle.ref_count = 1 ∧
    (run_ref_ops [RefOp.release, RefOp.acquire, RefOp.release]
      (bulk_idle, idle_machine)).2.freed = 2 :=
  ⟨rfl, (run_ref_ops_frees_twice bulk_idle idle_machine rfl).1⟩

/-! ## Acquire and release, in full -/

/-- C19: `async_inc_ref` fails, with `EACCES`, exactly when the ref-count after
its increment is below 1, and then the context and the machine state (the
ref-count and the fly-count among them) are as before the call; otherwise it
returns 0, the ref-count and the fly-count are each one higher than before,
and the running signal is set when the new fly-count is 1 and is left as it
was otherwise.  The atomic increment returns the new value: incrementing 0
yields 1, and decrementing that yields 0. -/
theorem async_inc_ref_contract (c : usb_async_transfer_t) (m : Machine) :
    MPL_Atomic_Inc32 0 = 1 ∧ MPL_Atomic_Dec32 (MPL_Atomic_Inc32 0) = 0 ∧
    if MPL_Atomic_Inc32 c.ref_count < 1 then
      (async_inc_ref c m).1 = EACCES ∧ (async_inc_ref c m).1 ≠ 0 ∧
      (async_inc_ref c m).2.1 = c ∧ (async_inc_ref c m).2.2 = m
    else
      (async_inc_ref c m).1 = 0 ∧
      (async_inc_ref c m).2.1.ref_count = c.ref_count + 1 ∧
      (async_inc_ref c m).2.2.async_thread.fly_count = m.async_thread.fly_count + 1 ∧
      (async_inc_ref c m).2.2.async_thread.event_running =
        (if m.async_thread.fly_count + 1 = 1 then Mpl_Event_Set m.async_thread.event_running
         else m.async_thread.event_running) ∧
      (m.async_thread.fly_count + 1 = 1 →
        (async_inc_ref c m).2.2.async_thread.event_running.IsSet ≠ 0) := by
  refine ⟨by decide, by decide, ?_⟩
  by_cases h : MPL_Atomic_Inc32 c.ref_count < 1
  · rw [if_pos h]
    have h1 : c.ref_count + 1 < 1 := h
    have h2 : c.ref_count + 1 - 1 = c.ref_count := by omega
    unfold async_inc_ref
    simp only [if_pos h1, h2]
    exact ⟨trivial, by decide, trivial, trivial⟩
  · rw [if_neg h]
    have h1 : ¬ c.ref_count + 1 < 1 := h
    unfold async_inc_ref
    simp only [if_neg h1, fly_count_inc]
    refine ⟨trivial, trivial, trivial, trivial, ?_⟩
    intro hf
    rw [if_pos hf]
    unfold Mpl_Event_Set
    by_cases hs : m.async_thread.event_running.IsSet = 0
    · rw [if_pos hs]
      show (1 : Int) ≠ 0
      decide
    · rw [if_neg hs]; exact hs

/-- C20 as stated fails: a release that meets a stored ref-count of 0 takes it
to -1, returns `EACCES` at once and leaves the fly-count where it was. -/
theorem async_dec_ref_below_zero_keeps_fly_count :
    (async_dec_ref { bulk_idle with ref_count := 0 } busy_machine).2.1.ref_count = -1 ∧
    (async_dec_ref { bulk_idle with ref_count := 0 } busy_machine).1 = EACCES ∧
    (async_dec_ref { bulk_idle with ref_count := 0 } busy_machine).2.2.async_thread.fly_count =
      busy_machine.async_thread.fly_count ∧
    ¬ ((async_dec_ref { bulk_idle with ref_count := 0 }
        busy_machine).2.2.async_thread.fly_count =
      busy_machine.async_thread.fly_count - 1) := by
  decide

/-- C20, amended: every `async_dec_ref` call decrements the ref-count by one
and destroys the context exactly when the new ref-count is 0.  When the new
ref-count is not negative it also decrements the fly-count by one and resets
the running signal when the new fly-count is 0, leaving it as it was
otherwise; when the new ref-count is negative it returns `EACCES` and leaves
the machine state, fly-count and running signal included, as it was. -/
theorem async_dec_ref_contract (c : usb_async_transfer_t) (m : Machine) :
    (async_dec_ref c m).2.1.ref_count = c.ref_count - 1 ∧
    (async_dec_ref c m).2.2.freed = (if c.ref_count - 1 = 0 then m.freed + 1 else m.freed) ∧
    if c.ref_count - 1 < 0 then
      (async_dec_ref c m).1 = EACCES ∧ (async_dec_ref c m).2.2 = m
    else
      (async_dec_ref c m).2.2.async_thread.fly_count = m.async_thread.fly_count - 1 ∧
      (async_dec_ref c m).2.2.async_thread.event_running =
        (if m.async_thread.fly_count - 1 = 0 then
          Mpl_Event_Reset m.async_thread.event_running
         else m.async_thread.event_running) ∧
      (m.async_thread.fly_count - 1 = 0 →
        (async_dec_ref c m).2.2.async_thread.event_running.IsSet = 0) := by
  have hreset : m.async_thread.fly_count - 1 = 0 →
      (if m.async_thread.fly_count - 1 = 0 then Mpl_Event_Reset m.async_thread.event_running
        else m.async_thread.event_running).IsSet = 0 := by
    intro hf
    rw [if_pos hf]
    unfold Mpl_Event_Reset
    by_cases hs : m.async_thread.event_running.IsSet = 0
    · simp [hs]
    · simp [hs]
  unfold async_dec_ref
  by_cases h0 : c.ref_count - 1 = 0
  · have hn : ¬ c.ref_count - 1 < 0 := by omega
    simp only [if_pos h0, if_neg hn, fly_count_dec, async_free]
    exact ⟨trivial, trivial, trivial, trivial, hreset⟩
  · by_cases hn : c.ref_count - 1 < 0
    · simp only [if_neg h0, if_pos hn]
      exact ⟨trivial, trivial, trivial, trivial⟩
    · simp only [if_neg h0, if_neg hn, fly_count_dec]
      exact ⟨trivial, trivial, trivial, trivial, hreset⟩

/-! ## Synchronous transfers -/

theorem libusb_to_errno_pos (result : Int) (h : result ≠ LIBUSB_SUCCESS) :
    0 < libusb_to_errno result := by
  unfold libusb_to_errno
  rw [if_neg h]
  by_cases h0 : result = LIBUSB_ERROR_IO
  · rw [if_pos h0]; decide
  rw [if_neg h0]
  by_cases h1 : result = LIBUSB_ERROR_INVALID_PARAM
  · rw [if_pos h1]; decide
  rw [if_neg h1]
  by_cases h2 : result = LIBUSB_ERROR_ACCESS
  · rw [if_pos h2]; decide
  rw [if_neg h2]
  by_cases h3 : result = LIBUSB_ERROR_NO_DEVICE
  · rw [if_pos h3]; decide
  rw [if_neg h3]
  by_cases h4 : result = LIBUSB_ERROR_NOT_FOUND
  · rw [if_pos h4]; decide
  rw [if_neg h4]
  by_cases h5 : result = LIBUSB_ERROR_BUSY
  · rw [if_pos h5]; decide
  rw [if_neg h5]
  by_cases h6 : result = LIBUSB_ERROR_TIMEOUT
  · rw [if_pos h6]; decide
  rw [if_neg h6]
  by_cases h7 : result = LIBUSB_ERROR_OVERFLOW
  · rw [if_pos h7]; decide
  rw [if_neg h7]
  by_cases h8 : result = LIBUSB_ERROR_PIPE
  · rw [if_pos h8]; decide
  rw [if_neg h8]
  by_cases h9 : result = LIBUSB_ERROR_INTERRUPTED
  · rw [if_pos h9]; decide
  rw [if_neg h9]
  by_cases h10 : result = LIBUSB_ERROR_NO_MEM
  · rw [if_pos h10]; decide
  rw [if_neg h10]
  by_cases h11 : result = LIBUSB_ERROR_NOT_SUPPORTED
  · rw [if_pos h11]; decide
  rw [if_neg h11]
  decide

/-- C16: `usb_bulk_read`, `usb_bulk_write`, `usb_interrupt_read` and
`usb_interrupt_write` are `usb_bulk_io` and `usb_interrupt_io` at an endpoint
with the direction bit put right, and each of the two, with `t` the answer of
the driver, returns the byte count `t.2` when `t.1` is `LIBUSB_SUCCESS`,
returns `t.2` with `errno = ETIMEDOUT` when `t.1` is `LIBUSB_ERROR_TIMEOUT` and
`t.2 > 0`, and in every other case returns `-libusb_to_errno t.1`, which is
strictly negative. -/
theorem sync_transfer_result (drv : SyncDriver) (dev_handle : Nat) (ep : Int) (bytes : Nat)
    (size timeout errno : Int) :
    (∃ ep1, usb_bulk_read drv dev_handle ep bytes size timeout errno =
      usb_bulk_io drv dev_handle ep1 bytes size timeout errno) ∧
    (∃ ep1, usb_bulk_write drv dev_handle ep bytes size timeout errno =
      usb_bulk_io drv dev_handle ep1 bytes size timeout errno) ∧
    (∃ ep1, usb_interrupt_read drv dev_handle ep bytes size timeout errno =
      usb_interrupt_io drv dev_handle ep1 bytes size timeout errno) ∧
    (∃ ep1, usb_interrupt_write drv dev_handle ep bytes size timeout errno =
      usb_interrupt_io drv dev_handle ep1 bytes size timeout errno) ∧
    (if (drv.libusb_bulk_transfer dev_handle (Int.land ep 0xff) bytes size timeout).1 =
        LIBUSB_SUCCESS then
      (usb_bulk_io drv dev_handle ep bytes size timeout errno).1 =
        (drv.libusb_bulk_transfer dev_handle (Int.land ep 0xff) bytes size timeout).2
    else if (drv.libusb_bulk_transfer dev_handle (Int.land ep 0xff) bytes size timeout).1 =
        LIBUSB_ERROR_TIMEOUT ∧
        (drv.libusb_bulk_transfer dev_handle (Int.land ep 0xff) bytes size timeout).2 > 0 then
      (usb_bulk_io drv dev_handle ep bytes size timeout errno).1 =
        (drv.libusb_bulk_transfer dev_handle (Int.land ep 0xff) bytes size timeout).2 ∧
      (usb_bulk_io drv dev_handle ep bytes size timeout errno).2 = ETIMEDOUT
    else
      (usb_bulk_io drv dev_handle ep bytes size timeout errno).1 =
        -(libusb_to_errno
          (drv.libusb_bulk_transfer dev_handle (Int.land ep 0xff) bytes size timeout).1) ∧
      (usb_bulk_io drv dev_handle ep bytes size timeout errno).1 < 0) ∧
    (if (drv.libusb_interrupt_transfer dev_handle (Int.land ep 0xff) bytes size timeout).1 =
        LIBUSB_SUCCESS then
      (usb_interrupt_io drv dev_handle ep bytes size timeout errno).1 =
        (drv.libusb_interrupt_transfer dev_handle (Int.land ep 0xff) bytes size timeout).2
    else if (drv.libusb_interrupt_transfer dev_handle (Int.land ep 0xff) bytes size
          timeout).1 = LIBUSB_ERROR_TIMEOUT ∧
        (drv.libusb_interrupt_transfer dev_handle (Int.land ep 0xff) bytes size timeout).2 >
          0 then
      (usb_interrupt_io drv dev_handle ep bytes size timeout errno).1 =
        (drv.libusb_interrupt_transfer dev_handle (Int.land ep 0xff) bytes size timeout).2 ∧
      (usb_interrupt_io drv dev_handle ep bytes size timeout errno).2 = ETIMEDOUT
    else
      (usb_interrupt_io drv dev_handle ep bytes size timeout errno).1 =
        -(libusb_to_errno
          (drv.libusb_interrupt_transfer dev_handle (Int.land ep 0xff) bytes size
            timeout).1) ∧
      (usb_interrupt_io drv dev_handle ep bytes size timeout errno).1 < 0) := by
  refine ⟨⟨_, rfl⟩, ⟨_, rfl⟩, ⟨_, rfl⟩, ⟨_, rfl⟩, ?_, ?_⟩
  · unfold usb_bulk_io
    generalize drv.libusb_bulk_transfer dev_handle (Int.land ep 0xff) bytes size timeout = t
    by_cases h1 : t.1 = LIBUSB_SUCCESS
    · simp only [if_pos h1]
    · by_cases h2 : t.1 = LIBUSB_ERROR_TIMEOUT ∧ t.2 > 0
      · simp only [if_neg h1, if_pos h2, and_self]
      · simp only [if_neg h1, if_neg h2, true_and]
        have := libusb_to_errno_pos t.1 h1
        omega
  · unfold usb_interrupt_io
    generalize drv.libusb_interrupt_transfer dev_handle (Int.land ep 0xff) bytes size
      timeout = t
    by_cases h1 : t.1 = LIBUSB_SUCCESS
    · simp only [if_pos h1]
    · by_cases h2 : t.1 = LIBUSB_ERROR_TIMEOUT ∧ t.2 > 0
      · simp only [if_neg h1, if_pos h2, and_self]
      · simp only [if_neg h1, if_neg h2, true_and]
        have := libusb_to_errno_pos t.1 h1
        omega

/-! ## Benchmark: the worker loop -/

theorem TransferThreadProc_pass_timeout (p : BM_TRANSFER_PARAM) :
    (TransferThreadProc_pass (-ETIMEDOUT) p).1 =
      { p with
        TotalTimeoutCount := p.TotalTimeoutCount + 1
        RunningTimeoutCount := p.RunningTimeoutCount + 1 } ∧
    ((TransferThreadProc_pass (-ETIMEDOUT) p).2 = true ↔
      (p.Test.IsUserAborted ≠ 0 ∨ p.RunningTimeoutCount + 1 > p.Test.Retry)) := by
  have hneg : -ETIMEDOUT < 0 := by decide
  unfold TransferThreadProc_pass
  simp only [if_pos hneg, if_true]
  by_cases h1 : p.Test.IsUserAborted ≠ 0
  · simp [h1]
  · by_cases h2 : p.RunningTimeoutCount + 1 > p.Test.Retry
    · simp [h1, h2]
    · simp [h1, h2]

theorem TransferThreadProc_loop_timeouts (k : Nat) :
    ∀ p : BM_TRANSFER_PARAM, p.Test.IsCancelled = 0 → p.Test.IsUserAborted = 0 →
      p.RunningTimeoutCount ≤ p.Test.Retry →
      ((TransferThreadProc_loop (List.replicate k (-ETIMEDOUT)) p).2.1 = true ↔
        (k : Int) > p.Test.Retry - p.RunningTimeoutCount) ∧
      (TransferThreadProc_loop (List.replicate k (-ETIMEDOUT)) p).2.2 =
        (if (k : Int) > p.Test.Retry - p.RunningTimeoutCount then
          (p.Test.Retry - p.RunningTimeoutCount + 1).toNat
         else k) ∧
      (TransferThreadProc_loop (List.replicate k (-ETIMEDOUT)) p).1.TotalTimeoutCount =
        p.TotalTimeoutCount +
          (TransferThreadProc_loop (List.replicate k (-ETIMEDOUT)) p).2.2 := by
  induction k with
  | zero =>
    intro p hc _ hr
    have h0 : ¬ ((0 : Nat) : Int) > p.Test.Retry - p.RunningTimeoutCount := by
      simp only [Nat.cast_zero]; omega
    simp only [List.replicate, TransferThreadProc_loop, if_neg h0]
    simp [hc, hr]
  | succ k ih =>
    intro p hc hu hr
    have hpass := TransferThreadProc_pass_timeout p
    have hnc : ¬ p.Test.IsCancelled ≠ 0 := by simp [hc]
    simp only [List.replicate, TransferThreadProc_loop, if_neg hnc]
    by_cases hb : (TransferThreadProc_pass (-ETIMEDOUT) p).2 = true
    · have hgt : p.RunningTimeoutCount + 1 > p.Test.Retry := by
        rcases hpass.2.1 hb with h | h
        · exact absurd hu h
        · exact h
      have hk : ((k + 1 : Nat) : Int) > p.Test.Retry - p.RunningTimeoutCount := by
        push_cast; omega
      simp only [if_pos hb, if_pos hk, true_iff]
      refine ⟨hk, ?_, ?_⟩
      · have : p.Test.Retry - p.RunningTimeoutCount + 1 = 1 := by omega
        rw [this]; rfl
      · rw [hpass.1]; simp
    · have hle : ¬ p.RunningTimeoutCount + 1 > p.Test.Retry := by
        intro h; exact hb (hpass.2.2 (Or.inr h))
      simp only [if_neg hb]
      have h1 := ih (TransferThreadProc_pass (-ETIMEDOUT) p).1
        (by rw [hpass.1]; exact hc) (by rw [hpass.1]; exact hu)
        (by rw [hpass.1]; show p.RunningTimeoutCount + 1 ≤ p.Test.Retry; omega)
      have hR : (TransferThreadProc_pass (-ETIMEDOUT) p).1.Test.Retry = p.Test.Retry := by
        rw [hpass.1]
      have hT : (TransferThreadProc_pass (-ETIMEDOUT) p).1.RunningTimeoutCount =
          p.RunningTimeoutCount + 1 := by rw [hpass.1]
      have hTot : (TransferThreadProc_pass (-ETIMEDOUT) p).1.TotalTimeoutCount =
          p.TotalTimeoutCount + 1 := by rw [hpass.1]
      rw [hR, hT, hTot] at h1
      obtain ⟨h1a, h1b, h1c⟩ := h1
      refine ⟨?_, ?_, ?_⟩
      · rw [h1a]; push_cast; omega
      · rw [h1b]
        by_cases hk : (k : Int) > p.Test.Retry - (p.RunningTimeoutCount + 1)
        · have hk' : ((k + 1 : Nat) : Int) > p.Test.Retry - p.RunningTimeoutCount := by
            push_cast; omega
          rw [if_pos hk, if_pos hk']
          omega
        · have hk' : ¬ ((k + 1 : Nat) : Int) > p.Test.Retry - p.RunningTimeoutCount := by
            push_cast; omega
          rw [if_neg hk, if_neg hk']
      · rw [h1c]; push_cast; omega

/-- C17 as stated fails at `r = 0`: with a buffer of 4096 bytes and no retry
budget, a transfer that returns 0 bytes is counted as an error, not as a short
transfer, and stops the worker. -/
theorem TransferThreadProc_pass_zero_bytes :
    (0 : Int) ≤ 0 ∧ (0 : Int) < (sample_test 0 1).BufferSize ∧
    (sample_test 0 1).IsCancelled = 0 ∧
    (TransferThreadProc_pass 0
      (fresh_transfer_param (sample_test 0 1) sample_bulk_in)).1.ShortTransferCount = 0 ∧
    (TransferThreadProc_pass 0
      (fresh_transfer_param (sample_test 0 1) sample_bulk_in)).1.TotalErrorCount = 1 ∧
    (TransferThreadProc_pass 0
      (fresh_transfer_param (sample_test 0 1) sample_bulk_in)).1.RunningErrorCount = 1 ∧
    (TransferThreadProc_pass 0
      (fresh_transfer_param (sample_test 0 1) sample_bulk_in)).2 = true := by
  decide

/-- C17, amended: in the worker loop, while the test is not cancelled, a
transfer result `r` with `0 ≤ r < BufferSize` is handled by its sign.  For
`0 < r` it increments the short-transfer counter, leaves the total and running
error counters (and the timeout counters) unchanged, and takes no `break`.  For
`r = 0` it leaves the short-transfer counter (and the timeout counters)
unchanged, adds one to the total and to the running error counter, and takes
the `break` exactly when the running error count then exceeds `Retry`. -/
theorem TransferThreadProc_pass_short (p : BM_TRANSFER_PARAM) (r : Int)
    (hc : p.Test.IsCancelled = 0) (hr : 0 ≤ r) (hshort : r < p.Test.BufferSize) :
    (0 < r →
      (TransferThreadProc_pass r p).1.ShortTransferCount = p.ShortTransferCount + 1 ∧
      (TransferThreadProc_pass r p).1.TotalErrorCount = p.TotalErrorCount ∧
      (TransferThreadProc_pass r p).1.RunningErrorCount = p.RunningErrorCount ∧
      (TransferThreadProc_pass r p).1.TotalTimeoutCount = p.TotalTimeoutCount ∧
      (TransferThreadProc_pass r p).1.RunningTimeoutCount = p.RunningTimeoutCount ∧
      (TransferThreadProc_pass r p).2 = false) ∧
    (r = 0 →
      (TransferThreadProc_pass r p).1.ShortTransferCount = p.ShortTransferCount ∧
      (TransferThreadProc_pass r p).1.TotalErrorCount = p.TotalErrorCount + 1 ∧
      (TransferThreadProc_pass r p).1.RunningErrorCount = p.RunningErrorCount + 1 ∧
      (TransferThreadProc_pass r p).1.TotalTimeoutCount = p.TotalTimeoutCount ∧
      (TransferThreadProc_pass r p).1.RunningTimeoutCount = p.RunningTimeoutCount ∧
      ((TransferThreadProc_pass r p).2 = true ↔ p.RunningErrorCount + 1 > p.Test.Retry)) := by
  have h1 : ¬ r < 0 := by omega
  have h2 : r < p.Test.BufferSize ∧ p.Test.IsCancelled = 0 := ⟨hshort, hc⟩
  constructor
  · intro hpos
    have h3 : r > 0 := hpos
    unfold TransferThreadProc_pass
    simp only [if_neg h1, if_pos h2, if_pos h3, and_self]
  · intro hzero
    have h3 : ¬ r > 0 := by omega
    unfold TransferThreadProc_pass
    simp only [if_neg h1, if_pos h2, if_neg h3]
    by_cases hgt : p.RunningErrorCount + 1 > p.Test.Retry
    · rw [if_pos hgt]
      exact ⟨rfl, rfl, rfl, rfl, rfl, fun _ => hgt, fun _ => rfl⟩
    · rw [if_neg hgt]
      have hne : ¬ (false = true) := by decide
      exact ⟨rfl, rfl, rfl, rfl, rfl, fun h => absurd h hne, fun h => absurd h hgt⟩

/-- C17 as amended, at a transfer of 100 bytes and at a transfer of 0 bytes
into a 4096-byte buffer with no retry budget: the first is counted as short
and the worker goes on, the second is counted as an error and stops it. -/
theorem TransferThreadProc_pass_short_witness :
    ((fresh_transfer_param (sample_test 0 1) sample_bulk_in).Test.IsCancelled = 0 ∧
      (0 : Int) < 100 ∧
      (100 : Int) < (fresh_transfer_param (sample_test 0 1) sample_bulk_in).Test.BufferSize) ∧
    (TransferThreadProc_pass 100
      (fresh_transfer_param (sample_test 0 1) sample_bulk_in)).1.ShortTransferCount = 1 ∧
    (TransferThreadProc_pass 100
      (fresh_transfer_param (sample_test 0 1) sample_bulk_in)).1.TotalErrorCount = 0 ∧
    (TransferThreadProc_pass 100
      (fresh_transfer_param (sample_test 0 1) sample_bulk_in)).2 = false ∧
    (TransferThreadProc_pass 0
      (fresh_transfer_param (sample_test 0 1) sample_bulk_in)).1.ShortTransferCount = 0 ∧
    (TransferThreadProc_pass 0
      (fresh_transfer_param (sample_test 0 1) sample_bulk_in)).1.TotalErrorCount = 1 ∧
    (TransferThreadProc_pass 0
      (fresh_transfer_param (sample_test 0 1) sample_bulk_in)).1.RunningErrorCount = 1 ∧
    (TransferThreadProc_pass 0
      (fresh_transfer_param (sample_test 0 1) sample_bulk_in)).2 = true :=
  have t := (TransferThreadProc_pass_short
    (fresh_transfer_param (sample_test 0 1) sample_bulk_in) 100 (by decide) (by decide)
    (by decide)).1 (by decide)
  have z := (TransferThreadProc_pass_short
    (fresh_transfer_param (sample_test 0 1) sample_bulk_in) 0 (by decide) (by decide)
    (by decide)).2 rfl
  ⟨⟨by decide, by decide, by decide⟩, t.1, t.2.1, t.2.2.2.2.2, z.1, z.2.1, z.2.2.1,
    z.2.2.2.2.2.2 (by decide)⟩

/-- C18: with `Retry ≥ 0` and no user abort, a timed-out transfer increments
the total and the running timeout counter by one each and takes the `break`
exactly when the running count then exceeds `Retry`; so, from a running count
of 0 and while the test is not cancelled, a run of `k` timeouts leaves the
loop exactly when `k > Retry`, after `Retry + 1` transfers.  A successful
transfer of at least `BufferSize` bytes sets the running timeout and running
error counts to 0 and takes no `break`. -/
theorem TransferThreadProc_timeout_budget (p : BM_TRANSFER_PARAM)
    (hretry : 0 ≤ p.Test.Retry) (huser : p.Test.IsUserAborted = 0) :
    (TransferThreadProc_pass (-ETIMEDOUT) p).1.TotalTimeoutCount = p.TotalTimeoutCount + 1 ∧
    (TransferThreadProc_pass (-ETIMEDOUT) p).1.RunningTimeoutCount =
      p.RunningTimeoutCount + 1 ∧
    ((TransferThreadProc_pass (-ETIMEDOUT) p).2 = true ↔
      (TransferThreadProc_pass (-ETIMEDOUT) p).1.RunningTimeoutCount > p.Test.Retry) ∧
    (p.Test.IsCancelled = 0 → p.RunningTimeoutCount = 0 → ∀ k : Nat,
      ((TransferThreadProc_loop (List.replicate k (-ETIMEDOUT)) p).2.1 = true ↔
        (k : Int) > p.Test.Retry) ∧
      ((k : Int) > p.Test.Retry →
        ((TransferThreadProc_loop (List.replicate k (-ETIMEDOUT)) p).2.2 : Int) =
          p.Test.Retry + 1 ∧
        (TransferThreadProc_loop (List.replicate k (-ETIMEDOUT)) p).1.TotalTimeoutCount =
          p.TotalTimeoutCount + (p.Test.Retry + 1))) ∧
    (∀ r : Int, 0 ≤ r → p.Test.BufferSize ≤ r →
      (TransferThreadProc_pass r p).1.RunningTimeoutCount = 0 ∧
      (TransferThreadProc_pass r p).1.RunningErrorCount = 0 ∧
      (TransferThreadProc_pass r p).2 = false) := by
  have hpass := TransferThreadProc_pass_timeout p
  refine ⟨by rw [hpass.1], by rw [hpass.1], ?_, ?_, ?_⟩
  · rw [hpass.2, hpass.1]
    constructor
    · rintro (h | h)
      · exact absurd huser h
      · exact h
    · intro h; exact Or.inr h
  · intro hc h0 k
    have hl := TransferThreadProc_loop_timeouts k p hc huser (by rw [h0]; exact hretry)
    rw [h0, Int.sub_zero] at hl
    refine ⟨hl.1, fun hk => ?_⟩
    have hn := hl.2.1
    rw [if_pos hk] at hn
    have hn' : ((TransferThreadProc_loop (List.replicate k (-ETIMEDOUT)) p).2.2 : Int) =
        p.Test.Retry + 1 := by
      rw [hn]; exact Int.toNat_of_nonneg (by omega)
    exact ⟨hn', by rw [hl.2.2, hn']⟩
  · intro r hr hfull
    have h1 : ¬ r < 0 := by omega
    have h2 : ¬ (r < p.Test.BufferSize ∧ p.Test.IsCancelled = 0) := by
      rintro ⟨h, _⟩; omega
    unfold TransferThreadProc_pass
    simp only [if_neg h1, if_neg h2, and_self]

/-- C18, at a retry budget of 2: the worker stops after exactly 3 timeouts. -/
theorem TransferThreadProc_timeout_budget_witness :
    (0 ≤ (fresh_transfer_param (sample_test 2 1) sample_bulk_in).Test.Retry ∧
      (fresh_transfer_param (sample_test 2 1) sample_bulk_in).Test.IsUserAborted = 0) ∧
    (TransferThreadProc_loop (List.replicate 5 (-ETIMEDOUT))
      (fresh_transfer_param (sample_test 2 1) sample_bulk_in)).2.1 = true ∧
    ((TransferThreadProc_loop (List.replicate 5 (-ETIMEDOUT))
      (fresh_transfer_param (sample_test 2 1) sample_bulk_in)).2.2 : Int) = 2 + 1 ∧
    ¬ ((TransferThreadProc_loop (List.replicate 2 (-ETIMEDOUT))
      (fresh_transfer_param (sample_test 2 1) sample_bulk_in)).2.1 = true) := by
  have t := TransferThreadProc_timeout_budget
    (fresh_transfer_param (sample_test 2 1) sample_bulk_in) (by decide) (by decide)
  have t5 := t.2.2.2.1 rfl rfl 5
  have t2 := t.2.2.2.1 rfl rfl 2
  exact ⟨⟨by decide, by decide⟩, t5.1.2 (by decide), (t5.2 (by decide)).1,
    fun h => absurd (t2.1.1 h) (by decide)⟩

/-! ## The ref-count along sequences of operations -/

theorem async_submit_ref_count_nonneg (env : Env) (c : usb_async_transfer_t)
    (bytes : Option Nat) (size : Int) (timeout : Nat) (m : Machine)
    (h : 0 ≤ c.ref_count) :
    0 ≤ (((async_submit env (some c) bytes size timeout m).2.1).getD c).ref_count := by
  by_cases h1 : (bytes = none ∧ size > 0) ∨ c.ref_count ≠ 1
  · simp only [async_submit, if_pos h1, Option.getD_some]
    exact h
  · cases hiso : async_submit_iso c size with
    | none =>
      simp only [async_submit, if_neg h1, hiso, Option.getD_some]
      exact h
    | some c1 =>
      have hbuf : bytes = none → size ≤ 0 := by
        intro hb
        by_contra hs
        exact h1 (Or.inl ⟨hb, by omega⟩)
      have href : c.ref_count = 1 := by
        by_contra hr
        exact h1 (Or.inr hr)
      have hk := async_submit_of_checked env c c1 bytes size timeout m hbuf href hiso
      by_cases hr : env.libusb_submit_transfer
          (async_submit_attach { c1 with ref_count := 2 } bytes size timeout).transfer =
            LIBUSB_SUCCESS
      · rw [hk.1 hr]
        show (0 : Int) ≤ 2
        decide
      · rw [hk.2 hr]
        show (0 : Int) ≤ 1
        decide

theorem async_reap_ref_count_kept (env : Env) (c : usb_async_transfer_t) (timeout : Int)
    (cancel_on_timeout : Int) (m : Machine)
    (hquiet : ∀ k t, (env.wait k t).completion = none) :
    (((async_reap env (some c) timeout cancel_on_timeout m).2.1).getD c).ref_count =
      c.ref_count := by
  by_cases h1 : c.ref_count < 1
  · simp only [async_reap, if_pos h1, Option.getD_some]
  · rw [async_reap_of_valid env c timeout cancel_on_timeout m (by omega),
      reap_retry_for_cancel_eq]
    have hw0 := (wait_complete_event_facts env 0 { c with ref_count := c.ref_count + 1 }
      timeout (fly_count_inc m)).2.2.2 (hquiet 0 timeout)
    rw [hw0]
    by_cases hcond : (wait_complete_event env 0 { c with ref_count := c.ref_count + 1 }
        timeout (fly_count_inc m)).1 = ETIMEDOUT ∧ cancel_on_timeout ≠ 0
    · rw [if_pos hcond]
      simp only [Option.getD_some]
      rw [(reap_finish_facts _).2.1,
        (wait_complete_event_facts env (0 + 1) _ (-1) _).2.2.2 (hquiet (0 + 1) (-1))]
      show c.ref_count + 1 - 1 = c.ref_count
      omega
    · rw [if_neg hcond]
      simp only [Option.getD_some]
      rw [(reap_finish_facts _).2.1, hw0]
      show c.ref_count + 1 - 1 = c.ref_count
      omega

theorem apply_api_op_ref_count_nonneg (op : ApiOp) (s : usb_async_transfer_t × Machine)
    (h0 : 0 ≤ s.1.ref_count) (hr : releases op = true → 1 ≤ s.1.ref_count) :
    0 ≤ (apply_api_op op s).1.ref_count := by
  cases op with
  | acquire =>
    simp only [apply_api_op]
    rw [async_inc_ref_of_nonneg s.1 s.2 h0]
    show 0 ≤ s.1.ref_count + 1
    omega
  | release =>
    simp only [apply_api_op]
    rw [(async_dec_ref_keeps s.1 s.2).2.1]
    have := hr rfl
    omega
  | submit bytes size r =>
    simp only [apply_api_op, usb_submit_async]
    exact async_submit_ref_count_nonneg _ s.1 bytes size 0 s.2 h0
  | completion status actual_length =>
    simp only [apply_api_op, async_bulk_cb]
    rw [(async_dec_ref_keeps _ _).2.1]
    have := hr rfl
    show 0 ≤ s.1.ref_count - 1
    omega
  | reap timeout cancel_on_timeout wait0 wait1 cancel_result =>
    simp only [apply_api_op]
    rw [async_reap_ref_count_kept _ s.1 timeout cancel_on_timeout s.2 (fun _ _ => rfl)]
    exact h0
  | cancel r =>
    simp only [apply_api_op]
    exact h0
  | free =>
    have h1 := hr rfl
    simp only [apply_api_op, usb_free_async]
    by_cases hd : (async_dec_ref s.1 s.2).1 ≠ 0
    · simp only [if_pos hd, Option.getD_some]
      rw [(async_dec_ref_keeps s.1 s.2).2.1]
      omega
    · simp only [if_neg hd, Option.getD_some]
      rw [(async_dec_ref_keeps s.1 s.2).2.1]
      omega

/-- C11 as stated fails: from a context fresh from setup (ref-count 1), two
releases in a row leave the ref-count at -1; the second `async_dec_ref` reports
`EACCES` and does not put the count back. -/
theorem ref_count_negative_after_two_releases :
    bulk_idle.ref_count = 1 ∧
    (run_api_ops [ApiOp.release, ApiOp.release] (bulk_idle, idle_machine)).1.ref_count = -1 ∧
    ¬ (0 ≤ (run_api_ops [ApiOp.release, ApiOp.release]
      (bulk_idle, idle_machine)).1.ref_count) := by
  decide

/-- C11, amended: the ref-count of a context is at least 0 in every state
reached from setup (ref-count 1) by a sequence of acquire, release, submit,
completion-callback, reap, cancel and free operations in which every release,
completion callback and free meets a ref-count of at least 1. -/
theorem ref_count_nonneg_while_releases_held (ops : List ApiOp)
    (c : usb_async_transfer_t) (m : Machine) (hsetup : c.ref_count = 1)
    (hheld : releases_held ops (c, m)) :
    0 ≤ (run_api_ops ops (c, m)).1.ref_count := by
  have h0 : 0 ≤ (c, m).1.ref_count := by
    show 0 ≤ c.ref_count
    rw [hsetup]; decide
  generalize (c, m) = s at h0 hheld
  induction ops generalizing s with
  | nil => exact h0
  | cons op rest ih =>
    simp only [run_api_ops, List.foldl_cons]
    exact ih (apply_api_op op s) (apply_api_op_ref_count_nonneg op s h0 hheld.1) hheld.2

/-- C11 as amended, at submit, completion, reap, free on a bulk context. -/
theorem ref_count_nonneg_while_releases_held_witness :
    (bulk_idle.ref_count = 1 ∧
      releases_held
        [ApiOp.submit (some 4096) 512 0, ApiOp.completion 0 512,
          ApiOp.reap 1000 0 0 0 0, ApiOp.free] (bulk_idle, idle_machine)) ∧
    0 ≤ (run_api_ops
        [ApiOp.submit (some 4096) 512 0, ApiOp.completion 0 512,
          ApiOp.reap 1000 0 0 0 0, ApiOp.free] (bulk_idle, idle_machine)).1.ref_count := by
  have hheld : releases_held
      [ApiOp.submit (some 4096) 512 0, ApiOp.completion 0 512,
        ApiOp.reap 1000 0 0 0 0, ApiOp.free] (bulk_idle, idle_machine) := by
    simp only [releases_held, releases, apply_api_op, usb_submit_async, async_reap,
      reap_retry_for_cancel_eq]
    decide
  exact ⟨⟨rfl, hheld⟩,
    ref_count_nonneg_while_releases_held _ bulk_idle idle_machine rfl hheld⟩

/-! ## Benchmark: the window invariant -/

theorem TransferAsync_setup_keeps (env : BenchEnv) (s : BenchState) (idx : Int) :
    (∀ j, ((TransferAsync_setup env s idx).2.1 j).InUse = (s.param.TransferHandles j).InUse) ∧
    (∀ j u, BenchCall.reap j u ∈ (TransferAsync_setup env s idx).2.2 ↔
      BenchCall.reap j u ∈ s.calls) := by
  unfold TransferAsync_setup
  have hu : ∀ (h : BM_TRANSFER_HANDLE), h.InUse = (s.param.TransferHandles idx).InUse →
      ∀ j, (Function.update s.param.TransferHandles idx h j).InUse =
        (s.param.TransferHandles j).InUse := by
    intro h hh j
    by_cases hj : j = idx
    · subst hj; rw [Function.update_same]; exact hh
    · rw [Function.update_noteq hj]
  by_cases hty : ENDPOINT_TYPE s.param = USB_ENDPOINT_TYPE_ISOCHRONOUS ∨
      ENDPOINT_TYPE s.param = USB_ENDPOINT_TYPE_BULK ∨
      ENDPOINT_TYPE s.param = USB_ENDPOINT_TYPE_INTERRUPT
  · simp only [if_pos hty]
    cases env.setup s.calls.length with
    | none => exact ⟨hu _ rfl, fun j u => by simp⟩
    | some context => exact ⟨hu _ rfl, fun j u => by simp⟩
  · simp only [if_neg hty]
    exact ⟨hu _ rfl, fun j u => trivial⟩

theorem TransferAsync_submit_pass_keeps (env : BenchEnv) (s : BenchState) (ret : Int) :
    (∀ j, ((TransferAsync_submit_pass env s ret).2.2.1 j).InUse =
      (s.param.TransferHandles j).InUse) ∧
    (∀ j u, BenchCall.reap j u ∈ (TransferAsync_submit_pass env s ret).2.2.2 ↔
      BenchCall.reap j u ∈ s.calls) := by
  have hsu : ∀ su : Int × (Int → BM_TRANSFER_HANDLE) × List BenchCall,
      su = (if (s.param.TransferHandles s.param.TransferHandleNextIndex).Context = none then
        TransferAsync_setup env s s.param.TransferHandleNextIndex
        else (ret, s.param.TransferHandles, s.calls)) →
      (∀ j, (su.2.1 j).InUse = (s.param.TransferHandles j).InUse) ∧
      (∀ j u, BenchCall.reap j u ∈ su.2.2 ↔ BenchCall.reap j u ∈ s.calls) := by
    intro su hsu
    by_cases hctx : (s.param.TransferHandles s.param.TransferHandleNextIndex).Context = none
    · rw [if_pos hctx] at hsu
      rw [hsu]
      exact TransferAsync_setup_keeps env s _
    · rw [if_neg hctx] at hsu
      rw [hsu]
      exact ⟨fun _ => rfl, fun _ _ => Iff.rfl⟩
  unfold TransferAsync_submit_pass
  simp only []
  generalize hg : (if (s.param.TransferHandles s.param.TransferHandleNextIndex).Context = none
    then TransferAsync_setup env s s.param.TransferHandleNextIndex
    else (ret, s.param.TransferHandles, s.calls)) = su
  have h := hsu su hg.symm
  by_cases hd : (s.param.TransferHandles s.param.TransferHandleNextIndex).Context = none ∧
      su.1 < 0
  · simp only [if_pos hd]
    exact h
  · simp only [if_neg hd]
    constructor
    · intro j
      by_cases hj : j = s.param.TransferHandleNextIndex
      · subst hj; rw [Function.update_same]; exact h.1 _
      · rw [Function.update_noteq hj]; exact h.1 j
    · intro j u
      rw [← h.2 j u]
      simp

theorem TransferAsync_submit_loop_ok (env : BenchEnv) (d : Nat) :
    ∀ (s : BenchState) (ret : Int) (handleRef : Option Int),
      (s.param.Test.BufferCount - s.param.OutstandingTransferCount).toNat = d →
      window_ok s →
      window_ok (TransferAsync_submit_loop env s ret handleRef).2.2.2 ∧
      (TransferAsync_submit_loop env s ret handleRef).2.2.2.param.Test = s.param.Test ∧
      ((TransferAsync_submit_loop env s ret handleRef).1 = false →
        (TransferAsync_submit_loop env s ret handleRef).2.2.2.param.OutstandingTransferCount =
          s.param.Test.BufferCount) := by
  induction d with
  | zero =>
    intro s ret handleRef hd hok
    have hn : ¬ s.param.OutstandingTransferCount < s.param.Test.BufferCount := by omega
    rw [TransferAsync_submit_loop, dif_neg hn]
    refine ⟨hok, rfl, fun _ => ?_⟩
    have := hok.2.1
    show s.param.OutstandingTransferCount = s.param.Test.BufferCount
    omega
  | succ d ih =>
    intro s ret handleRef hd hok
    have hlt : s.param.OutstandingTransferCount < s.param.Test.BufferCount := by omega
    have hkeep := TransferAsync_submit_pass_keeps env s ret
    obtain ⟨h1, h2, h3, h4, h5, h6, h7, h8, h9, h10⟩ := hok
    rw [TransferAsync_submit_loop, dif_pos hlt]
    by_cases hdone : (TransferAsync_submit_pass env s ret).1 = true
    · rw [if_pos hdone]
      refine ⟨⟨h1, h2, h3, h4, h5, h6, h7, h8, ?_, ?_⟩, rfl, fun h => by cases h⟩
      · intro idx hidx
        show ((TransferAsync_submit_pass env s ret).2.2.1 idx).InUse = 1
        rw [hkeep.1 idx]
        exact h9 idx hidx
      · intro idx u hmem
        exact h10 idx u ((hkeep.2 idx u).1 hmem)
    · rw [if_neg hdone]
      have hnew := ih
        { param :=
            { s.param with
              TransferHandles :=
                Function.update (TransferAsync_submit_pass env s ret).2.2.1
                  s.param.TransferHandleNextIndex
                  { (TransferAsync_submit_pass env s ret).2.2.1
                      s.param.TransferHandleNextIndex with InUse := 1 }
              OutstandingTransferCount := s.param.OutstandingTransferCount + 1
              TransferHandleNextIndex :=
                INC_ROLL s.param.TransferHandleNextIndex s.param.Test.BufferCount }
          calls := (TransferAsync_submit_pass env s ret).2.2.2 }
        (TransferAsync_submit_pass env s ret).2.1 (some s.param.TransferHandleNextIndex)
        (by show (s.param.Test.BufferCount - (s.param.OutstandingTransferCount + 1)).toNat = d
            omega)
        (by
          refine ⟨?_, ?_, ?_, ?_, h5, h6, ?_, ?_, ?_, ?_⟩
          · show 0 ≤ s.param.OutstandingTransferCount + 1
            omega
          · show s.param.OutstandingTransferCount + 1 ≤ s.param.Test.BufferCount
            omega
          · show 0 ≤ (if s.param.TransferHandleNextIndex + 1 ≥ s.param.Test.BufferCount then 0
              else s.param.TransferHandleNextIndex + 1)
            split_ifs <;> omega
          · show (if s.param.TransferHandleNextIndex + 1 ≥ s.param.Test.BufferCount then 0
              else s.param.TransferHandleNextIndex + 1) < s.param.Test.BufferCount
            split_ifs <;> omega
          · show s.param.TransferHandleWaitIndex + (s.param.OutstandingTransferCount + 1) <
              s.param.Test.BufferCount →
              (if s.param.TransferHandleNextIndex + 1 ≥ s.param.Test.BufferCount then 0
                else s.param.TransferHandleNextIndex + 1) =
              s.param.TransferHandleWaitIndex + (s.param.OutstandingTransferCount + 1)
            intro hh
            by_cases hw : s.param.TransferHandleWaitIndex +
                s.param.OutstandingTransferCount < s.param.Test.BufferCount
            · have hnext := h7 hw
              split_ifs <;> omega
            · have hnext := h8 (by omega)
              split_ifs <;> omega
          · show s.param.Test.BufferCount ≤
              s.param.TransferHandleWaitIndex + (s.param.OutstandingTransferCount + 1) →
              (if s.param.TransferHandleNextIndex + 1 ≥ s.param.Test.BufferCount then 0
                else s.param.TransferHandleNextIndex + 1) =
              s.param.TransferHandleWaitIndex + (s.param.OutstandingTransferCount + 1) -
                s.param.Test.BufferCount
            intro hh
            by_cases hw : s.param.TransferHandleWaitIndex +
                s.param.OutstandingTransferCount < s.param.Test.BufferCount
            · have hnext := h7 hw
              split_ifs <;> omega
            · have hnext := h8 (by omega)
              split_ifs <;> omega
          · intro idx hidx
            show (Function.update (TransferAsync_submit_pass env s ret).2.2.1
              s.param.TransferHandleNextIndex _ idx).InUse = 1
            by_cases hj : idx = s.param.TransferHandleNextIndex
            · rw [hj, Function.update_same]
            · rw [Function.update_noteq hj, hkeep.1 idx]
              apply h9 idx
              have hidx' : (s.param.TransferHandleWaitIndex ≤ idx ∧
                  idx < s.param.Test.BufferCount ∧
                  idx < s.param.TransferHandleWaitIndex +
                    (s.param.OutstandingTransferCount + 1)) ∨
                (0 ≤ idx ∧ idx + s.param.Test.BufferCount <
                  s.param.TransferHandleWaitIndex +
                    (s.param.OutstandingTransferCount + 1)) := hidx
              clear hidx
              by_cases hw : s.param.TransferHandleWaitIndex +
                  s.param.OutstandingTransferCount < s.param.Test.BufferCount
              · have hnext := h7 hw
                omega
              · have hnext := h8 (by omega)
                omega
          · intro idx u hmem
            exact h10 idx u ((hkeep.2 idx u).1 hmem))
      exact ⟨hnew.1, hnew.2.1, hnew.2.2⟩

theorem TransferAsync_ok (env : BenchEnv) (s : BenchState) (hok : window_ok s) :
    window_ok (TransferAsync env s).2.2 ∧ (TransferAsync env s).2.2.param.Test = s.param.Test := by
  have hl := TransferAsync_submit_loop_ok env _ s (-EFAULT) none rfl hok
  unfold TransferAsync
  simp only []
  generalize TransferAsync_submit_loop env s (-EFAULT) none = l at hl
  obtain ⟨⟨h1, h2, h3, h4, h5, h6, h7, h8, h9, h10⟩, hT, _⟩ := hl
  by_cases hdone : l.1 = true
  · rw [if_pos hdone]
    exact ⟨⟨h1, h2, h3, h4, h5, h6, h7, h8, h9, h10⟩, hT⟩
  · rw [if_neg hdone]
    by_cases hfull : l.2.2.2.param.OutstandingTransferCount = l.2.2.2.param.Test.BufferCount
    · rw [if_pos hfull]
      have hnext := h8 (by omega)
      have hwait : (l.2.2.2.param.TransferHandles
          l.2.2.2.param.TransferHandleWaitIndex).InUse = 1 :=
        h9 _ (Or.inl ⟨Int.le_refl _, h6, by omega⟩)
      have hcalls : ∀ idx u : Int,
          BenchCall.reap idx u ∈ l.2.2.2.calls ++
            [BenchCall.reap l.2.2.2.param.TransferHandleWaitIndex
              (l.2.2.2.param.TransferHandles l.2.2.2.param.TransferHandleWaitIndex).InUse] →
          u = 1 := by
        intro idx u hmem
        rcases List.mem_append.1 hmem with hm | hm
        · exact h10 idx u hm
        · rw [List.mem_singleton] at hm
          cases hm
          exact hwait
      have hret : ∀ (r : Int) (j : Int),
          (Function.update l.2.2.2.param.TransferHandles l.2.2.2.param.TransferHandleWaitIndex
            { l.2.2.2.param.TransferHandles l.2.2.2.param.TransferHandleWaitIndex with
              ReturnCode := r } j).InUse = (l.2.2.2.param.TransferHandles j).InUse := by
        intro r j
        by_cases hj : j = l.2.2.2.param.TransferHandleWaitIndex
        · subst hj; rw [Function.update_same]
        · rw [Function.update_noteq hj]
      by_cases hr : env.reap l.2.2.2.calls.length < 0
      · rw [if_pos hr]
        refine ⟨⟨h1, h2, h3, h4, h5, h6, h7, h8, ?_, hcalls⟩, hT⟩
        intro idx hidx
        show (Function.update l.2.2.2.param.TransferHandles _ _ idx).InUse = 1
        rw [hret]
        exact h9 idx hidx
      · rw [if_neg hr]
        refine ⟨⟨?_, ?_, h3, h4, ?_, ?_, ?_, ?_, ?_, hcalls⟩, hT⟩
        · show 0 ≤ l.2.2.2.param.OutstandingTransferCount - 1
          omega
        · show l.2.2.2.param.OutstandingTransferCount - 1 ≤ l.2.2.2.param.Test.BufferCount
          omega
        · show 0 ≤ (if l.2.2.2.param.TransferHandleWaitIndex + 1 ≥
              l.2.2.2.param.Test.BufferCount then 0
            else l.2.2.2.param.TransferHandleWaitIndex + 1)
          split_ifs <;> omega
        · show (if l.2.2.2.param.TransferHandleWaitIndex + 1 ≥
              l.2.2.2.param.Test.BufferCount then 0
            else l.2.2.2.param.TransferHandleWaitIndex + 1) < l.2.2.2.param.Test.BufferCount
          split_ifs <;> omega
        · show (if l.2.2.2.param.TransferHandleWaitIndex + 1 ≥
                l.2.2.2.param.Test.BufferCount then 0
              else l.2.2.2.param.TransferHandleWaitIndex + 1) +
              (l.2.2.2.param.OutstandingTransferCount - 1) < l.2.2.2.param.Test.BufferCount →
            l.2.2.2.param.TransferHandleNextIndex =
              (if l.2.2.2.param.TransferHandleWaitIndex + 1 ≥
                l.2.2.2.param.Test.BufferCount then 0
              else l.2.2.2.param.TransferHandleWaitIndex + 1) +
              (l.2.2.2.param.OutstandingTransferCount - 1)
          split_ifs <;> intro hh <;> omega
        · show l.2.2.2.param.Test.BufferCount ≤
              (if l.2.2.2.param.TransferHandleWaitIndex + 1 ≥
                l.2.2.2.param.Test.BufferCount then 0
              else l.2.2.2.param.TransferHandleWaitIndex + 1) +
              (l.2.2.2.param.OutstandingTransferCount - 1) →
            l.2.2.2.param.TransferHandleNextIndex =
              (if l.2.2.2.param.TransferHandleWaitIndex + 1 ≥
                l.2.2.2.param.Test.BufferCount then 0
              else l.2.2.2.param.TransferHandleWaitIndex + 1) +
              (l.2.2.2.param.OutstandingTransferCount - 1) - l.2.2.2.param.Test.BufferCount
          split_ifs <;> intro hh <;> omega
        · intro idx hidx
          have hidx' : ((if l.2.2.2.param.TransferHandleWaitIndex + 1 ≥
                l.2.2.2.param.Test.BufferCount then 0
              else l.2.2.2.param.TransferHandleWaitIndex + 1) ≤ idx ∧
              idx < l.2.2.2.param.Test.BufferCount ∧
              idx < (if l.2.2.2.param.TransferHandleWaitIndex + 1 ≥
                  l.2.2.2.param.Test.BufferCount then 0
                else l.2.2.2.param.TransferHandleWaitIndex + 1) +
                (l.2.2.2.param.OutstandingTransferCount - 1)) ∨
            (0 ≤ idx ∧ idx + l.2.2.2.param.Test.BufferCount <
              (if l.2.2.2.param.TransferHandleWaitIndex + 1 ≥
                  l.2.2.2.param.Test.BufferCount then 0
                else l.2.2.2.param.TransferHandleWaitIndex + 1) +
                (l.2.2.2.param.OutstandingTransferCount - 1)) := hidx
          clear hidx
          have hne : idx ≠ l.2.2.2.param.TransferHandleWaitIndex := by
            split_ifs at hidx' <;> omega
          have hin : (l.2.2.2.param.TransferHandleWaitIndex ≤ idx ∧
              idx < l.2.2.2.param.Test.BufferCount ∧
              idx < l.2.2.2.param.TransferHandleWaitIndex +
                l.2.2.2.param.OutstandingTransferCount) ∨
            (0 ≤ idx ∧ idx + l.2.2.2.param.Test.BufferCount <
              l.2.2.2.param.TransferHandleWaitIndex +
                l.2.2.2.param.OutstandingTransferCount) := by
            split_ifs at hidx' <;> omega
          show (Function.update (Function.update l.2.2.2.param.TransferHandles _ _) _ _
            idx).InUse = 1
          rw [Function.update_noteq hne, hret]
          exact h9 idx hin
    · rw [if_neg hfull]
      exact ⟨⟨h1, h2, h3, h4, h5, h6, h7, h8, h9, h10⟩, hT⟩

theorem run_TransferAsync_ok (env : BenchEnv) (k : Nat) (s : BenchState) (hok : window_ok s) :
    window_ok (run_TransferAsync env k s) ∧
    (run_TransferAsync env k s).param.Test = s.param.Test := by
  induction k with
  | zero => exact ⟨hok, rfl⟩
  | succ k ih =>
    have h := TransferAsync_ok env (run_TransferAsync env k s) ih.1
    exact ⟨h.1, h.2.trans ih.2⟩

theorem fresh_window_ok (test : BM_TEST_PARAM) (ep : usb_endpoint_descriptor)
    (h : 1 ≤ test.BufferCount) : window_ok (fresh_window test ep) := by
  refine ⟨Int.le_refl _, ?_, Int.le_refl _, ?_, Int.le_refl _, ?_, fun _ => rfl, ?_, ?_, ?_⟩
  · show (0 : Int) ≤ test.BufferCount
    omega
  · show (0 : Int) < test.BufferCount
    omega
  · show (0 : Int) < test.BufferCount
    omega
  · show test.BufferCount ≤ (0 : Int) + 0 → _
    intro hh; omega
  · intro idx hidx
    have hidx' : ((0 : Int) ≤ idx ∧ idx < test.BufferCount ∧ idx < 0 + 0) ∨
        (0 ≤ idx ∧ idx + test.BufferCount < 0 + 0) := hidx
    omega
  · intro idx u hmem
    cases hmem

theorem ring_index_mod (W O n N : Int) (hW : 0 ≤ W) (hWn : W < n) (hO : 0 ≤ O) (hOn : O ≤ n)
    (h1 : W + O < n → N = W + O) (h2 : n ≤ W + O → N = W + O - n) :
    N = (W + O) % n := by
  by_cases h : W + O < n
  · rw [h1 h, Int.emod_eq_of_lt (by omega) h]
  · have hN := h2 (by omega)
    have hx : W + O = (W + O - n) + n := by omega
    rw [hx, Int.add_emod_self, Int.emod_eq_of_lt (by omega) (by omega)]
    exact hN

/-- C12: for every `BufferCount` that `ValidateBenchmarkArgs` accepts (1 to 10)
and every number of `TransferAsync` calls on a window that starts zeroed,
whatever the setup, submit and reap calls answer, the outstanding count stays
between 0 and `BufferCount`, the next-submit and wait indices stay in
`[0, BufferCount)`, the next-submit index equals the wait index plus the
outstanding count modulo `BufferCount`, and every slot handed to a reap had
its `InUse` flag set (`TRUE`, which is 1). -/
theorem TransferAsync_window_invariant (test : BM_TEST_PARAM) (ep : usb_endpoint_descriptor)
    (env : BenchEnv) (k : Nat) (hvalid : ValidateBenchmarkArgs test = 0) :
    1 ≤ test.BufferCount ∧ test.BufferCount ≤ 10 ∧
    (run_TransferAsync env k (fresh_window test ep)).param.Test.BufferCount =
      test.BufferCount ∧
    0 ≤ (run_TransferAsync env k (fresh_window test ep)).param.OutstandingTransferCount ∧
    (run_TransferAsync env k (fresh_window test ep)).param.OutstandingTransferCount ≤
      test.BufferCount ∧
    0 ≤ (run_TransferAsync env k (fresh_window test ep)).param.TransferHandleNextIndex ∧
    (run_TransferAsync env k (fresh_window test ep)).param.TransferHandleNextIndex <
      test.BufferCount ∧
    0 ≤ (run_TransferAsync env k (fresh_window test ep)).param.TransferHandleWaitIndex ∧
    (run_TransferAsync env k (fresh_window test ep)).param.TransferHandleWaitIndex <
      test.BufferCount ∧
    (run_TransferAsync env k (fresh_window test ep)).param.TransferHandleNextIndex =
      ((run_TransferAsync env k (fresh_window test ep)).param.TransferHandleWaitIndex +
        (run_TransferAsync env k (fresh_window test ep)).param.OutstandingTransferCount) %
        test.BufferCount ∧
    (∀ slot u : Int,
      BenchCall.reap slot u ∈ (run_TransferAsync env k (fresh_window test ep)).calls →
        u = 1) := by
  have hrange : 1 ≤ test.BufferCount ∧ test.BufferCount ≤ 10 := by
    unfold ValidateBenchmarkArgs at hvalid
    by_cases h : test.BufferCount < 1 ∨ test.BufferCount > MAX_OUTSTANDING_TRANSFERS
    · rw [if_pos h] at hvalid
      exact absurd hvalid (by decide)
    · have h1 : ¬ test.BufferCount < 1 := fun hh => h (Or.inl hh)
      have h2 : ¬ test.BufferCount > MAX_OUTSTANDING_TRANSFERS := fun hh => h (Or.inr hh)
      have h3 : MAX_OUTSTANDING_TRANSFERS = 10 := rfl
      rw [h3] at h2
      omega
  have hrun := run_TransferAsync_ok env k (fresh_window test ep)
    (fresh_window_ok test ep hrange.1)
  have hT : (run_TransferAsync env k (fresh_window test ep)).param.Test.BufferCount =
      test.BufferCount := by rw [hrun.2]; rfl
  obtain ⟨⟨h1, h2, h3, h4, h5, h6, h7, h8, _, h10⟩, _⟩ := hrun
  rw [hT] at h2 h4 h6 h7 h8
  exact ⟨hrange.1, hrange.2, hT, h1, h2, h3, h4, h5, h6,
    ring_index_mod _ _ _ _ h5 h6 h1 h2 h7 h8, h10⟩

/-- C12, at a window of 3 slots after 5 calls that all succeed. -/
theorem TransferAsync_window_invariant_witness :
    ValidateBenchmarkArgs (sample_test 0 3) = 0 ∧
    0 ≤ (run_TransferAsync bench_env_ok 5
      (fresh_window (sample_test 0 3) sample_bulk_in)).param.OutstandingTransferCount ∧
    (run_TransferAsync bench_env_ok 5
      (fresh_window (sample_test 0 3) sample_bulk_in)).param.OutstandingTransferCount ≤ 3 ∧
    (run_TransferAsync bench_env_ok 5
      (fresh_window (sample_test 0 3) sample_bulk_in)).param.TransferHandleNextIndex =
      ((run_TransferAsync bench_env_ok 5
          (fresh_window (sample_test 0 3) sample_bulk_in)).param.TransferHandleWaitIndex +
        (run_TransferAsync bench_env_ok 5
          (fresh_window (sample_test 0 3) sample_bulk_in)).param.OutstandingTransferCount) %
        3 :=
  have t := TransferAsync_window_invariant (sample_test 0 3) sample_bulk_in bench_env_ok 5
    (by decide)
  ⟨by decide, t.2.2.2.1, t.2.2.2.2.1, t.2.2.2.2.2.2.2.2.2.1⟩

/-! ## Benchmark: order of submits and reaps when every call succeeds -/

theorem TransferAsync_submit_loop_exit (env : BenchEnv) (s : BenchState) (ret : Int)
    (handleRef : Option Int)
    (h : ¬ s.param.OutstandingTransferCount < s.param.Test.BufferCount) :
    TransferAsync_submit_loop env s ret handleRef = (false, ret, handleRef, s) := by
  rw [TransferAsync_submit_loop, dif_neg h]

theorem TransferAsync_submit_loop_step (env : BenchEnv) (s : BenchState) (ret : Int)
    (handleRef : Option Int)
    (h : s.param.OutstandingTransferCount < s.param.Test.BufferCount)
    (hp : (TransferAsync_submit_pass env s ret).1 = false) :
    TransferAsync_submit_loop env s ret handleRef =
      TransferAsync_submit_loop env
        { param :=
            { s.param with
              TransferHandles :=
                Function.update (TransferAsync_submit_pass env s ret).2.2.1
                  s.param.TransferHandleNextIndex
                  { (TransferAsync_submit_pass env s ret).2.2.1
                      s.param.TransferHandleNextIndex with InUse := 1 }
              OutstandingTransferCount := s.param.OutstandingTransferCount + 1
              TransferHandleNextIndex :=
                INC_ROLL s.param.TransferHandleNextIndex s.param.Test.BufferCount }
          calls := (TransferAsync_submit_pass env s ret).2.2.2 }
        (TransferAsync_submit_pass env s ret).2.1 (some s.param.TransferHandleNextIndex) := by
  have hne : ¬ (TransferAsync_submit_pass env s ret).1 = true := by rw [hp]; decide
  rw [TransferAsync_submit_loop, dif_pos h, if_neg hne]

theorem TransferAsync_submit_pass_success (env : BenchEnv) (s : BenchState) (ret : Int)
    (hty : ENDPOINT_TYPE s.param = USB_ENDPOINT_TYPE_ISOCHRONOUS ∨
      ENDPOINT_TYPE s.param = USB_ENDPOINT_TYPE_BULK ∨
      ENDPOINT_TYPE s.param = USB_ENDPOINT_TYPE_INTERRUPT)
    (hsetup : ∀ k, env.setup k ≠ none) (hsubmit : ∀ k, 0 ≤ env.submit k) :
    (TransferAsync_submit_pass env s ret).1 = false ∧
    (TransferAsync_submit_pass env s ret).2.2.2 =
      s.calls ++
        (if (s.param.TransferHandles s.param.TransferHandleNextIndex).Context = none then
          [BenchCall.setup s.param.TransferHandleNextIndex,
            BenchCall.submit s.param.TransferHandleNextIndex]
         else [BenchCall.submit s.param.TransferHandleNextIndex]) ∧
    ((TransferAsync_submit_pass env s ret).2.2.1 s.param.TransferHandleNextIndex).Context ≠
      none ∧
    (∀ j, j ≠ s.param.TransferHandleNextIndex →
      (TransferAsync_submit_pass env s ret).2.2.1 j = s.param.TransferHandles j) := by
  by_cases hctx : (s.param.TransferHandles s.param.TransferHandleNextIndex).Context = none
  · cases hs : env.setup s.calls.length with
    | none => exact absurd hs (hsetup _)
    | some context =>
      have key : TransferAsync_setup env s s.param.TransferHandleNextIndex =
          (0, Function.update s.param.TransferHandles s.param.TransferHandleNextIndex
            { Context := some context
              InUse := (s.param.TransferHandles s.param.TransferHandleNextIndex).InUse
              Data := s.param.TransferHandleNextIndex * s.param.Test.BufferSize
              DataMaxLength := s.param.Test.BufferSize
              ReturnCode :=
                (s.param.TransferHandles s.param.TransferHandleNextIndex).ReturnCode },
            s.calls ++ [BenchCall.setup s.param.TransferHandleNextIndex]) := by
        unfold TransferAsync_setup
        simp only [if_pos hty, hs]
      have hn : ¬ ((s.param.TransferHandles s.param.TransferHandleNextIndex).Context = none ∧
          (0 : Int) < 0) := fun h => absurd h.2 (by decide)
      unfold TransferAsync_submit_pass
      simp only [if_pos hctx, key, if_neg hn]
      refine ⟨?_, ?_, ?_, ?_⟩
      · exact decide_eq_false (not_lt.mpr (hsubmit _))
      · simp
      · rw [Function.update_same]
        show (Function.update s.param.TransferHandles s.param.TransferHandleNextIndex _
          s.param.TransferHandleNextIndex).Context ≠ none
        rw [Function.update_same]
        exact fun h => by cases h
      · intro j hj
        rw [Function.update_noteq hj, Function.update_noteq hj]
  · have hn : ¬ ((s.param.TransferHandles s.param.TransferHandleNextIndex).Context = none ∧
        ret < 0) := fun h => hctx h.1
    unfold TransferAsync_submit_pass
    simp only [if_neg hctx, if_neg hn]
    refine ⟨?_, trivial, ?_, ?_⟩
    · exact decide_eq_false (not_lt.mpr (hsubmit _))
    · rw [Function.update_same]
      exact hctx
    · intro j hj
      rw [Function.update_noteq hj]

theorem TransferAsync_submit_loop_next (env : BenchEnv) (s : BenchState) (ret : Int)
    (handleRef : Option Int)
    (h : s.param.OutstandingTransferCount < s.param.Test.BufferCount)
    (hp : (TransferAsync_submit_pass env s ret).1 = false) :
    ∃ s1 : BenchState,
      TransferAsync_submit_loop env s ret handleRef =
        TransferAsync_submit_loop env s1 (TransferAsync_submit_pass env s ret).2.1
          (some s.param.TransferHandleNextIndex) ∧
      s1.param.Test = s.param.Test ∧
      s1.param.Ep = s.param.Ep ∧
      s1.param.OutstandingTransferCount = s.param.OutstandingTransferCount + 1 ∧
      s1.param.TransferHandleNextIndex =
        INC_ROLL s.param.TransferHandleNextIndex s.param.Test.BufferCount ∧
      s1.param.TransferHandleWaitIndex = s.param.TransferHandleWaitIndex ∧
      s1.calls = (TransferAsync_submit_pass env s ret).2.2.2 ∧
      (∀ idx, (s1.param.TransferHandles idx).Context =
        ((TransferAsync_submit_pass env s ret).2.2.1 idx).Context) := by
  refine ⟨_, TransferAsync_submit_loop_step env s ret handleRef h hp, rfl, rfl, rfl, rfl, rfl,
    rfl, ?_⟩
  intro idx
  show (Function.update (TransferAsync_submit_pass env s ret).2.2.1
    s.param.TransferHandleNextIndex _ idx).Context = _
  by_cases hj : idx = s.param.TransferHandleNextIndex
  · rw [hj, Function.update_same]
  · rw [Function.update_noteq hj]

theorem ENDPOINT_TYPE_of_Ep (p q : BM_TRANSFER_PARAM) (h : p.Ep = q.Ep) :
    ENDPOINT_TYPE p = ENDPOINT_TYPE q := by
  unfold ENDPOINT_TYPE
  rw [h]

theorem TransferAsync_submit_loop_fill (env : BenchEnv)
    (hsetup : ∀ k, env.setup k ≠ none) (hsubmit : ∀ k, 0 ≤ env.submit k) (d : Nat) :
    ∀ (s : BenchState) (ret : Int) (handleRef : Option Int) (j : Int),
      (s.param.Test.BufferCount - j).toNat = d → 0 ≤ j → j ≤ s.param.Test.BufferCount →
      s.param.OutstandingTransferCount = j →
      (j < s.param.Test.BufferCount → s.param.TransferHandleNextIndex = j) →
      (ENDPOINT_TYPE s.param = USB_ENDPOINT_TYPE_ISOCHRONOUS ∨
        ENDPOINT_TYPE s.param = USB_ENDPOINT_TYPE_BULK ∨
        ENDPOINT_TYPE s.param = USB_ENDPOINT_TYPE_INTERRUPT) →
      (∀ idx, j ≤ idx → (s.param.TransferHandles idx).Context = none) →
      (∀ idx, 0 ≤ idx → idx < j → (s.param.TransferHandles idx).Context ≠ none) →
      (TransferAsync_submit_loop env s ret handleRef).1 = false ∧
      (TransferAsync_submit_loop env s ret handleRef).2.2.2.calls =
        s.calls ++ (List.range d).flatMap
          (fun i : Nat => [BenchCall.setup (j + (i : Int)), BenchCall.submit (j + (i : Int))]) ∧
      (TransferAsync_submit_loop env s ret handleRef).2.2.2.param.Ep = s.param.Ep ∧
      (TransferAsync_submit_loop env s ret handleRef).2.2.2.param.TransferHandleWaitIndex =
        s.param.TransferHandleWaitIndex ∧
      (∀ idx, 0 ≤ idx → idx < s.param.Test.BufferCount →
        ((TransferAsync_submit_loop env s ret handleRef).2.2.2.param.TransferHandles idx).Context ≠
          none) := by
  induction d with
  | zero =>
    intro s ret handleRef j hd hj0 hjn hout _ _ _ hsome
    have hn : ¬ s.param.OutstandingTransferCount < s.param.Test.BufferCount := by omega
    rw [TransferAsync_submit_loop_exit env s ret handleRef hn]
    refine ⟨rfl, by simp, rfl, rfl, ?_⟩
    intro idx h0 h1
    exact hsome idx h0 (by omega)
  | succ d ih =>
    intro s ret handleRef j hd hj0 hjn hout hnext hty hnone hsome
    have hlt : s.param.OutstandingTransferCount < s.param.Test.BufferCount := by omega
    have hN : s.param.TransferHandleNextIndex = j := hnext (by omega)
    obtain ⟨hp1, hp2, hp3, hp4⟩ := TransferAsync_submit_pass_success env s ret hty hsetup hsubmit
    have hcn : (s.param.TransferHandles s.param.TransferHandleNextIndex).Context = none := by
      rw [hN]
      exact hnone j (le_refl j)
    rw [if_pos hcn] at hp2
    obtain ⟨s1, he, hT, hE, hO, hN1, hW, hC, hH⟩ :=
      TransferAsync_submit_loop_next env s ret handleRef hlt hp1
    rw [he]
    have hty1 : ENDPOINT_TYPE s1.param = USB_ENDPOINT_TYPE_ISOCHRONOUS ∨
        ENDPOINT_TYPE s1.param = USB_ENDPOINT_TYPE_BULK ∨
        ENDPOINT_TYPE s1.param = USB_ENDPOINT_TYPE_INTERRUPT := by
      rw [ENDPOINT_TYPE_of_Ep s1.param s.param hE]
      exact hty
    have hnone1 : ∀ idx, j + 1 ≤ idx → (s1.param.TransferHandles idx).Context = none := by
      intro idx hidx
      have hne : idx ≠ s.param.TransferHandleNextIndex := by rw [hN]; omega
      rw [hH idx, hp4 idx hne]
      exact hnone idx (by omega)
    have hsome1 : ∀ idx, 0 ≤ idx → idx < j + 1 →
        (s1.param.TransferHandles idx).Context ≠ none := by
      intro idx h0 h1
      by_cases hij : idx = j
      · rw [hH idx, hij, ← hN]
        exact hp3
      · have hne : idx ≠ s.param.TransferHandleNextIndex := by rw [hN]; exact hij
        rw [hH idx, hp4 idx hne]
        exact hsome idx h0 (by omega)
    have hnext1 : j + 1 < s1.param.Test.BufferCount → s1.param.TransferHandleNextIndex = j + 1 := by
      intro hh
      rw [hT] at hh
      rw [hN1, hN]
      unfold INC_ROLL
      rw [if_neg (by omega)]
    obtain ⟨a1, a2, a3, a4, a5⟩ := ih s1 (TransferAsync_submit_pass env s ret).2.1
      (some s.param.TransferHandleNextIndex) (j + 1) (by rw [hT]; omega) (by omega)
      (by rw [hT]; omega) (by rw [hO, hout]) hnext1 hty1 hnone1 hsome1
    refine ⟨a1, ?_, a3.trans hE, a4.trans hW, ?_⟩
    · rw [a2, hC, hp2, hN, List.range_succ_eq_map, List.flatMap_cons, List.flatMap_map]
      have hf : (fun i : Nat =>
          [BenchCall.setup (j + 1 + (i : Int)), BenchCall.submit (j + 1 + (i : Int))]) =
          (fun i : Nat => [BenchCall.setup (j + ((i + 1 : Nat) : Int)),
            BenchCall.submit (j + ((i + 1 : Nat) : Int))]) := by
        funext i
        rw [Nat.cast_add, Nat.cast_one, add_assoc, add_comm (1 : Int)]
      rw [hf]
      simp [Function.comp]
    · intro idx h0 h1
      exact a5 idx h0 (by rw [hT]; exact h1)

theorem TransferAsync_submit_loop_refill (env : BenchEnv)
    (hsetup : ∀ k, env.setup k ≠ none) (hsubmit : ∀ k, 0 ≤ env.submit k)
    (s : BenchState) (ret : Int) (handleRef : Option Int)
    (hout : s.param.OutstandingTransferCount + 1 = s.param.Test.BufferCount)
    (hty : ENDPOINT_TYPE s.param = USB_ENDPOINT_TYPE_ISOCHRONOUS ∨
      ENDPOINT_TYPE s.param = USB_ENDPOINT_TYPE_BULK ∨
      ENDPOINT_TYPE s.param = USB_ENDPOINT_TYPE_INTERRUPT)
    (hctx : ∀ idx, 0 ≤ idx → idx < s.param.Test.BufferCount →
      (s.param.TransferHandles idx).Context ≠ none)
    (hnext : 0 ≤ s.param.TransferHandleNextIndex ∧
      s.param.TransferHandleNextIndex < s.param.Test.BufferCount) :
    (TransferAsync_submit_loop env s ret handleRef).1 = false ∧
    (TransferAsync_submit_loop env s ret handleRef).2.2.2.calls =
      s.calls ++ [BenchCall.submit s.param.TransferHandleNextIndex] ∧
    (TransferAsync_submit_loop env s ret handleRef).2.2.2.param.Ep = s.param.Ep ∧
    (TransferAsync_submit_loop env s ret handleRef).2.2.2.param.TransferHandleWaitIndex =
      s.param.TransferHandleWaitIndex ∧
    (∀ idx, 0 ≤ idx → idx < s.param.Test.BufferCount →
      ((TransferAsync_submit_loop env s ret handleRef).2.2.2.param.TransferHandles idx).Context ≠
        none) := by
  have hlt : s.param.OutstandingTransferCount < s.param.Test.BufferCount := by omega
  obtain ⟨hp1, hp2, hp3, hp4⟩ := TransferAsync_submit_pass_success env s ret hty hsetup hsubmit
  rw [if_neg (hctx _ hnext.1 hnext.2)] at hp2
  obtain ⟨s1, he, hT, hE, hO, _, hW, hC, hH⟩ :=
    TransferAsync_submit_loop_next env s ret handleRef hlt hp1
  have hn : ¬ s1.param.OutstandingTransferCount < s1.param.Test.BufferCount := by
    rw [hO, hT]
    omega
  rw [he, TransferAsync_submit_loop_exit env s1 _ _ hn]
  refine ⟨rfl, hC.trans hp2, hE, hW, ?_⟩
  intro idx h0 h1
  show (s1.param.TransferHandles idx).Context ≠ none
  rw [hH idx]
  by_cases hj : idx = s.param.TransferHandleNextIndex
  · rw [hj]
    exact hp3
  · rw [hp4 idx hj]
    exact hctx idx h0 h1

theorem TransferAsync_of_full_window (env : BenchEnv) (s : BenchState)
    (hdone : (TransferAsync_submit_loop env s (-EFAULT) none).1 = false)
    (hfull : (TransferAsync_submit_loop env s (-EFAULT) none).2.2.2.param.OutstandingTransferCount =
      (TransferAsync_submit_loop env s (-EFAULT) none).2.2.2.param.Test.BufferCount)
    (hreap : 0 ≤ env.reap (TransferAsync_submit_loop env s (-EFAULT) none).2.2.2.calls.length) :
    (TransferAsync env s).2.2.calls =
      (TransferAsync_submit_loop env s (-EFAULT) none).2.2.2.calls ++
        [BenchCall.reap
          (TransferAsync_submit_loop env s (-EFAULT) none).2.2.2.param.TransferHandleWaitIndex
          ((TransferAsync_submit_loop env s (-EFAULT) none).2.2.2.param.TransferHandles
            (TransferAsync_submit_loop env s (-EFAULT)
              none).2.2.2.param.TransferHandleWaitIndex).InUse] ∧
    (TransferAsync env s).2.2.param.OutstandingTransferCount =
      (TransferAsync_submit_loop env s (-EFAULT) none).2.2.2.param.OutstandingTransferCount - 1 ∧
    (TransferAsync env s).2.2.param.TransferHandleWaitIndex =
      INC_ROLL
        (TransferAsync_submit_loop env s (-EFAULT) none).2.2.2.param.TransferHandleWaitIndex
        (TransferAsync_submit_loop env s (-EFAULT) none).2.2.2.param.Test.BufferCount ∧
    (TransferAsync env s).2.2.param.Ep =
      (TransferAsync_submit_loop env s (-EFAULT) none).2.2.2.param.Ep ∧
    (∀ idx, ((TransferAsync env s).2.2.param.TransferHandles idx).Context =
      ((TransferAsync_submit_loop env s (-EFAULT) none).2.2.2.param.TransferHandles
        idx).Context) := by
  unfold TransferAsync
  simp only []
  generalize TransferAsync_submit_loop env s (-EFAULT) none = l at hdone hfull hreap
  have hd : ¬ l.1 = true := by rw [hdone]; decide
  rw [if_neg hd, if_pos hfull, if_neg (not_lt.mpr hreap)]
  refine ⟨rfl, rfl, rfl, rfl, ?_⟩
  intro idx
  show (Function.update (Function.update l.2.2.2.param.TransferHandles
    l.2.2.2.param.TransferHandleWaitIndex _) l.2.2.2.param.TransferHandleWaitIndex _
    idx).Context = _
  by_cases hj : idx = l.2.2.2.param.TransferHandleWaitIndex
  · rw [hj, Function.update_same]
    show (Function.update l.2.2.2.param.TransferHandles
      l.2.2.2.param.TransferHandleWaitIndex _
      l.2.2.2.param.TransferHandleWaitIndex).Context = _
    rw [Function.update_same]
  · rw [Function.update_noteq hj, Function.update_noteq hj]

theorem window_ok_oldest_in_use (s : BenchState) (hok : window_ok s)
    (hfull : s.param.OutstandingTransferCount = s.param.Test.BufferCount) :
    (s.param.TransferHandles s.param.TransferHandleWaitIndex).InUse = 1 := by
  obtain ⟨_, _, _, _, h5, h6, _, _, h9, _⟩ := hok
  apply h9
  left
  refine ⟨le_refl _, h6, ?_⟩
  omega

theorem TransferAsync_refill_and_reap (env : BenchEnv)
    (hsetup : ∀ k, env.setup k ≠ none) (hsubmit : ∀ k, 0 ≤ env.submit k)
    (hreap : ∀ k, 0 ≤ env.reap k) (s : BenchState) (hok : window_ok s)
    (hout : s.param.OutstandingTransferCount + 1 = s.param.Test.BufferCount)
    (hty : ENDPOINT_TYPE s.param = USB_ENDPOINT_TYPE_ISOCHRONOUS ∨
      ENDPOINT_TYPE s.param = USB_ENDPOINT_TYPE_BULK ∨
      ENDPOINT_TYPE s.param = USB_ENDPOINT_TYPE_INTERRUPT)
    (hctx : ∀ idx, 0 ≤ idx → idx < s.param.Test.BufferCount →
      (s.param.TransferHandles idx).Context ≠ none) :
    (TransferAsync env s).2.2.calls =
      s.calls ++ [BenchCall.submit s.param.TransferHandleNextIndex,
        BenchCall.reap s.param.TransferHandleWaitIndex 1] ∧
    (TransferAsync env s).2.2.param.OutstandingTransferCount + 1 = s.param.Test.BufferCount ∧
    (TransferAsync env s).2.2.param.TransferHandleWaitIndex =
      INC_ROLL s.param.TransferHandleWaitIndex s.param.Test.BufferCount ∧
    (TransferAsync env s).2.2.param.Ep = s.param.Ep ∧
    (∀ idx, 0 ≤ idx → idx < s.param.Test.BufferCount →
      ((TransferAsync env s).2.2.param.TransferHandles idx).Context ≠ none) := by
  obtain ⟨l1, l2, l3, l4, l5⟩ := TransferAsync_submit_loop_refill env hsetup hsubmit s (-EFAULT)
    none hout hty hctx ⟨hok.2.2.1, hok.2.2.2.1⟩
  obtain ⟨lok, lT, lfull⟩ := TransferAsync_submit_loop_ok env _ s (-EFAULT) none rfl hok
  have hfull := lfull l1
  have hfull' : (TransferAsync_submit_loop env s (-EFAULT)
      none).2.2.2.param.OutstandingTransferCount =
      (TransferAsync_submit_loop env s (-EFAULT) none).2.2.2.param.Test.BufferCount := by
    rw [lT]; exact hfull
  have hin := window_ok_oldest_in_use _ lok hfull'
  obtain ⟨r1, r2, r3, r4, r5⟩ := TransferAsync_of_full_window env s l1 hfull' (hreap _)
  refine ⟨?_, ?_, ?_, r4.trans l3, ?_⟩
  · rw [r1, hin, l2, l4]
    simp
  · rw [r2, hfull]
    omega
  · rw [r3, l4, lT]
  · intro idx h0 h1
    rw [r5 idx]
    exact l5 idx h0 h1

theorem TransferAsync_first_call (env : BenchEnv)
    (hsetup : ∀ k, env.setup k ≠ none) (hsubmit : ∀ k, 0 ≤ env.submit k)
    (hreap : ∀ k, 0 ≤ env.reap k) (test : BM_TEST_PARAM) (ep : usb_endpoint_descriptor)
    (hn : 1 ≤ test.BufferCount)
    (hty : ENDPOINT_TYPE (fresh_transfer_param test ep) = USB_ENDPOINT_TYPE_ISOCHRONOUS ∨
      ENDPOINT_TYPE (fresh_transfer_param test ep) = USB_ENDPOINT_TYPE_BULK ∨
      ENDPOINT_TYPE (fresh_transfer_param test ep) = USB_ENDPOINT_TYPE_INTERRUPT) :
    (TransferAsync env (fresh_window test ep)).2.2.calls =
      (List.range test.BufferCount.toNat).flatMap
        (fun i : Nat => [BenchCall.setup (i : Int), BenchCall.submit (i : Int)]) ++
        [BenchCall.reap 0 1] ∧
    (TransferAsync env (fresh_window test ep)).2.2.param.OutstandingTransferCount + 1 =
      test.BufferCount ∧
    (TransferAsync env (fresh_window test ep)).2.2.param.TransferHandleWaitIndex =
      INC_ROLL 0 test.BufferCount ∧
    (TransferAsync env (fresh_window test ep)).2.2.param.Ep = ep ∧
    (∀ idx, 0 ≤ idx → idx < test.BufferCount →
      ((TransferAsync env (fresh_window test ep)).2.2.param.TransferHandles idx).Context ≠
        none) := by
  have hok := fresh_window_ok test ep hn
  obtain ⟨l1, l2, l3, l4, l5⟩ := TransferAsync_submit_loop_fill env hsetup hsubmit
    test.BufferCount.toNat (fresh_window test ep) (-EFAULT) none 0
    (by show (test.BufferCount - 0).toNat = test.BufferCount.toNat
        rw [sub_zero])
    (le_refl 0)
    (by show (0 : Int) ≤ test.BufferCount
        omega)
    rfl (fun _ => rfl) hty (fun _ _ => rfl)
    (fun idx h0 h1 => absurd h0 (by omega))
  obtain ⟨lok, lT, lfull⟩ := TransferAsync_submit_loop_ok env _ (fresh_window test ep) (-EFAULT)
    none rfl hok
  have hfull := lfull l1
  have hT : (TransferAsync_submit_loop env (fresh_window test ep) (-EFAULT)
      none).2.2.2.param.Test = test := lT
  have hfull' : (TransferAsync_submit_loop env (fresh_window test ep) (-EFAULT)
      none).2.2.2.param.OutstandingTransferCount =
      (TransferAsync_submit_loop env (fresh_window test ep) (-EFAULT)
        none).2.2.2.param.Test.BufferCount := by
    rw [lT]; exact hfull
  have hin := window_ok_oldest_in_use _ lok hfull'
  obtain ⟨r1, r2, r3, r4, r5⟩ :=
    TransferAsync_of_full_window env (fresh_window test ep) l1 hfull' (hreap _)
  refine ⟨?_, ?_, ?_, r4.trans l3, ?_⟩
  · rw [r1, hin, l2, l4]
    show ([] : List BenchCall) ++ _ ++ [BenchCall.reap 0 1] = _
    simp
  · rw [r2, hfull]
    show test.BufferCount - 1 + 1 = test.BufferCount
    omega
  · rw [r3, l4, hT]
    rfl
  · intro idx h0 h1
    rw [r5 idx]
    exact l5 idx h0 h1

theorem INC_ROLL_mod (k n : Int) (hn : 0 < n) : INC_ROLL (k % n) n = (k + 1) % n := by
  have h0 := Int.emod_nonneg k (ne_of_gt hn)
  have h1 := Int.emod_lt_of_pos k hn
  have hk := Int.ediv_add_emod k n
  unfold INC_ROLL
  by_cases h : k % n + 1 ≥ n
  · rw [if_pos h]
    have e : k + 1 = 0 + n * (k / n + 1) := by
      rw [mul_add, mul_one]
      omega
    rw [e, Int.add_mul_emod_self_left]
    simp
  · rw [if_neg h]
    have e : k + 1 = (k % n + 1) + n * (k / n) := by omega
    have e2 : (k % n + 1) % n = k % n + 1 := Int.emod_eq_of_lt (by omega) (by omega)
    rw [e, Int.add_mul_emod_self_left, e2]

theorem ring_previous_mod (k n : Int) :
    (k % n + (n - 1)) % n = (k - 1) % n := by
  have hk := Int.ediv_add_emod k n
  have e : k % n + (n - 1) = (k - 1) + n * (1 - k / n) := by
    rw [mul_sub, mul_one]
    omega
  rw [e, Int.add_mul_emod_self_left]

theorem run_TransferAsync_success (env : BenchEnv)
    (hsetup : ∀ k, env.setup k ≠ none) (hsubmit : ∀ k, 0 ≤ env.submit k)
    (hreap : ∀ k, 0 ≤ env.reap k) (test : BM_TEST_PARAM) (ep : usb_endpoint_descriptor)
    (hn : 1 ≤ test.BufferCount)
    (hty : ENDPOINT_TYPE (fresh_transfer_param test ep) = USB_ENDPOINT_TYPE_ISOCHRONOUS ∨
      ENDPOINT_TYPE (fresh_transfer_param test ep) = USB_ENDPOINT_TYPE_BULK ∨
      ENDPOINT_TYPE (fresh_transfer_param test ep) = USB_ENDPOINT_TYPE_INTERRUPT) (k : Nat) :
    window_ok (run_TransferAsync env (k + 1) (fresh_window test ep)) ∧
    (run_TransferAsync env (k + 1) (fresh_window test ep)).param.Test = test ∧
    (run_TransferAsync env (k + 1) (fresh_window test ep)).param.OutstandingTransferCount + 1 =
      test.BufferCount ∧
    (run_TransferAsync env (k + 1) (fresh_window test ep)).param.TransferHandleWaitIndex =
      ((k : Int) + 1) % test.BufferCount ∧
    (run_TransferAsync env (k + 1) (fresh_window test ep)).param.Ep = ep ∧
    (∀ idx, 0 ≤ idx → idx < test.BufferCount →
      ((run_TransferAsync env (k + 1) (fresh_window test ep)).param.TransferHandles
        idx).Context ≠ none) := by
  induction k with
  | zero =>
    have hok := run_TransferAsync_ok env 1 (fresh_window test ep) (fresh_window_ok test ep hn)
    obtain ⟨_, f2, f3, f4, f5⟩ :=
      TransferAsync_first_call env hsetup hsubmit hreap test ep hn hty
    refine ⟨hok.1, hok.2, f2, ?_, f4, f5⟩
    show (TransferAsync env (fresh_window test ep)).2.2.param.TransferHandleWaitIndex = _
    rw [f3]
    have := INC_ROLL_mod 0 test.BufferCount (by omega)
    rw [Int.zero_emod] at this
    rw [this]
    simp
  | succ k ih =>
    obtain ⟨i1, i2, i3, i4, i5, i6⟩ := ih
    have hok := run_TransferAsync_ok env (k + 1 + 1) (fresh_window test ep)
      (fresh_window_ok test ep hn)
    have hty1 : ENDPOINT_TYPE (run_TransferAsync env (k + 1) (fresh_window test ep)).param =
          USB_ENDPOINT_TYPE_ISOCHRONOUS ∨
        ENDPOINT_TYPE (run_TransferAsync env (k + 1) (fresh_window test ep)).param =
          USB_ENDPOINT_TYPE_BULK ∨
        ENDPOINT_TYPE (run_TransferAsync env (k + 1) (fresh_window test ep)).param =
          USB_ENDPOINT_TYPE_INTERRUPT := by
      rw [ENDPOINT_TYPE_of_Ep _ (fresh_transfer_param test ep) i5]
      exact hty
    obtain ⟨_, r2, r3, r4, r5⟩ := TransferAsync_refill_and_reap env hsetup hsubmit hreap
      (run_TransferAsync env (k + 1) (fresh_window test ep)) i1 (by rw [i2]; exact i3) hty1
      (by rw [i2]; exact i6)
    rw [i2] at r2 r3 r5
    refine ⟨hok.1, hok.2, r2, ?_, r4.trans i5, r5⟩
    show (TransferAsync env (run_TransferAsync env (k + 1)
      (fresh_window test ep))).2.2.param.TransferHandleWaitIndex = _
    rw [r3, i4, INC_ROLL_mod _ _ (by omega)]
    push_cast
    rfl

theorem submitted_slots_fill (m : Nat) :
    submitted_slots ((List.range m).flatMap
      (fun i : Nat => [BenchCall.setup (i : Int), BenchCall.submit (i : Int)])) =
      (List.range m).map (fun i : Nat => (i : Int)) ∧
    reaped_slots ((List.range m).flatMap
      (fun i : Nat => [BenchCall.setup (i : Int), BenchCall.submit (i : Int)])) = [] := by
  induction m with
  | zero => exact ⟨rfl, rfl⟩
  | succ m ih =>
    unfold submitted_slots reaped_slots at *
    rw [List.range_succ, List.flatMap_append, List.filterMap_append, List.filterMap_append,
      ih.1, ih.2, List.map_append]
    simp [List.flatMap, List.filterMap]

theorem run_TransferAsync_calls (env : BenchEnv)
    (hsetup : ∀ k, env.setup k ≠ none) (hsubmit : ∀ k, 0 ≤ env.submit k)
    (hreap : ∀ k, 0 ≤ env.reap k) (test : BM_TEST_PARAM) (ep : usb_endpoint_descriptor)
    (hn : 1 ≤ test.BufferCount)
    (hty : ENDPOINT_TYPE (fresh_transfer_param test ep) = USB_ENDPOINT_TYPE_ISOCHRONOUS ∨
      ENDPOINT_TYPE (fresh_transfer_param test ep) = USB_ENDPOINT_TYPE_BULK ∨
      ENDPOINT_TYPE (fresh_transfer_param test ep) = USB_ENDPOINT_TYPE_INTERRUPT) :
    (run_TransferAsync env 1 (fresh_window test ep)).calls =
      (List.range test.BufferCount.toNat).flatMap
        (fun i : Nat => [BenchCall.setup (i : Int), BenchCall.submit (i : Int)]) ++
        [BenchCall.reap 0 1] ∧
    (∀ m : Nat,
      (run_TransferAsync env (m + 1 + 1) (fresh_window test ep)).calls =
        (run_TransferAsync env (m + 1) (fresh_window test ep)).calls ++
          [BenchCall.submit ((m : Int) % test.BufferCount),
            BenchCall.reap (((m : Int) + 1) % test.BufferCount) 1]) := by
  refine ⟨(TransferAsync_first_call env hsetup hsubmit hreap test ep hn hty).1, ?_⟩
  intro m
  obtain ⟨i1, i2, i3, i4, i5, i6⟩ :=
    run_TransferAsync_success env hsetup hsubmit hreap test ep hn hty m
  have hty1 : ENDPOINT_TYPE (run_TransferAsync env (m + 1) (fresh_window test ep)).param =
        USB_ENDPOINT_TYPE_ISOCHRONOUS ∨
      ENDPOINT_TYPE (run_TransferAsync env (m + 1) (fresh_window test ep)).param =
        USB_ENDPOINT_TYPE_BULK ∨
      ENDPOINT_TYPE (run_TransferAsync env (m + 1) (fresh_window test ep)).param =
        USB_ENDPOINT_TYPE_INTERRUPT := by
    rw [ENDPOINT_TYPE_of_Ep _ (fresh_transfer_param test ep) i5]
    exact hty
  obtain ⟨r1, _⟩ := TransferAsync_refill_and_reap env hsetup hsubmit hreap
    (run_TransferAsync env (m + 1) (fresh_window test ep)) i1 (by rw [i2]; exact i3) hty1
    (by rw [i2]; exact i6)
  have hnext : (run_TransferAsync env (m + 1) (fresh_window test ep)).param.TransferHandleNextIndex
      = (m : Int) % test.BufferCount := by
    obtain ⟨h1, h2, _, _, h5, h6, h7, h8, _, _⟩ := i1
    have hmod := ring_index_mod _ _ _ _ h5 h6 h1 h2 h7 h8
    rw [hmod, i2, i4]
    have ho : (run_TransferAsync env (m + 1)
        (fresh_window test ep)).param.OutstandingTransferCount = test.BufferCount - 1 := by
      omega
    rw [ho, ring_previous_mod]
    congr 1
    omega
  show (TransferAsync env (run_TransferAsync env (m + 1) (fresh_window test ep))).2.2.calls = _
  rw [r1, hnext, i4]

theorem run_TransferAsync_slots (env : BenchEnv)
    (hsetup : ∀ k, env.setup k ≠ none) (hsubmit : ∀ k, 0 ≤ env.submit k)
    (hreap : ∀ k, 0 ≤ env.reap k) (test : BM_TEST_PARAM) (ep : usb_endpoint_descriptor)
    (hn : 1 ≤ test.BufferCount)
    (hty : ENDPOINT_TYPE (fresh_transfer_param test ep) = USB_ENDPOINT_TYPE_ISOCHRONOUS ∨
      ENDPOINT_TYPE (fresh_transfer_param test ep) = USB_ENDPOINT_TYPE_BULK ∨
      ENDPOINT_TYPE (fresh_transfer_param test ep) = USB_ENDPOINT_TYPE_INTERRUPT) (m : Nat) :
    submitted_slots (run_TransferAsync env (m + 1) (fresh_window test ep)).calls =
      (List.range (test.BufferCount.toNat + m)).map
        (fun i : Nat => (i : Int) % test.BufferCount) ∧
    reaped_slots (run_TransferAsync env (m + 1) (fresh_window test ep)).calls =
      (List.range (m + 1)).map (fun i : Nat => (i : Int) % test.BufferCount) := by
  obtain ⟨c1, c2⟩ := run_TransferAsync_calls env hsetup hsubmit hreap test ep hn hty
  induction m with
  | zero =>
    rw [c1]
    obtain ⟨f1, f2⟩ := submitted_slots_fill test.BufferCount.toNat
    constructor
    · have e : submitted_slots ((List.range test.BufferCount.toNat).flatMap
          (fun i : Nat => [BenchCall.setup (i : Int), BenchCall.submit (i : Int)]) ++
          [BenchCall.reap 0 1]) =
          submitted_slots ((List.range test.BufferCount.toNat).flatMap
            (fun i : Nat => [BenchCall.setup (i : Int), BenchCall.submit (i : Int)])) := by
        unfold submitted_slots
        rw [List.filterMap_append]
        simp [List.filterMap]
      rw [e, f1, Nat.add_zero]
      apply List.map_congr_left
      intro i hi
      rw [List.mem_range] at hi
      exact (Int.emod_eq_of_lt (by omega) (by omega)).symm
    · have e : reaped_slots ((List.range test.BufferCount.toNat).flatMap
          (fun i : Nat => [BenchCall.setup (i : Int), BenchCall.submit (i : Int)]) ++
          [BenchCall.reap 0 1]) =
          reaped_slots ((List.range test.BufferCount.toNat).flatMap
            (fun i : Nat => [BenchCall.setup (i : Int), BenchCall.submit (i : Int)])) ++ [0] := by
        unfold reaped_slots
        rw [List.filterMap_append]
        simp [List.filterMap]
      rw [e, f2, List.range_succ, List.range_zero]
      simp
  | succ m ih =>
    rw [c2 m]
    have es : ∀ (l : List BenchCall) (a b u : Int),
        submitted_slots (l ++ [BenchCall.submit a, BenchCall.reap b u]) =
          submitted_slots l ++ [a] := by
      intro l a b u
      unfold submitted_slots
      rw [List.filterMap_append]
      simp [List.filterMap]
    have er : ∀ (l : List BenchCall) (a b u : Int),
        reaped_slots (l ++ [BenchCall.submit a, BenchCall.reap b u]) =
          reaped_slots l ++ [b] := by
      intro l a b u
      unfold reaped_slots
      rw [List.filterMap_append]
      simp [List.filterMap]
    rw [es, er, ih.1, ih.2]
    constructor
    · rw [← Nat.add_assoc, List.range_succ, List.map_append]
      congr 1
      have hc : ((test.BufferCount.toNat + m : Nat) : Int) = test.BufferCount + (m : Int) := by
        omega
      show [(m : Int) % test.BufferCount] =
        [((test.BufferCount.toNat + m : Nat) : Int) % test.BufferCount]
      rw [hc, Int.add_emod_self_left]
    · rw [List.range_succ (m + 1), List.map_append]
      congr 1

/-- C13: when every setup, submit and reap succeeds, the first `TransferAsync`
call on a fresh window sets up and submits slots `0 .. BufferCount-1` in index
order and then reaps slot 0; every later call `k` (counted from 0) makes
exactly one submit, into slot `(k-1) % BufferCount` that the previous call
reaped, with no setup, and then exactly one reap, of slot `k % BufferCount`;
and after any number `k` of calls the slots reaped so far are the first `k` of
the slots submitted so far, in the same order. -/
theorem TransferAsync_fifo_order (test : BM_TEST_PARAM) (ep : usb_endpoint_descriptor)
    (env : BenchEnv) (hargs : ValidateBenchmarkArgs test = 0)
    (hty : ENDPOINT_TYPE (fresh_transfer_param test ep) = USB_ENDPOINT_TYPE_ISOCHRONOUS ∨
      ENDPOINT_TYPE (fresh_transfer_param test ep) = USB_ENDPOINT_TYPE_BULK ∨
      ENDPOINT_TYPE (fresh_transfer_param test ep) = USB_ENDPOINT_TYPE_INTERRUPT)
    (hsetup : ∀ k, env.setup k ≠ none) (hsubmit : ∀ k, 0 ≤ env.submit k)
    (hreap : ∀ k, 0 ≤ env.reap k) :
    (run_TransferAsync env 1 (fresh_window test ep)).calls =
      (List.range test.BufferCount.toNat).flatMap
        (fun i : Nat => [BenchCall.setup (i : Int), BenchCall.submit (i : Int)]) ++
        [BenchCall.reap 0 1] ∧
    (∀ k : Nat, 1 ≤ k →
      (run_TransferAsync env (k + 1) (fresh_window test ep)).calls =
        (run_TransferAsync env k (fresh_window test ep)).calls ++
          [BenchCall.submit (((k : Int) - 1) % test.BufferCount),
            BenchCall.reap ((k : Int) % test.BufferCount) 1]) ∧
    (∀ k : Nat,
      reaped_slots (run_TransferAsync env k (fresh_window test ep)).calls =
        (submitted_slots (run_TransferAsync env k (fresh_window test ep)).calls).take k) := by
  have hn : 1 ≤ test.BufferCount := by
    unfold ValidateBenchmarkArgs at hargs
    by_cases hb : test.BufferCount < 1 ∨ test.BufferCount > MAX_OUTSTANDING_TRANSFERS
    · rw [if_pos hb] at hargs
      exact absurd hargs (by decide)
    · by_contra hc
      exact hb (Or.inl (by omega))
  obtain ⟨c1, c2⟩ := run_TransferAsync_calls env hsetup hsubmit hreap test ep hn hty
  refine ⟨c1, ?_, ?_⟩
  · intro k hk
    obtain ⟨m, rfl⟩ : ∃ m, k = m + 1 := ⟨k - 1, by omega⟩
    rw [c2 m]
    push_cast
    rw [add_sub_cancel_right]
  · intro k
    cases k with
    | zero => rfl
    | succ m =>
      obtain ⟨s1, s2⟩ := run_TransferAsync_slots env hsetup hsubmit hreap test ep hn hty m
      rw [s1, s2, ← List.map_take, List.take_range]
      congr 2
      omega

/-- Witness for C13 with a window of three buffers on a bulk endpoint: the
calls are setup and submit of slots 0, 1, 2, reap 0, then submit 0, reap 1,
then submit 1, reap 2. -/
theorem TransferAsync_fifo_order_witness :
    ValidateBenchmarkArgs (sample_test 0 3) = 0 ∧
    (run_TransferAsync bench_env_ok 3 (fresh_window (sample_test 0 3) sample_bulk_in)).calls =
      [BenchCall.setup 0, BenchCall.submit 0, BenchCall.setup 1, BenchCall.submit 1,
        BenchCall.setup 2, BenchCall.submit 2, BenchCall.reap 0 1,
        BenchCall.submit 0, BenchCall.reap 1 1,
        BenchCall.submit 1, BenchCall.reap 2 1] := by
  have t := TransferAsync_fifo_order (sample_test 0 3) sample_bulk_in bench_env_ok (by decide)
    (Or.inr (Or.inl (by decide))) (fun k h => by cases h)
    (fun _ => (by decide : (0 : Int) ≤ 0)) (fun _ => (by decide : (0 : Int) ≤ 4096))
  refine ⟨by decide, ?_⟩
  rw [t.2.1 2 (by decide), t.2.1 1 (by decide), t.1]
  decide

/-! ## Benchmark: closed forms of the test pattern -/

theorem CreateVerifyBuffer_foldl (mem : Int → Int) (m : Nat) :
    ((List.range m).foldl CreateVerifyBuffer_step (mem, 0)).2 =
      (if m = 0 then 0 else ((m : Int) - 1) % 255 + 1) ∧
    (∀ i : Int, ((List.range m).foldl CreateVerifyBuffer_step (mem, 0)).1 i =
      if 0 ≤ i ∧ i < (m : Int) then (if i = 0 then 0 else (i - 1) % 255 + 1) else mem i) := by
  induction m with
  | zero =>
    refine ⟨rfl, fun i => ?_⟩
    have h : ¬ (0 ≤ i ∧ i < ((0 : Nat) : Int)) := by omega
    rw [if_neg h]
    rfl
  | succ m ih =>
    obtain ⟨ih1, ih2⟩ := ih
    rw [List.range_succ, List.foldl_append, List.foldl_cons, List.foldl_nil]
    generalize (List.range m).foldl CreateVerifyBuffer_step (mem, 0) = r at ih1 ih2
    unfold CreateVerifyBuffer_step
    simp only []
    rw [ih1]
    constructor
    · by_cases hm : m = 0
      · subst hm
        simp
      · rw [if_neg hm, if_neg (Nat.succ_ne_zero m)]
        push_cast
        split_ifs <;> omega
    · intro i
      by_cases hi : i = (m : Int)
      · rw [hi, Function.update_same]
        by_cases hm : m = 0
        · subst hm
          simp
        · rw [if_neg hm]
          split_ifs <;> omega
      · rw [Function.update_noteq hi, ih2 i]
        split_ifs <;> first | rfl | omega

theorem CreateVerifyBuffer_pattern (s : Int) (mem : Int → Int) (hs : 2 ≤ s) :
    CreateVerifyBuffer s mem 0 = 0 ∧
    (∀ d : Int, 2 ≤ d → d < s → CreateVerifyBuffer s mem d = (d - 1) % 255 + 1) := by
  have h := (CreateVerifyBuffer_foldl mem s.toNat).2
  unfold CreateVerifyBuffer
  constructor
  · rw [h 0]
    split_ifs <;> omega
  · intro d hd1 hd2
    rw [h d]
    split_ifs <;> omega

theorem CreateTransferParam_fill_step_foldl (P : Int) (B : Int → Int) (bi : Int) (m : Nat) :
    ((List.range m).foldl (CreateTransferParam_fill_step P) (B, bi, 2)).2.1 = bi + (m : Int) ∧
    ((List.range m).foldl (CreateTransferParam_fill_step P) (B, bi, 2)).2.2 =
      (if m ≤ 2 then 2 else ((m : Int) - 1) % 255 + 1) ∧
    (∀ idx : Int, ((List.range m).foldl (CreateTransferParam_fill_step P) (B, bi, 2)).1 idx =
      if bi ≤ idx ∧ idx < bi + (m : Int) then
        (if idx = bi then 0 else if idx = bi + 1 then Int.land P 0xFF
          else (idx - bi - 1) % 255 + 1)
      else B idx) := by
  induction m with
  | zero =>
    refine ⟨by simp, rfl, fun idx => ?_⟩
    have h : ¬ (bi ≤ idx ∧ idx < bi + ((0 : Nat) : Int)) := by omega
    rw [if_neg h]
    rfl
  | succ m ih =>
    obtain ⟨ih1, ih2, ih3⟩ := ih
    rw [List.range_succ, List.foldl_append, List.foldl_cons, List.foldl_nil]
    generalize (List.range m).foldl (CreateTransferParam_fill_step P) (B, bi, 2) = r
      at ih1 ih2 ih3
    unfold CreateTransferParam_fill_step
    simp only []
    rw [ih1, ih2]
    refine ⟨by push_cast; omega, ?_, ?_⟩
    · by_cases h0 : m = 0
      · subst h0
        simp
      · by_cases h1 : m = 1
        · subst h1
          simp
        · rw [if_neg h0, if_neg h1]
          simp only []
          push_cast
          split_ifs <;> omega
    · intro idx
      by_cases hi : idx = bi + (m : Int)
      · subst hi
        by_cases h0 : m = 0
        · subst h0
          simp
        · by_cases h1 : m = 1
          · subst h1
            simp
          · rw [if_neg h0, if_neg h1]
            simp only [Function.update_same]
            push_cast
            split_ifs <;> omega
      · have hu : ∀ v : Int, Function.update r.1 (bi + (m : Int)) v idx = r.1 idx :=
          fun v => Function.update_noteq hi v r.1
        have hr : r.1 idx = (if bi ≤ idx ∧ idx < bi + ((m + 1 : Nat) : Int) then
            (if idx = bi then 0 else if idx = bi + 1 then Int.land P 0xFF
              else (idx - bi - 1) % 255 + 1)
            else B idx) := by
          rw [ih3 idx]
          split_ifs <;> first | rfl | omega
        rw [← hr]
        split_ifs <;> exact hu _

theorem land_0xFF_eq_mod (p : Nat) : Int.land (p : Int) 0xFF = (p : Int) % 256 := by
  have h : Int.land (p : Int) 0xFF = ((p &&& (2 ^ 8 - 1) : Nat) : Int) := rfl
  rw [h, Nat.and_pow_two_sub_one_eq_mod]
  norm_num

theorem CreateTransferParam_fill_packet_foldl (s : Int) (hs : 0 ≤ s) (B : Int → Int)
    (N : Nat) :
    ((List.range N).foldl (CreateTransferParam_fill_packet s) (B, 0)).2 = (N : Int) * s ∧
    (∀ p d : Int, 0 ≤ p → p < (N : Int) → 0 ≤ d → d < s →
      ((List.range N).foldl (CreateTransferParam_fill_packet s) (B, 0)).1 (p * s + d) =
        if d = 0 then 0 else if d = 1 then p % 256 else (d - 1) % 255 + 1) := by
  induction N with
  | zero =>
    refine ⟨by simp, fun p d h0 h1 _ _ => ?_⟩
    omega
  | succ N ih =>
    obtain ⟨ih1, ih2⟩ := ih
    rw [List.range_succ, List.foldl_append, List.foldl_cons, List.foldl_nil]
    generalize (List.range N).foldl (CreateTransferParam_fill_packet s) (B, 0) = r at ih1 ih2
    unfold CreateTransferParam_fill_packet
    simp only []
    obtain ⟨f1, _, f3⟩ := CreateTransferParam_fill_step_foldl (N : Int) r.1 r.2 s.toNat
    have hsn : ((s.toNat : Nat) : Int) = s := Int.toNat_of_nonneg hs
    rw [hsn] at f1 f3
    constructor
    · rw [f1, ih1]
      push_cast
      ring
    · intro p d hp0 hp1 hd0 hd1
      rw [f3 (p * s + d), ih1]
      by_cases hpN : p = (N : Int)
      · subst hpN
        have hin : (N : Int) * s ≤ (N : Int) * s + d ∧ (N : Int) * s + d < (N : Int) * s + s := by
          omega
        rw [if_pos hin, land_0xFF_eq_mod]
        split_ifs <;> first | rfl | omega
      · have hlt : p < (N : Int) := by omega
        have hmul : (p + 1) * s ≤ (N : Int) * s :=
          Int.mul_le_mul_of_nonneg_right (by omega) hs
        have hexp : (p + 1) * s = p * s + s := by ring
        have hout : ¬ ((N : Int) * s ≤ p * s + d ∧ p * s + d < (N : Int) * s + s) := by
          omega
        rw [if_neg hout]
        exact ih2 p d hp0 hlt hd0 hd1

theorem CreateTransferParam_fill_well_formed (p : BM_TRANSFER_PARAM) (Buffer : Int → Int)
    (N : Int) (hs : 2 ≤ p.Ep.wMaxPacketSize)
    (hN : p.Test.BufferCount * p.Test.BufferSize = N * p.Ep.wMaxPacketSize) :
    ∀ q : Int, 0 ≤ q → q < N →
      well_formed_packet p.Ep.wMaxPacketSize (CreateTransferParam_fill p Buffer) q (q % 256) := by
  intro q hq0 hqN
  have hne : p.Ep.wMaxPacketSize ≠ 0 := by omega
  have h := (CreateTransferParam_fill_packet_foldl p.Ep.wMaxPacketSize (by omega) Buffer
    N.toNat).2
  have hNn : ((N.toNat : Nat) : Int) = N := Int.toNat_of_nonneg (by omega)
  rw [hNn] at h
  unfold CreateTransferParam_fill
  simp only []
  rw [hN, Int.mul_tdiv_cancel N hne]
  refine ⟨?_, ?_, ?_⟩
  · have := h q 0 hq0 hqN (le_refl 0) (by omega)
    rw [add_zero, if_pos rfl] at this
    exact this
  · have := h q 1 hq0 hqN (by decide) (by omega)
    rw [if_neg (by decide), if_pos rfl] at this
    exact this
  · intro d hd0 hd1
    have := h q d hq0 hqN (by omega) hd1
    rw [if_neg (by omega), if_neg (by omega)] at this
    exact this

/-! ## Benchmark: `VerifyData` over a stream of packets -/

theorem VerifyData_loop_exit (s : Int) (data : Int → Int) (st : VerifyState)
    (h : ¬ (st.dataLeft > 1 ∧ 0 < s)) : VerifyData_loop s data st = st := by
  rw [VerifyData_loop, dif_neg h]

theorem VerifyData_loop_step (s : Int) (data : Int → Int) (st : VerifyState)
    (h : st.dataLeft > 1 ∧ 0 < s) :
    VerifyData_loop s data st = VerifyData_loop s data (VerifyData_pass s data st) := by
  rw [VerifyData_loop, dif_pos h]

theorem memcmp_differs_false (data : Int → Int) (dataIndex : Int) (verifyData : Int → Int)
    (n : Int) (h : ∀ i : Int, 0 ≤ i → i < n → data (dataIndex + i) = verifyData i) :
    memcmp_differs data dataIndex verifyData n = false := by
  unfold memcmp_differs
  rw [List.any_eq_false]
  intro i hi
  rw [List.mem_range] at hi
  have := h (i : Int) (by omega) (by omega)
  simp [this]

theorem memcmp_differs_true (data : Int → Int) (dataIndex : Int) (verifyData : Int → Int)
    (n d : Int) (h0 : 0 ≤ d) (h1 : d < n) (h : data (dataIndex + d) ≠ verifyData d) :
    memcmp_differs data dataIndex verifyData n = true := by
  unfold memcmp_differs
  rw [List.any_eq_true]
  refine ⟨d.toNat, ?_, ?_⟩
  · rw [List.mem_range]
    omega
  · have hd : ((d.toNat : Nat) : Int) = d := Int.toNat_of_nonneg h0
    rw [hd]
    exact decide_eq_true h

theorem VerifyData_pass_eq (s : Int) (data : Int → Int) (st : VerifyState) (k : Int) (b : Bool)
    (hsize : (if st.dataLeft > s then s else st.dataLeft) = s)
    (hkey : (if st.seedKey ≠ 0 then data (st.dataIndex + 1)
      else if data (st.dataIndex + 1) = 0 then 0 else (st.keyC + 1) % 256) = k)
    (hb : memcmp_differs data st.dataIndex (Function.update st.verifyData 1 k) s = b) :
    VerifyData_pass s data st =
      { verifyData := Function.update st.verifyData 1 k
        keyC := k
        seedKey := if b = true then 1 else 0
        dataLeft := st.dataLeft - s
        dataIndex := st.dataIndex + s
        packetIndex := st.packetIndex + 1
        mismatches :=
          if b = true then st.mismatches ++ [(st.packetIndex, st.dataIndex)]
          else st.mismatches } := by
  unfold VerifyData_pass
  simp only []
  rw [hsize, hkey, hb]

theorem verify_inv_packet_size (s N j k0 q : Int) (st : VerifyState) (hs : 2 ≤ s)
    (hq : q < N) (hinv : verify_inv s N j k0 q st) :
    st.dataLeft > 1 ∧ (if st.dataLeft > s then s else st.dataLeft) = s := by
  have hmul : 1 * s ≤ (N - q) * s := Int.mul_le_mul_of_nonneg_right (by omega) (by omega)
  rw [one_mul, ← hinv.2.1] at hmul
  constructor
  · omega
  · split_ifs <;> omega

theorem VerifyData_pass_good (s N j k0 q : Int) (data : Int → Int) (st : VerifyState)
    (hs : 2 ≤ s) (hq0 : 0 ≤ q) (hq : q < N) (hqj : q ≠ j)
    (hinv : verify_inv s N j k0 q st)
    (hwf : well_formed_packet s data q ((k0 + q) % 256)) :
    verify_inv s N j k0 (q + 1) (VerifyData_pass s data st) := by
  have hsize := (verify_inv_packet_size s N j k0 q st hs hq hinv).2
  obtain ⟨i1, i2, i3, i4, i5, i6, i7⟩ := hinv
  obtain ⟨w1, w2, w3⟩ := hwf
  have hkey : (if st.seedKey ≠ 0 then data (st.dataIndex + 1)
      else if data (st.dataIndex + 1) = 0 then 0 else (st.keyC + 1) % 256) =
      (k0 + q) % 256 := by
    rw [i1, w2]
    rcases i6 with ⟨hseed, _⟩ | ⟨hseed, _, _, hk⟩
    · rw [if_pos hseed]
    · rw [if_neg (not_not.mpr hseed), hk]
      split_ifs <;> omega
  have hsame : memcmp_differs data st.dataIndex
      (Function.update st.verifyData 1 ((k0 + q) % 256)) s = false := by
    apply memcmp_differs_false
    intro i hi0 hi1
    rw [i1]
    by_cases h1 : i = 1
    · rw [h1, Function.update_same, w2]
    · rw [Function.update_noteq h1]
      by_cases h0 : i = 0
      · rw [h0, add_zero, w1, i4]
      · rw [w3 i (by omega) hi1, i5 i (by omega) hi1]
  rw [VerifyData_pass_eq s data st _ _ hsize hkey hsame]
  refine ⟨?_, ?_, ?_, ?_, ?_, ?_, ?_⟩
  · show st.dataIndex + s = (q + 1) * s
    rw [i1]
    ring
  · show st.dataLeft - s = (N - (q + 1)) * s
    rw [i2]
    ring
  · show st.packetIndex + 1 = q + 1
    rw [i3]
  · show Function.update st.verifyData 1 ((k0 + q) % 256) 0 = 0
    rw [Function.update_noteq (by decide)]
    exact i4
  · intro d hd0 hd1
    show Function.update st.verifyData 1 ((k0 + q) % 256) d = (d - 1) % 255 + 1
    rw [Function.update_noteq (by omega)]
    exact i5 d hd0 hd1
  · right
    refine ⟨rfl, by omega, by omega, ?_⟩
    show (k0 + q) % 256 = (k0 + (q + 1 - 1)) % 256
    rw [add_sub_cancel_right]
  · show st.mismatches = _
    rw [i7]
    split_ifs <;> first | rfl | omega

theorem VerifyData_pass_bad (s N j k0 : Int) (data : Int → Int) (st : VerifyState)
    (hs : 2 ≤ s) (hj0 : 0 ≤ j) (hj : j < N)
    (hinv : verify_inv s N j k0 j st)
    (hbad : (∃ d : Int, 0 ≤ d ∧ d < s ∧ d ≠ 1 ∧
        data (j * s + d) ≠ (if d = 0 then 0 else (d - 1) % 255 + 1)) ∨
      (1 ≤ j ∧ data (j * s + 1) ≠ 0 ∧ data (j * s + 1) ≠ (k0 + j) % 256)) :
    verify_inv s N j k0 (j + 1) (VerifyData_pass s data st) := by
  have hsize := (verify_inv_packet_size s N j k0 j st hs hj hinv).2
  obtain ⟨i1, i2, i3, i4, i5, i6, i7⟩ := hinv
  have hdiff : memcmp_differs data st.dataIndex
      (Function.update st.verifyData 1
        (if st.seedKey ≠ 0 then data (st.dataIndex + 1)
          else if data (st.dataIndex + 1) = 0 then 0 else (st.keyC + 1) % 256)) s = true := by
    rcases hbad with ⟨d, hd0, hd1, hdk, hne⟩ | ⟨hj1, hk0, hk⟩
    · apply memcmp_differs_true _ _ _ _ d hd0 hd1
      rw [Function.update_noteq hdk, i1]
      by_cases h0 : d = 0
      · rw [if_pos h0] at hne
        rw [h0, i4]
        rw [h0] at hne
        exact hne
      · rw [if_neg h0] at hne
        rw [i5 d (by omega) hd1]
        exact hne
    · apply memcmp_differs_true _ _ _ _ 1 (by decide) (by omega)
      rw [Function.update_same, i1]
      rcases i6 with ⟨_, h | h⟩ | ⟨hseed, _, _, hkc⟩
      · omega
      · omega
      · rw [if_neg (not_not.mpr hseed), if_neg hk0, hkc]
        intro heq
        apply hk
        rw [heq]
        omega
  generalize hk : (if st.seedKey ≠ 0 then data (st.dataIndex + 1)
    else if data (st.dataIndex + 1) = 0 then 0 else (st.keyC + 1) % 256) = k at hdiff
  rw [VerifyData_pass_eq s data st k true hsize hk hdiff]
  refine ⟨?_, ?_, ?_, ?_, ?_, ?_, ?_⟩
  · show st.dataIndex + s = (j + 1) * s
    rw [i1]
    ring
  · show st.dataLeft - s = (N - (j + 1)) * s
    rw [i2]
    ring
  · show st.packetIndex + 1 = j + 1
    rw [i3]
  · exact (Function.update_noteq (by decide : (0 : Int) ≠ 1) k st.verifyData).trans i4
  · intro d hd0 hd1
    exact (Function.update_noteq (by omega : d ≠ 1) k st.verifyData).trans (i5 d hd0 hd1)
  · left
    refine ⟨?_, Or.inr rfl⟩
    show (1 : Int) ≠ 0
    decide
  · show st.mismatches ++ [(st.packetIndex, st.dataIndex)] = _
    rw [i7, i3, i1, if_neg (by omega), if_pos (by omega)]
    rfl

theorem VerifyData_loop_stream (s N j k0 : Int) (data : Int → Int) (hs : 2 ≤ s)
    (hwf : ∀ p : Int, 0 ≤ p → p < N → p ≠ j →
      well_formed_packet s data p ((k0 + p) % 256))
    (hbad : 0 ≤ j → j < N →
      ((∃ d : Int, 0 ≤ d ∧ d < s ∧ d ≠ 1 ∧
          data (j * s + d) ≠ (if d = 0 then 0 else (d - 1) % 255 + 1)) ∨
        (1 ≤ j ∧ data (j * s + 1) ≠ 0 ∧ data (j * s + 1) ≠ (k0 + j) % 256)))
    (r : Nat) :
    ∀ (q : Int) (st : VerifyState), 0 ≤ q → q + (r : Int) = N → verify_inv s N j k0 q st →
      (VerifyData_loop s data st).mismatches =
        (if 0 ≤ j ∧ j < N then [(j, j * s)] else []) := by
  induction r with
  | zero =>
    intro q st _ hqr hinv
    have hqN : q = N := by omega
    have hleft : st.dataLeft = 0 := by
      rw [hinv.2.1, hqN, sub_self, zero_mul]
    rw [VerifyData_loop_exit s data st (by omega), hinv.2.2.2.2.2.2, hqN]
  | succ r ih =>
    intro q st hq0 hqr hinv
    have hqN : q < N := by omega
    have hgo := (verify_inv_packet_size s N j k0 q st hs hqN hinv).1
    rw [VerifyData_loop_step s data st ⟨hgo, by omega⟩]
    apply ih (q + 1) _ (by omega) (by omega)
    by_cases hqj : q = j
    · subst hqj
      exact VerifyData_pass_bad s N q k0 data st hs hq0 hqN hinv (hbad hq0 hqN)
    · exact VerifyData_pass_good s N j k0 q data st hs hq0 hqN hqj hinv (hwf q hq0 hqN hqj)

theorem VerifyData_stream (s N j k0 : Int) (data VerifyBuffer : Int → Int) (hs : 2 ≤ s)
    (hN : 0 ≤ N) (hv0 : VerifyBuffer 0 = 0)
    (hvd : ∀ d : Int, 2 ≤ d → d < s → VerifyBuffer d = (d - 1) % 255 + 1)
    (hwf : ∀ p : Int, 0 ≤ p → p < N → p ≠ j →
      well_formed_packet s data p ((k0 + p) % 256))
    (hbad : 0 ≤ j → j < N →
      ((∃ d : Int, 0 ≤ d ∧ d < s ∧ d ≠ 1 ∧
          data (j * s + d) ≠ (if d = 0 then 0 else (d - 1) % 255 + 1)) ∨
        (1 ≤ j ∧ data (j * s + 1) ≠ 0 ∧ data (j * s + 1) ≠ (k0 + j) % 256))) :
    ∃ st : VerifyState, VerifyData s VerifyBuffer data (N * s) = some (0, st) ∧
      st.mismatches = (if 0 ≤ j ∧ j < N then [(j, j * s)] else []) := by
  have hno : ¬ (N * s > 1 ∧ s ≤ 0) := by omega
  unfold VerifyData
  rw [if_neg hno]
  refine ⟨_, rfl, ?_⟩
  apply VerifyData_loop_stream s N j k0 data hs hwf hbad N.toNat 0 _ (le_refl 0) (by omega)
  have h1 : (1 : Int) ≠ 0 := by decide
  refine ⟨?_, ?_, rfl, hv0, hvd, Or.inl ⟨h1, Or.inl rfl⟩, ?_⟩
  · show (0 : Int) = 0 * s
    rw [zero_mul]
  · show N * s = (N - 0) * s
    rw [sub_zero]
  · show ([] : List (Int × Int)) = _
    rw [if_neg (by omega)]

theorem VerifyData_loop_unfold (s : Int) (data : Int → Int) (st : VerifyState) :
    VerifyData_loop s data st =
      if st.dataLeft > 1 ∧ 0 < s then VerifyData_loop s data (VerifyData_pass s data st)
      else st := by
  by_cases h : st.dataLeft > 1 ∧ 0 < s
  · rw [if_pos h]
    exact VerifyData_loop_step s data st h
  · rw [if_neg h]
    exact VerifyData_loop_exit s data st h

theorem VerifyData_short (s : Int) (VerifyBuffer data : Int → Int) (dataLength : Int)
    (h : dataLength ≤ 1) :
    ∃ st : VerifyState, VerifyData s VerifyBuffer data dataLength = some (0, st) ∧
      st.mismatches = [] := by
  have hno : ¬ (dataLength > 1 ∧ s ≤ 0) := by omega
  unfold VerifyData
  rw [if_neg hno, VerifyData_loop_exit _ _ _ (by show ¬ (dataLength > 1 ∧ 0 < s); omega)]
  exact ⟨_, rfl, rfl⟩

/-- C14: for a packet size `s >= 2` that is both `VerifyBufferSize` and the
endpoint's `wMaxPacketSize`, a `BufferSize` that is a multiple of `s` and a
`BufferCount` that passes `ValidateBenchmarkArgs`, `VerifyData` with the
buffer of `CreateVerifyBuffer` returns 0 and writes no mismatch line over the
buffer filled by the pattern generator of `CreateTransferParam`, both for the
whole buffer of `BufferCount * BufferSize` bytes and for each of its
`BufferSize`-long slot segments. -/
theorem VerifyData_generated_pattern (p : BM_TRANSFER_PARAM) (mem Buffer : Int → Int)
    (hs : 2 ≤ p.Ep.wMaxPacketSize)
    (hmul : p.Test.BufferSize % p.Ep.wMaxPacketSize = 0)
    (hargs : ValidateBenchmarkArgs p.Test = 0) :
    (∃ st : VerifyState,
      VerifyData p.Ep.wMaxPacketSize (CreateVerifyBuffer p.Ep.wMaxPacketSize mem)
        (CreateTransferParam_fill p Buffer) (p.Test.BufferCount * p.Test.BufferSize) =
        some (0, st) ∧ st.mismatches = []) ∧
    (∀ slot : Int, 0 ≤ slot → slot < p.Test.BufferCount →
      ∃ st : VerifyState,
        VerifyData p.Ep.wMaxPacketSize (CreateVerifyBuffer p.Ep.wMaxPacketSize mem)
          (fun i => CreateTransferParam_fill p Buffer (slot * p.Test.BufferSize + i))
          p.Test.BufferSize = some (0, st) ∧ st.mismatches = []) := by
  have hn : 1 ≤ p.Test.BufferCount := by
    unfold ValidateBenchmarkArgs at hargs
    by_cases hb : p.Test.BufferCount < 1 ∨ p.Test.BufferCount > MAX_OUTSTANDING_TRANSFERS
    · rw [if_pos hb] at hargs
      exact absurd hargs (by decide)
    · by_contra hc
      exact hb (Or.inl (by omega))
  by_cases hB : 0 ≤ p.Test.BufferSize
  · have hm := Int.mul_ediv_cancel_of_emod_eq_zero hmul
    have hm0 : 0 ≤ p.Test.BufferSize / p.Ep.wMaxPacketSize :=
      Int.ediv_nonneg hB (by omega)
    generalize p.Test.BufferSize / p.Ep.wMaxPacketSize = m at hm hm0
    have hBS : p.Test.BufferSize = m * p.Ep.wMaxPacketSize := by rw [← hm]; ring
    have hN : p.Test.BufferCount * p.Test.BufferSize =
        (p.Test.BufferCount * m) * p.Ep.wMaxPacketSize := by rw [← hm]; ring
    have hN0 : 0 ≤ p.Test.BufferCount * m := Int.mul_nonneg (by omega) hm0
    have hwf := CreateTransferParam_fill_well_formed p Buffer (p.Test.BufferCount * m) hs hN
    obtain ⟨hv0, hvd⟩ := CreateVerifyBuffer_pattern p.Ep.wMaxPacketSize mem hs
    constructor
    · obtain ⟨st, h1, h2⟩ := VerifyData_stream p.Ep.wMaxPacketSize (p.Test.BufferCount * m)
        (-1) 0 (CreateTransferParam_fill p Buffer) (CreateVerifyBuffer p.Ep.wMaxPacketSize mem)
        hs hN0 hv0 hvd
        (fun q hq0 hq1 _ => by rw [zero_add]; exact hwf q hq0 hq1)
        (fun h _ => absurd h (by decide))
      rw [← hN] at h1
      rw [if_neg (fun h => absurd h.1 (by decide))] at h2
      exact ⟨st, h1, h2⟩
    · intro slot hs0 hs1
      have hslot : (slot + 1) * m ≤ p.Test.BufferCount * m :=
        Int.mul_le_mul_of_nonneg_right (by omega) hm0
      have hexp : (slot + 1) * m = slot * m + m := by ring
      have hidx : ∀ q d : Int, slot * p.Test.BufferSize + (q * p.Ep.wMaxPacketSize + d) =
          (slot * m + q) * p.Ep.wMaxPacketSize + d := by
        intro q d
        rw [hBS]
        ring
      obtain ⟨st, h1, h2⟩ := VerifyData_stream p.Ep.wMaxPacketSize m (-1) (slot * m)
        (fun i => CreateTransferParam_fill p Buffer (slot * p.Test.BufferSize + i))
        (CreateVerifyBuffer p.Ep.wMaxPacketSize mem) hs hm0 hv0 hvd
        (fun q hq0 hq1 _ => by
          have hsm : 0 ≤ slot * m := Int.mul_nonneg hs0 hm0
          obtain ⟨w1, w2, w3⟩ := hwf (slot * m + q) (by omega) (by omega)
          refine ⟨?_, ?_, ?_⟩
          · show CreateTransferParam_fill p Buffer
              (slot * p.Test.BufferSize + q * p.Ep.wMaxPacketSize) = 0
            have := hidx q 0
            rw [add_zero, add_zero] at this
            rw [this]
            exact w1
          · show CreateTransferParam_fill p Buffer
              (slot * p.Test.BufferSize + (q * p.Ep.wMaxPacketSize + 1)) = _
            rw [hidx q 1]
            exact w2
          · intro d hd0 hd1
            show CreateTransferParam_fill p Buffer
              (slot * p.Test.BufferSize + (q * p.Ep.wMaxPacketSize + d)) = _
            rw [hidx q d]
            exact w3 d hd0 hd1)
        (fun h _ => absurd h (by decide))
      rw [← hBS] at h1
      rw [if_neg (fun h => absurd h.1 (by decide))] at h2
      exact ⟨st, h1, h2⟩
  · have hneg : p.Test.BufferCount * p.Test.BufferSize ≤ 0 := by nlinarith
    exact ⟨VerifyData_short _ _ _ _ (by omega),
      fun slot _ _ => VerifyData_short _ _ _ _ (by omega)⟩

/-- Witness for C14 on two buffers of 8 bytes with 4-byte packets: no mismatch
line over the whole 16-byte buffer. -/
theorem VerifyData_generated_pattern_witness :
    (2 ≤ sample_verify_param.Ep.wMaxPacketSize ∧
      sample_verify_param.Test.BufferSize % sample_verify_param.Ep.wMaxPacketSize = 0 ∧
      ValidateBenchmarkArgs sample_verify_param.Test = 0) ∧
    ∃ st : VerifyState,
      VerifyData 4 (CreateVerifyBuffer 4 (fun _ => 0)) sample_pattern 16 = some (0, st) ∧
        st.mismatches = [] :=
  ⟨⟨by decide, by decide, by decide⟩,
    (VerifyData_generated_pattern sample_verify_param (fun _ => 0) (fun _ => 0) (by decide)
      (by decide) (by decide)).1⟩

theorem VerifyData_pass_accepts (s N q k : Int) (data : Int → Int) (st : VerifyState)
    (hs : 2 ≤ s) (hq : q < N)
    (hidx : st.dataIndex = q * s) (hleft : st.dataLeft = (N - q) * s)
    (hv0 : st.verifyData 0 = 0)
    (hvd : ∀ d : Int, 2 ≤ d → d < s → st.verifyData d = (d - 1) % 255 + 1)
    (hpkt : well_formed_packet s data q k)
    (hkey : st.seedKey ≠ 0 ∨ k = 0 ∨ (k ≠ 0 ∧ k = (st.keyC + 1) % 256)) :
    VerifyData_pass s data st =
      { verifyData := Function.update st.verifyData 1 k
        keyC := k
        seedKey := 0
        dataLeft := st.dataLeft - s
        dataIndex := st.dataIndex + s
        packetIndex := st.packetIndex + 1
        mismatches := st.mismatches } := by
  have hmul : 1 * s ≤ (N - q) * s := Int.mul_le_mul_of_nonneg_right (by omega) (by omega)
  rw [one_mul, ← hleft] at hmul
  have hsize : (if st.dataLeft > s then s else st.dataLeft) = s := by
    split_ifs <;> omega
  obtain ⟨w1, w2, w3⟩ := hpkt
  have hk : (if st.seedKey ≠ 0 then data (st.dataIndex + 1)
      else if data (st.dataIndex + 1) = 0 then 0 else (st.keyC + 1) % 256) = k := by
    rw [hidx, w2]
    by_cases hseed : st.seedKey ≠ 0
    · rw [if_pos hseed]
    · rw [if_neg hseed]
      rcases hkey with h | h | ⟨h, h'⟩
      · exact absurd h hseed
      · rw [if_pos h, h]
      · rw [if_neg h, h']
  have hsame : memcmp_differs data st.dataIndex (Function.update st.verifyData 1 k) s =
      false := by
    apply memcmp_differs_false
    intro i hi0 hi1
    rw [hidx]
    by_cases h1 : i = 1
    · rw [h1, Function.update_same, w2]
    · rw [Function.update_noteq h1]
      by_cases h0 : i = 0
      · rw [h0, add_zero, w1, hv0]
      · rw [w3 i (by omega) hi1, hvd i (by omega) hi1]
  rw [VerifyData_pass_eq s data st k false hsize hk hsame]
  simp

theorem VerifyData_loop_head (s N j k0 : Int) (data : Int → Int) (hs : 2 ≤ s) (hjN : j < N)
    (hwf : ∀ p : Int, 0 ≤ p → p < j → well_formed_packet s data p ((k0 + p) % 256))
    (r : Nat) :
    ∀ (q : Int) (st : VerifyState), 0 ≤ q → q + (r : Int) = j → verify_inv s N (-1) k0 q st →
      ∃ st1 : VerifyState, verify_inv s N (-1) k0 j st1 ∧
        VerifyData_loop s data st = VerifyData_loop s data st1 := by
  induction r with
  | zero =>
    intro q st _ hqr hinv
    have hqj : q = j := by omega
    rw [hqj] at hinv
    exact ⟨st, hinv, rfl⟩
  | succ r ih =>
    intro q st hq0 hqr hinv
    have hqj : q < j := by omega
    have hgo := (verify_inv_packet_size s N (-1) k0 q st hs (by omega) hinv).1
    rw [VerifyData_loop_step s data st ⟨hgo, by omega⟩]
    exact ih (q + 1) _ (by omega) (by omega)
      (VerifyData_pass_good s N (-1) k0 q data st hs hq0 (by omega) (by omega) hinv
        (hwf q hq0 hqj))

theorem VerifyData_loop_tail (s N j k0 : Int) (data : Int → Int) (hs : 2 ≤ s) (r : Nat) :
    ∀ (q : Int) (st : VerifyState), 0 ≤ q → q + (r : Int) = N → j < q →
      verify_inv s N j k0 q st →
      (∀ p : Int, q ≤ p → p < N → well_formed_packet s data p ((k0 + p) % 256)) →
      (VerifyData_loop s data st).mismatches =
        (if 0 ≤ j ∧ j < N then [(j, j * s)] else []) := by
  induction r with
  | zero =>
    intro q st _ hqr _ hinv _
    have hqN : q = N := by omega
    have hleft : st.dataLeft = 0 := by
      rw [hinv.2.1, hqN, sub_self, zero_mul]
    rw [VerifyData_loop_exit s data st (by omega), hinv.2.2.2.2.2.2, hqN]
  | succ r ih =>
    intro q st hq0 hqr hjq hinv hwf
    have hqN : q < N := by omega
    have hgo := (verify_inv_packet_size s N j k0 q st hs hqN hinv).1
    rw [VerifyData_loop_step s data st ⟨hgo, by omega⟩]
    exact ih (q + 1) _ (by omega) (by omega) (by omega)
      (VerifyData_pass_good s N j k0 q data st hs hq0 hqN (by omega) hinv
        (hwf q (le_refl q) hqN))
      (fun p hp0 hp1 => hwf p (by omega) hp1)

theorem verify_inv_rebase (s N j k0 k1 : Int) (st : VerifyState)
    (h : verify_inv s N j k0 (j + 1) st) : verify_inv s N j k1 (j + 1) st := by
  obtain ⟨b1, b2, b3, b4, b5, b6, b7⟩ := h
  refine ⟨b1, b2, b3, b4, b5, ?_, b7⟩
  rcases b6 with h | ⟨_, _, hq, _⟩
  · exact Or.inl h
  · exact absurd rfl hq

theorem VerifyData_loop_next_key_zero (s N j k0 : Int) (data : Int → Int) (st : VerifyState)
    (hs : 2 ≤ s) (hj0 : 0 ≤ j) (hlast : j + 1 < N)
    (hwf : ∀ p : Int, j < p → p < N → well_formed_packet s data p ((k0 + p) % 256))
    (hK : (k0 + (j + 1)) % 256 = 0)
    (f1 : st.dataIndex = (j + 1) * s) (f2 : st.dataLeft = (N - (j + 1)) * s)
    (f3 : st.packetIndex = j + 1) (f4 : st.verifyData 0 = 0)
    (f5 : ∀ d : Int, 2 ≤ d → d < s → st.verifyData d = (d - 1) % 255 + 1)
    (f8 : st.mismatches = []) :
    (VerifyData_loop s data st).mismatches = [] := by
  have hnext := hwf (j + 1) (by omega) hlast
  rw [hK] at hnext
  have hmul : 1 * s ≤ (N - (j + 1)) * s :=
    Int.mul_le_mul_of_nonneg_right (by omega) (by omega)
  rw [one_mul, ← f2] at hmul
  have hgo : st.dataLeft > 1 ∧ 0 < s := ⟨by omega, by omega⟩
  have hp2 := VerifyData_pass_accepts s N (j + 1) 0 data st hs hlast f1 f2 f4 f5 hnext
    (Or.inr (Or.inl rfl))
  have hkz : (0 : Int) = (k0 + (j + 1 + 1 - 1)) % 256 := by
    rw [add_sub_cancel_right, hK]
  have hinv3 : verify_inv s N (-1) k0 (j + 1 + 1) (VerifyData_pass s data st) := by
    rw [hp2]
    refine ⟨?_, ?_, ?_, ?_, ?_, ?_, ?_⟩
    · show st.dataIndex + s = (j + 1 + 1) * s
      rw [f1]
      ring
    · show st.dataLeft - s = (N - (j + 1 + 1)) * s
      rw [f2]
      ring
    · show st.packetIndex + 1 = j + 1 + 1
      rw [f3]
    · exact (Function.update_noteq (by decide : (0 : Int) ≠ 1) 0 st.verifyData).trans f4
    · intro d hd0 hd1
      exact (Function.update_noteq (by omega : d ≠ 1) 0 st.verifyData).trans (f5 d hd0 hd1)
    · right
      exact ⟨rfl, by omega, by omega, hkz⟩
    · show st.mismatches = _
      rw [f8, if_neg (by omega)]
  have hq0 : 0 ≤ j + 1 + 1 := by omega
  have hqN : j + 1 + 1 + ((N - (j + 1 + 1)).toNat : Int) = N := by omega
  have hjq : -1 < j + 1 + 1 := by omega
  have hn : ¬ ((0 : Int) ≤ -1 ∧ -1 < N) := by omega
  rw [VerifyData_loop_step s data st hgo,
    VerifyData_loop_tail s N (-1) k0 data hs (N - (j + 1 + 1)).toNat (j + 1 + 1) _
      hq0 hqN hjq hinv3 (fun p hp0 hp1 => hwf p (by omega) hp1),
    if_neg hn]

theorem VerifyData_loop_next_key_wrong (s N j k0 v : Int) (data : Int → Int)
    (st : VerifyState) (hs : 2 ≤ s) (hj0 : 0 ≤ j) (hlast : j + 1 < N)
    (hwf : ∀ p : Int, j < p → p < N → well_formed_packet s data p ((k0 + p) % 256))
    (hK : (k0 + (j + 1)) % 256 ≠ 0) (hvb : 0 ≤ v ∧ v < 256) (hne : v ≠ (k0 + j) % 256)
    (f1 : st.dataIndex = (j + 1) * s) (f2 : st.dataLeft = (N - (j + 1)) * s)
    (f3 : st.packetIndex = j + 1) (f4 : st.verifyData 0 = 0)
    (f5 : ∀ d : Int, 2 ≤ d → d < s → st.verifyData d = (d - 1) % 255 + 1)
    (f6 : st.seedKey = 0) (f7 : st.keyC = v) (f8 : st.mismatches = []) :
    (VerifyData_loop s data st).mismatches = [(j + 1, (j + 1) * s)] := by
  have hnext := (hwf (j + 1) (by omega) hlast).2.1
  have hmul : 1 * s ≤ (N - (j + 1)) * s :=
    Int.mul_le_mul_of_nonneg_right (by omega) (by omega)
  rw [one_mul, ← f2] at hmul
  have hgo : st.dataLeft > 1 ∧ 0 < s := ⟨by omega, by omega⟩
  have hkc : st.keyC = (v - j + (j + 1 - 1)) % 256 := by
    rw [f7]
    omega
  have hmis : st.mismatches = (if 0 ≤ j + 1 ∧ j + 1 < j + 1 then [(j + 1, (j + 1) * s)]
      else []) := by
    rw [f8, if_neg (by omega)]
  have hinv2 : verify_inv s N (j + 1) (v - j) (j + 1) st :=
    ⟨f1, f2, f3, f4, f5, Or.inr ⟨f6, by omega, by omega, hkc⟩, hmis⟩
  have hk1 : data ((j + 1) * s + 1) ≠ 0 := by
    rw [hnext]
    exact hK
  have hk2 : data ((j + 1) * s + 1) ≠ (v - j + (j + 1)) % 256 := by
    rw [hnext]
    omega
  have hinv3 := verify_inv_rebase s N (j + 1) (v - j) k0 _
    (VerifyData_pass_bad s N (j + 1) (v - j) data st hs (by omega) hlast hinv2
      (Or.inr ⟨by omega, hk1, hk2⟩))
  have hq0 : 0 ≤ j + 1 + 1 := by omega
  have hqN : j + 1 + 1 + ((N - (j + 1 + 1)).toNat : Int) = N := by omega
  have hjq : j + 1 < j + 1 + 1 := by omega
  have hy : (0 : Int) ≤ j + 1 ∧ j + 1 < N := ⟨by omega, hlast⟩
  rw [VerifyData_loop_step s data st hgo,
    VerifyData_loop_tail s N (j + 1) k0 data hs (N - (j + 1 + 1)).toNat (j + 1 + 1) _
      hq0 hqN hjq hinv3 (fun p hp0 hp1 => hwf p (by omega) hp1),
    if_pos hy]

theorem VerifyData_key_only_corruption (s N j k0 v : Int) (data VerifyBuffer : Int → Int)
    (hs : 2 ≤ s) (hj0 : 0 ≤ j) (hjN : j < N) (hv0 : VerifyBuffer 0 = 0)
    (hvd : ∀ d : Int, 2 ≤ d → d < s → VerifyBuffer d = (d - 1) % 255 + 1)
    (hwf : ∀ p : Int, 0 ≤ p → p < N → p ≠ j →
      well_formed_packet s data p ((k0 + p) % 256))
    (hpkt : well_formed_packet s data j v) (hvb : 0 ≤ v ∧ v < 256)
    (hne : v ≠ (k0 + j) % 256) (hcase : v = 0 ∨ j = 0) :
    ∃ st : VerifyState, VerifyData s VerifyBuffer data (N * s) = some (0, st) ∧
      st.mismatches =
        (if j + 1 < N ∧ (k0 + (j + 1)) % 256 ≠ 0 then [(j + 1, (j + 1) * s)] else []) := by
  have hno : ¬ (N * s > 1 ∧ s ≤ 0) := by omega
  unfold VerifyData
  rw [if_neg hno]
  refine ⟨_, rfl, ?_⟩
  have h1 : (1 : Int) ≠ 0 := by decide
  have hstart : verify_inv s N (-1) k0 0
      { verifyData := VerifyBuffer, keyC := 0, seedKey := 1, dataLeft := N * s,
        dataIndex := 0, packetIndex := 0, mismatches := [] } := by
    refine ⟨?_, ?_, rfl, hv0, hvd, Or.inl ⟨h1, Or.inl rfl⟩, ?_⟩
    · show (0 : Int) = 0 * s
      rw [zero_mul]
    · show N * s = (N - 0) * s
      rw [sub_zero]
    · show ([] : List (Int × Int)) = _
      rw [if_neg (by omega)]
  have hjn : (0 : Int) + ((j.toNat : Nat) : Int) = j := by omega
  obtain ⟨st1, hinv1, heq⟩ := VerifyData_loop_head s N j k0 data hs hjN
    (fun p hp0 hp1 => hwf p hp0 (by omega) (by omega)) j.toNat 0 _ (le_refl 0) hjn hstart
  rw [heq]
  have hgo := (verify_inv_packet_size s N (-1) k0 j st1 hs hjN hinv1).1
  obtain ⟨i1, i2, i3, i4, i5, i6, i7⟩ := hinv1
  rw [if_neg (by omega)] at i7
  have hkey : st1.seedKey ≠ 0 ∨ v = 0 ∨ (v ≠ 0 ∧ v = (st1.keyC + 1) % 256) := by
    rcases i6 with ⟨hseed, _⟩ | ⟨_, hj1, _, _⟩
    · exact Or.inl hseed
    · rcases hcase with hz | hz
      · exact Or.inr (Or.inl hz)
      · omega
  have hp := VerifyData_pass_accepts s N j v data st1 hs hjN i1 i2 i4 i5 hpkt hkey
  rw [VerifyData_loop_step s data st1 ⟨hgo, by omega⟩]
  -- the state after the pass over packet `j`
  have f1 : (VerifyData_pass s data st1).dataIndex = (j + 1) * s := by
    rw [hp]
    show st1.dataIndex + s = (j + 1) * s
    rw [i1]
    ring
  have f2 : (VerifyData_pass s data st1).dataLeft = (N - (j + 1)) * s := by
    rw [hp]
    show st1.dataLeft - s = (N - (j + 1)) * s
    rw [i2]
    ring
  have f3 : (VerifyData_pass s data st1).packetIndex = j + 1 := by
    rw [hp]
    show st1.packetIndex + 1 = j + 1
    rw [i3]
  have f4 : (VerifyData_pass s data st1).verifyData 0 = 0 := by
    rw [hp]
    exact (Function.update_noteq (by decide : (0 : Int) ≠ 1) v st1.verifyData).trans i4
  have f5 : ∀ d : Int, 2 ≤ d → d < s →
      (VerifyData_pass s data st1).verifyData d = (d - 1) % 255 + 1 := by
    intro d hd0 hd1
    rw [hp]
    exact (Function.update_noteq (by omega : d ≠ 1) v st1.verifyData).trans (i5 d hd0 hd1)
  have f6 : (VerifyData_pass s data st1).seedKey = 0 := by
    rw [hp]
  have f7 : (VerifyData_pass s data st1).keyC = v := by
    rw [hp]
  have f8 : (VerifyData_pass s data st1).mismatches = [] := by
    rw [hp]
    exact i7
  generalize VerifyData_pass s data st1 = st2 at f1 f2 f3 f4 f5 f6 f7 f8
  clear hp hkey i1 i2 i3 i4 i5 i6 i7 heq hstart hgo
  have hwf1 : ∀ p : Int, j < p → p < N → well_formed_packet s data p ((k0 + p) % 256) :=
    fun p hp0 hp1 => hwf p (by omega) hp1 (by omega)
  by_cases hlast : j + 1 < N
  · by_cases hK : (k0 + (j + 1)) % 256 = 0
    · rw [VerifyData_loop_next_key_zero s N j k0 data st2 hs hj0 hlast hwf1 hK f1 f2 f3 f4 f5
        f8, if_neg (fun h => h.2 hK)]
    · rw [VerifyData_loop_next_key_wrong s N j k0 v data st2 hs hj0 hlast hwf1 hK hvb hne f1
        f2 f3 f4 f5 f6 f7 f8, if_pos ⟨hlast, hK⟩]
  · have hNj : N - (j + 1) = 0 := by omega
    rw [hNj, zero_mul] at f2
    have hstop : ¬ (st2.dataLeft > 1 ∧ 0 < s) := by omega
    rw [VerifyData_loop_exit s data st2 hstop, f8, if_neg (fun h => hlast h.1)]

theorem sample_pattern_other_packets (i v j : Int) (hi0 : j * 4 ≤ i) (hi1 : i < j * 4 + 4) :
    ∀ p : Int, 0 ≤ p → p < 4 → p ≠ j →
      well_formed_packet 4 (Function.update sample_pattern i v) p ((0 + p) % 256) := by
  intro p hp0 hp1 hp2
  obtain ⟨w1, w2, w3⟩ := CreateTransferParam_fill_well_formed sample_verify_param
    (fun _ => 0) 4 (by decide) (by decide) p hp0 hp1
  refine ⟨?_, ?_, ?_⟩
  · rw [Function.update_noteq (by omega)]
    exact w1
  · rw [Function.update_noteq (by omega), zero_add]
    exact w2
  · intro d hd0 hd1
    rw [Function.update_noteq (by omega)]
    exact w3 d hd0 hd1

theorem sample_pattern_key_packet (j v : Int) (hj0 : 0 ≤ j) (hj1 : j < 4) :
    well_formed_packet 4 (Function.update sample_pattern (j * 4 + 1) v) j v := by
  obtain ⟨w1, _, w3⟩ := CreateTransferParam_fill_well_formed sample_verify_param
    (fun _ => 0) 4 (by decide) (by decide) j hj0 hj1
  refine ⟨?_, ?_, ?_⟩
  · rw [Function.update_noteq (by omega)]
    exact w1
  · rw [Function.update_same]
  · intro d hd0 hd1
    rw [Function.update_noteq (by omega)]
    exact w3 d hd0 hd1

/-- C15 fails for a key byte corrupted to 0: in the four-packet stream
`0 0 2 3`, `0 1 2 3`, `0 2 2 3`, `0 3 2 3` of the generator, with the key of
packet 2 changed from 2 to 0, `VerifyData` writes no line for packet 2 and
one line for the well-formed packet 3 after it. -/
theorem VerifyData_zero_key_not_reported :
    (List.range 16).map (fun i : Nat => sample_pattern (i : Int)) =
      [0, 0, 2, 3, 0, 1, 2, 3, 0, 2, 2, 3, 0, 3, 2, 3] ∧
    (VerifyData 4 (CreateVerifyBuffer 4 (fun _ => 0)) (Function.update sample_pattern 9 0)
      16).map (fun r => (r.1, r.2.mismatches)) = some (0, [(3, 12)]) := by
  constructor
  · decide
  · unfold VerifyData
    rw [if_neg (by decide)]
    rw [VerifyData_loop_unfold, VerifyData_loop_unfold, VerifyData_loop_unfold,
      VerifyData_loop_unfold, VerifyData_loop_unfold]
    decide

/-- C15, amended: in a stream of `N` packets of `s >= 2` bytes whose packets
other than packet `j` are well-formed with keys counting up from `k0`,
`VerifyData` returns 0 and: (1) if packet `j` differs from a well-formed packet
in a byte other than the key byte, or it is not the first packet and its key
byte is neither 0 nor the key that is due, exactly one mismatch line is
written, for packet `j` at data index `j * s`; (2) if packet `j` differs from
the well-formed packet in its key byte only, and the byte `v` found there is 0
or packet `j` is the first packet, no line is written for packet `j`, and the
one line written is for packet `j + 1` when there is such a packet and its key
is not 0, and no line at all otherwise. -/
theorem VerifyData_single_corruption (s N j k0 : Int) (mem data : Int → Int) (hs : 2 ≤ s)
    (hj0 : 0 ≤ j) (hjN : j < N)
    (hwf : ∀ p : Int, 0 ≤ p → p < N → p ≠ j →
      well_formed_packet s data p ((k0 + p) % 256)) :
    (((∃ d : Int, 0 ≤ d ∧ d < s ∧ d ≠ 1 ∧
          data (j * s + d) ≠ (if d = 0 then 0 else (d - 1) % 255 + 1)) ∨
        (1 ≤ j ∧ data (j * s + 1) ≠ 0 ∧ data (j * s + 1) ≠ (k0 + j) % 256)) →
      ∃ st : VerifyState,
        VerifyData s (CreateVerifyBuffer s mem) data (N * s) = some (0, st) ∧
          st.mismatches = [(j, j * s)]) ∧
    (∀ v : Int, well_formed_packet s data j v → 0 ≤ v ∧ v < 256 → v ≠ (k0 + j) % 256 →
      v = 0 ∨ j = 0 →
      ∃ st : VerifyState,
        VerifyData s (CreateVerifyBuffer s mem) data (N * s) = some (0, st) ∧
          st.mismatches =
            (if j + 1 < N ∧ (k0 + (j + 1)) % 256 ≠ 0 then [(j + 1, (j + 1) * s)]
              else [])) := by
  obtain ⟨hv0, hvd⟩ := CreateVerifyBuffer_pattern s mem hs
  constructor
  · intro hbad
    obtain ⟨st, h1, h2⟩ := VerifyData_stream s N j k0 data (CreateVerifyBuffer s mem) hs
      (by omega) hv0 hvd hwf (fun _ _ => hbad)
    rw [if_pos ⟨hj0, hjN⟩] at h2
    exact ⟨st, h1, h2⟩
  · intro v hpkt hvb hne hcase
    exact VerifyData_key_only_corruption s N j k0 v data (CreateVerifyBuffer s mem) hs hj0
      hjN hv0 hvd hwf hpkt hvb hne hcase

/-- Witness for the amended C15 on the generator's four-packet stream: with
the data byte at index 10 (packet 2, offset 2) changed from 2 to 7 the one
line is for packet 2 at data index 8; with the key of packet 2 (index 9)
changed from 2 to 0 the one line is for packet 3 at data index 12; with the
key of packet 0 (index 1) changed from 0 to 9 the one line is for packet 1 at
data index 4. -/
theorem VerifyData_single_corruption_witness :
    (∃ st : VerifyState,
      VerifyData 4 (CreateVerifyBuffer 4 (fun _ => 0)) (Function.update sample_pattern 10 7)
        16 = some (0, st) ∧ st.mismatches = [(2, 8)]) ∧
    (∃ st : VerifyState,
      VerifyData 4 (CreateVerifyBuffer 4 (fun _ => 0)) (Function.update sample_pattern 9 0)
        16 = some (0, st) ∧ st.mismatches = [(3, 12)]) ∧
    (∃ st : VerifyState,
      VerifyData 4 (CreateVerifyBuffer 4 (fun _ => 0)) (Function.update sample_pattern 1 9)
        16 = some (0, st) ∧ st.mismatches = [(1, 4)]) :=
  ⟨(VerifyData_single_corruption 4 4 2 0 (fun _ => 0) (Function.update sample_pattern 10 7)
      (by decide) (by decide) (by decide)
      (sample_pattern_other_packets 10 7 2 (by decide) (by decide))).1
      (Or.inl ⟨2, by decide, by decide, by decide, by
        rw [show (2 : Int) * 4 + 2 = 10 by decide, Function.update_same]
        decide⟩),
    (VerifyData_single_corruption 4 4 2 0 (fun _ => 0) (Function.update sample_pattern 9 0)
      (by decide) (by decide) (by decide)
      (sample_pattern_other_packets 9 0 2 (by decide) (by decide))).2 0
      (sample_pattern_key_packet 2 0 (by decide) (by decide)) (by decide) (by decide)
      (Or.inl rfl),
    (VerifyData_single_corruption 4 4 0 0 (fun _ => 0) (Function.update sample_pattern 1 9)
      (by decide) (by decide) (by decide)
      (sample_pattern_other_packets 1 9 0 (by decide) (by decide))).2 9
      (sample_pattern_key_packet 0 9 (by decide) (by decide)) (by decide) (by decide)
      (Or.inr rfl)⟩

/-! ## Kernel driver detach -/

/-- C30 fails on the code: `usb_detach_kernel_driver_np` takes its `switch` on
the value of `compat_err`, which is minus an errno and not a libusb code.  It
returns 0 for success and `-ENOSYS` for `NOT_SUPPORTED`, but `-EINVAL` for
`NOT_FOUND` (whose errno `ENOENT` is 2, the value of `-INVALID_PARAM`) and
`-ENOSYS` for `INVALID_PARAM` and for `NO_DEVICE`, while `-ENODATA` and
`-ENODEV` come out for the driver results `IO` and `INTERRUPTED`. -/
theorem usb_detach_kernel_driver_np_table :
    (usb_detach_kernel_driver_np LIBUSB_SUCCESS).1 = 0 ∧
    (usb_detach_kernel_driver_np LIBUSB_ERROR_NOT_SUPPORTED).1 = -ENOSYS ∧
    (usb_detach_kernel_driver_np LIBUSB_ERROR_NOT_FOUND).1 = -EINVAL ∧
    (usb_detach_kernel_driver_np LIBUSB_ERROR_NOT_FOUND).1 ≠ -ENODATA ∧
    (usb_detach_kernel_driver_np LIBUSB_ERROR_INVALID_PARAM).1 = -ENOSYS ∧
    (usb_detach_kernel_driver_np LIBUSB_ERROR_INVALID_PARAM).1 ≠ -EINVAL ∧
    (usb_detach_kernel_driver_np LIBUSB_ERROR_NO_DEVICE).1 = -ENOSYS ∧
    (usb_detach_kernel_driver_np LIBUSB_ERROR_NO_DEVICE).1 ≠ -ENODEV ∧
    (usb_detach_kernel_driver_np LIBUSB_ERROR_IO).1 = -ENODATA ∧
    (usb_detach_kernel_driver_np LIBUSB_ERROR_INTERRUPTED).1 = -ENODEV := by
  decide

/-! ## Submit: packet count of an isochronous transfer -/

/-- C26 fails on the code for a negative quotient: for an isochronous context
with ref-count 1 and legacy packet size `p ≠ 0`, a non-null buffer and a
driver that accepts the transfer, whenever the C quotient `size / p` is
negative `async_submit` returns 0 and leaves that negative quotient in
`num_iso_packets`, which is then below 1. -/
theorem async_submit_negative_packet_count (env : Env) (c : usb_async_transfer_t)
    (buf : Nat) (size : Int) (timeout : Nat) (m : Machine)
    (href : c.ref_count = 1)
    (hiso : c.legacy_iso_pktsize ≠ 0 ∧ c.transfer.type = LIBUSB_TRANSFER_TYPE_ISOCHRONOUS)
    (hneg : Int.tdiv size c.legacy_iso_pktsize < 0)
    (hdrv : ∀ t, env.libusb_submit_transfer t = LIBUSB_SUCCESS) :
    (async_submit env (some c) (some buf) size timeout m).1 = 0 ∧
    ∃ c2, (async_submit env (some c) (some buf) size timeout m).2.1 = some c2 ∧
      c2.transfer.num_iso_packets = Int.tdiv size c.legacy_iso_pktsize ∧
      c2.transfer.num_iso_packets < 1 := by
  have hq : ¬ (Int.tdiv size c.legacy_iso_pktsize = 0 ∨
      Int.tdiv size c.legacy_iso_pktsize > 1024) := by omega
  have hacc := async_submit_iso_of_accepted c size hiso hq
  have hsub := (async_submit_of_checked env c _ (some buf) size timeout m
    (fun h => by cases h) href hacc).1 (hdrv _)
  rw [hsub]
  refine ⟨rfl, _, rfl, rfl, ?_⟩
  show Int.tdiv size c.legacy_iso_pktsize < 1
  omega

/-- C26 on the code at packet size 512 and `size = -1000`: the submit returns 0
with `num_iso_packets = -1`, and `-1 * 512` is not at most `-1000`. -/
theorem async_submit_negative_packet_count_witness :
    (iso512.ref_count = 1 ∧ Int.tdiv (-1000) iso512.legacy_iso_pktsize < 0) ∧
    (async_submit env_ok (some iso512) (some 4096) (-1000) 0 idle_machine).1 = 0 ∧
    (∃ c2, (async_submit env_ok (some iso512) (some 4096) (-1000) 0 idle_machine).2.1 =
        some c2 ∧
      c2.transfer.num_iso_packets = -1 ∧ c2.transfer.num_iso_packets < 1) ∧
    ¬ ((-1 : Int) * iso512.legacy_iso_pktsize ≤ -1000) := by
  have t := async_submit_negative_packet_count env_ok iso512 4096 (-1000) 0 idle_machine
    (by decide) (by decide) (by decide) (fun _ => rfl)
  obtain ⟨t1, c2, t2, t3, t4⟩ := t
  exact ⟨⟨by decide, by decide⟩, t1, ⟨c2, t2, t3, t4⟩, by decide⟩

/-! ## Reap: the cancel request after a timeout -/

/-- C28: in `async_reap` on a context with ref-count at least 1, when the first
wait returns `ETIMEDOUT` with `cancel_on_timeout` set, the ref-count of the
context at the call of `usb_cancel_async` is greater than 1, so the request
goes to the driver: the calls of the reap are the first wait, one
`libusb_cancel_transfer` and the retry wait.  This holds for an idle context
(ref-count 1 before the reap) as well; a completion can arrive during the
first wait only for a transfer in flight, that is with ref-count at least 2
before the reap. -/
theorem async_reap_cancel_reaches_driver (env : Env) (c : usb_async_transfer_t)
    (timeout cancel_on_timeout : Int) (m : Machine) (href : 1 ≤ c.ref_count)
    (hwait : (env.wait 0 timeout).ret = ETIMEDOUT) (hcancel : cancel_on_timeout ≠ 0)
    (hflight : (env.wait 0 timeout).completion ≠ none → 2 ≤ c.ref_count) :
    1 < (wait_complete_event env 0 { c with ref_count := c.ref_count + 1 } timeout
      (fly_count_inc m)).2.1.ref_count ∧
    (async_reap env (some c) timeout cancel_on_timeout m).2.2.trace =
      m.trace ++ [Call.Mpl_Event_Wait timeout, Call.libusb_cancel_transfer,
        Call.Mpl_Event_Wait (-1)] := by
  obtain ⟨w1, w2, w3, w4⟩ := wait_complete_event_facts env 0
    { c with ref_count := c.ref_count + 1 } timeout (fly_count_inc m)
  have href1 : 1 < (wait_complete_event env 0 { c with ref_count := c.ref_count + 1 } timeout
      (fly_count_inc m)).2.1.ref_count := by
    by_cases hcompl : (env.wait 0 timeout).completion = none
    · rw [w4 hcompl]
      show 1 < c.ref_count + 1
      omega
    · have h2 := hflight hcompl
      have w3' : c.ref_count + 1 - 1 ≤ (wait_complete_event env 0
          { c with ref_count := c.ref_count + 1 } timeout (fly_count_inc m)).2.1.ref_count := w3
      omega
  refine ⟨href1, ?_⟩
  rw [async_reap_of_valid env c timeout cancel_on_timeout m href]
  show (reap_retry_for_cancel env 0 { c with ref_count := c.ref_count + 1 } timeout
    cancel_on_timeout (fly_count_inc m)).2.2.trace = _
  rw [reap_retry_for_cancel_eq, if_pos ⟨w1.trans hwait, hcancel⟩, (reap_finish_facts _).2.2.1,
    (wait_complete_event_facts env 1 _ (-1) _).2.1, usb_cancel_async_trace, if_pos href1, w2]
  show m.trace ++ [Call.Mpl_Event_Wait timeout] ++ [Call.libusb_cancel_transfer] ++
    [Call.Mpl_Event_Wait (-1)] = _
  simp

/-- C28 at an idle bulk context (ref-count 1) whose waits first time out: the
cancel request reaches the driver. -/
theorem async_reap_cancel_reaches_driver_witness :
    (1 ≤ bulk_idle.ref_count ∧ bulk_idle.ref_count = 1 ∧
      ((env_cancelled 0).wait 0 1000).ret = ETIMEDOUT) ∧
    (async_reap (env_cancelled 0) (some bulk_idle) 1000 1 idle_machine).2.2.trace =
      [Call.Mpl_Event_Wait 1000, Call.libusb_cancel_transfer, Call.Mpl_Event_Wait (-1)] :=
  ⟨⟨by decide, by decide, by decide⟩,
    (async_reap_cancel_reaches_driver (env_cancelled 0) bulk_idle 1000 1 idle_machine
      (by decide) (by decide) (by decide) (fun h => absurd rfl h)).2⟩

/-! ## The fly-count over the life of a context -/

/-- C21 fails on the code: `usb_free_async` on a context with ref-count 1 (no
transfer in flight) returns 0 and still lowers the fly-count by one, because
the release of the reference taken by setup goes through the fly-count
decrement of `async_dec_ref`.  From a fly-count of 0 the life of one bulk
context, with a submit that the driver accepts, a completion, a reap and the
free, brings the fly-count to 1, 0, 0 and then -1. -/
theorem usb_free_async_lowers_fly_count (c : usb_async_transfer_t) (m : Machine)
    (h : c.ref_count = 1) :
    (usb_free_async (some (some c)) m).ret = 0 ∧
    (usb_free_async (some (some c)) m).m.async_thread.fly_count =
      m.async_thread.fly_count - 1 ∧
    idle_machine.async_thread.fly_count = 0 ∧ bulk_idle.ref_count = 1 ∧
    (run_api_ops [ApiOp.submit (some 4096) 512 0] (bulk_idle,
      idle_machine)).2.async_thread.fly_count = 1 ∧
    (run_api_ops [ApiOp.submit (some 4096) 512 0, ApiOp.completion 0 512] (bulk_idle,
      idle_machine)).2.async_thread.fly_count = 0 ∧
    (run_api_ops [ApiOp.submit (some 4096) 512 0, ApiOp.completion 0 512,
      ApiOp.reap 1000 0 0 0 0] (bulk_idle, idle_machine)).2.async_thread.fly_count = 0 ∧
    (run_api_ops [ApiOp.submit (some 4096) 512 0, ApiOp.completion 0 512,
      ApiOp.reap 1000 0 0 0 0, ApiOp.free] (bulk_idle,
      idle_machine)).2.async_thread.fly_count = -1 := by
  refine ⟨(usb_free_async_last_reference c m h).1, ?_, by decide, by decide, by decide,
    by decide, ?_, ?_⟩
  · simp only [usb_free_async]
    rw [async_dec_ref_of_eq_one c m h]
    simp [fly_count_dec, async_free]
  · simp only [run_api_ops, List.foldl_cons, List.foldl_nil, apply_api_op, usb_submit_async,
      async_reap, reap_retry_for_cancel_eq]
    decide
  · simp only [run_api_ops, List.foldl_cons, List.foldl_nil, apply_api_op, usb_submit_async,
      async_reap, reap_retry_for_cancel_eq]
    decide

/-- C21 on the code at a context fresh from setup: the free alone takes the
fly-count from 0 to -1. -/
theorem usb_free_async_lowers_fly_count_witness :
    bulk_idle.ref_count = 1 ∧ idle_machine.async_thread.fly_count = 0 ∧
    (usb_free_async (some (some bulk_idle)) idle_machine).ret = 0 ∧
    (usb_free_async (some (some bulk_idle)) idle_machine).m.async_thread.fly_count = -1 :=
  have t := usb_free_async_lowers_fly_count bulk_idle idle_machine (by decide)
  ⟨by decide, by decide, t.1, t.2.1⟩

/-! ## The event thread -/

/-- C23: `async_start_events` changes nothing and returns 0 when the run flag
is not 0.  When the run flag is 0 and `Mpl_Thread_Init` succeeds it creates
one event thread, leaves the run flag at 1 with the running signal set, and
returns 0; when `Mpl_Thread_Init` fails it creates no thread, returns that
(non-zero) result and leaves the run flag at 0 and the running signal as it
was.  The fly-count is not touched. -/
theorem async_start_events_contract (thread_init : Int) (t : usb_async_thread_t) :
    if t.is_run ≠ 0 then async_start_events thread_init t = (0, t, 0)
    else if thread_init = MPL_SUCCESS then
      (async_start_events thread_init t).1 = 0 ∧
      (async_start_events thread_init t).2.2 = 1 ∧
      (async_start_events thread_init t).2.1.is_run = 1 ∧
      (async_start_events thread_init t).2.1.event_running.IsSet ≠ 0 ∧
      (async_start_events thread_init t).2.1.fly_count = t.fly_count
    else
      (async_start_events thread_init t).1 = thread_init ∧
      (async_start_events thread_init t).1 ≠ 0 ∧
      (async_start_events thread_init t).2.2 = 0 ∧
      (async_start_events thread_init t).2.1.is_run = 0 ∧
      (async_start_events thread_init t).2.1.event_running = t.event_running ∧
      (async_start_events thread_init t).2.1.fly_count = t.fly_count := by
  by_cases hrun : t.is_run ≠ 0
  · rw [if_pos hrun]
    unfold async_start_events
    rw [if_pos hrun]
  · rw [if_neg hrun]
    have h0 : t.is_run = 0 := not_not.mp hrun
    have h1 : MPL_Atomic_Inc32 t.is_run = 1 := by
      rw [h0]
      decide
    have h2 : MPL_Atomic_Dec32 (MPL_Atomic_Inc32 t.is_run) = 0 := by
      rw [h0]
      decide
    unfold async_start_events
    simp only [if_neg hrun, if_pos h1]
    by_cases hok : thread_init = MPL_SUCCESS
    · simp only [if_pos hok]
      refine ⟨hok, trivial, h1, ?_, trivial⟩
      show (Mpl_Event_Set t.event_running).IsSet ≠ 0
      unfold Mpl_Event_Set
      by_cases hs : t.event_running.IsSet = 0
      · rw [if_pos hs]
        show (1 : Int) ≠ 0
        decide
      · rw [if_neg hs]
        exact hs
    · simp only [if_neg hok]
      exact ⟨trivial, hok, trivial, h2, trivial, trivial⟩

/-- C22 as stated fails for a negative fly-count: the loop tests the count
against 0 only.  The free of a context fresh from setup leaves the fly-count
at -1, and an iteration that reads -1 polls the driver although the count is
not greater than 0. -/
theorem async_event_handler_pass_negative_fly_count :
    (usb_free_async (some (some bulk_idle)) idle_machine).m.async_thread.fly_count = -1 ∧
    ¬ ((0 : Int) < -1) ∧
    EventCall.libusb_handle_events_locked 1 ∈
      (async_event_handler_pass ⟨-1, -1, 1⟩ 0).2 := by
  decide

theorem async_event_handler_pass_polls (reads : EventPassReads) (events_locked tv : Int) :
    EventCall.libusb_handle_events_locked tv ∈
        (async_event_handler_pass reads events_locked).2 ↔
      tv = ASYNC_TIMVAL_SEC ∧ reads.fly_count_outer ≠ 0 ∧ reads.event_handling_ok ≠ 0 := by
  unfold async_event_handler_pass
  by_cases h0 : reads.fly_count_outer = 0
  · simp only [if_pos h0]
    by_cases hl : events_locked = 0 <;> by_cases hi : reads.fly_count_inner = 0 <;>
      simp [hl, hi, h0]
  · simp only [if_neg h0]
    by_cases hk : reads.event_handling_ok = 0
    · simp only [if_pos hk]
      by_cases hl : events_locked = 0 <;> simp [hl, hk]
    · simp only [if_neg hk]
      by_cases hl : events_locked = 0 <;> simp [hl, hk, h0, eq_comm]

/-- C22, amended: in every iteration of the loop of the event thread,
`libusb_handle_events_locked` is called exactly when the fly-count read at the
iteration's test is not 0 and `libusb_event_handling_ok` agrees.  When the
fly-count read is 0 the iteration ends with the event lock released, makes
the unlock call, polls nothing, and waits on the running signal, for 1000 ms,
exactly when the fly-count is still 0 at the second read.  Over any run of
iterations, a poll is made only in an iteration that read a fly-count other
than 0. -/
theorem async_event_handler_pass_contract (reads : EventPassReads) (events_locked : Int) :
    (EventCall.libusb_handle_events_locked ASYNC_TIMVAL_SEC ∈
        (async_event_handler_pass reads events_locked).2 ↔
      reads.fly_count_outer ≠ 0 ∧ reads.event_handling_ok ≠ 0) ∧
    (reads.fly_count_outer = 0 →
      (async_event_handler_pass reads events_locked).1 = 0 ∧
      (async_event_handler_pass reads events_locked).2 =
        (if events_locked = 0 then [EventCall.libusb_lock_events] else []) ++
          [EventCall.libusb_unlock_events] ++
          (if reads.fly_count_inner = 0 then [EventCall.Mpl_Event_Wait_running 1000]
           else [])) ∧
    (∀ ms, EventCall.Mpl_Event_Wait_running ms ∈
        (async_event_handler_pass reads events_locked).2 →
      ms = 1000 ∧ reads.fly_count_outer = 0 ∧ reads.fly_count_inner = 0) ∧
    (∀ (iterations : List (Int × EventPassReads)) (tv : Int),
      EventCall.libusb_handle_events_locked tv ∈
          (async_event_handler_loop iterations events_locked).2 →
        ∃ it ∈ iterations, it.1 > 0 ∧ it.2.fly_count_outer ≠ 0 ∧
          it.2.event_handling_ok ≠ 0) := by
  refine ⟨?_, ?_, ?_, ?_⟩
  · rw [async_event_handler_pass_polls]
    simp
  · intro h0
    unfold async_event_handler_pass
    simp only [if_pos h0]
    exact ⟨trivial, rfl⟩
  · intro ms hms
    unfold async_event_handler_pass at hms
    by_cases h0 : reads.fly_count_outer = 0
    · simp only [if_pos h0] at hms
      by_cases hi : reads.fly_count_inner = 0
      · by_cases hl : events_locked = 0 <;> simp [hl, hi] at hms <;>
          exact ⟨by rw [hms]; decide, h0, hi⟩
      · by_cases hl : events_locked = 0 <;> simp [hl, hi] at hms
    · simp only [if_neg h0] at hms
      by_cases hk : reads.event_handling_ok = 0
      · by_cases hl : events_locked = 0 <;> simp [hl, hk] at hms
      · by_cases hl : events_locked = 0 <;> simp [hl, hk] at hms
  · intro iterations
    induction iterations generalizing events_locked with
    | nil =>
      intro tv h
      simp [async_event_handler_loop] at h
    | cons it rest ih =>
      intro tv h
      obtain ⟨is_run, r⟩ := it
      unfold async_event_handler_loop at h
      by_cases hrun : is_run > 0
      · simp only [if_pos hrun] at h
        rw [List.mem_append] at h
        rcases h with h | h
        · have hp := (async_event_handler_pass_polls r events_locked tv).1 h
          exact ⟨(is_run, r), List.mem_cons_self _ _, hrun, hp.2.1, hp.2.2⟩
        · obtain ⟨it, hit, hfacts⟩ := ih _ tv h
          exact ⟨it, List.mem_cons_of_mem _ hit, hfacts⟩
      · simp only [if_neg hrun] at h
        simp at h

/-- C22 as amended, at an idle iteration with the lock not yet held: lock,
unlock and one wait of 1000 ms, no poll. -/
theorem async_event_handler_pass_contract_witness :
    (⟨0, 0, 1⟩ : EventPassReads).fly_count_outer = 0 ∧
    (async_event_handler_pass ⟨0, 0, 1⟩ 0).2 =
      [EventCall.libusb_lock_events, EventCall.libusb_unlock_events,
        EventCall.Mpl_Event_Wait_running 1000] ∧
    ¬ (EventCall.libusb_handle_events_locked ASYNC_TIMVAL_SEC ∈
        (async_event_handler_pass ⟨0, 0, 1⟩ 0).2) :=
  have t := async_event_handler_pass_contract ⟨0, 0, 1⟩ 0
  ⟨rfl, (t.2.1 rfl).2, fun h => (t.1.1 h).1 rfl⟩

/-! ## Library start-up -/

theorem usb_initex_later_failure_restores_lock (env : InitEnv) (s : LibState)
    (hctx : s.ctx = none) (hlock : s.g_usb0_lib_init_lock = 0) (hinit : 0 ≤ env.libusb_init)
    (hret : (usb_initex env s).1 ≠ 0) :
    (usb_initex env s).2.g_usb0_lib_init_lock = 0 ∧ (usb_initex env s).2.ctx = none := by
  have h1 : MPL_Atomic_Inc32 s.g_usb0_lib_init_lock = 1 := by rw [hlock]; decide
  have hni : ¬ env.libusb_init < 0 := by omega
  have hfail : ∀ (r : Int) (s1 : LibState), s1.g_usb0_lib_init_lock = 1 →
      (usb_initex_fail r s1).2.g_usb0_lib_init_lock = 0 ∧ (usb_initex_fail r s1).2.ctx = none := by
    intro r s1 hs1
    unfold usb_initex_fail
    refine ⟨?_, rfl⟩
    show MPL_Atomic_Dec32 s1.g_usb0_lib_init_lock = 0
    rw [hs1]
    decide
  unfold usb_initex at hret ⊢
  simp only [if_pos h1, usb_init, hctx, if_neg hni] at hret ⊢
  by_cases a1 : env.Mpl_Init ≠ MPL_SUCCESS
  · simp only [if_pos a1] at hret ⊢
    exact hfail _ _ h1
  · simp only [if_neg a1] at hret ⊢
    by_cases a2 : env.Mpl_Mutex_Init ≠ MPL_SUCCESS
    · simp only [if_pos a2] at hret ⊢
      exact hfail _ _ h1
    · simp only [if_neg a2] at hret ⊢
      by_cases a3 : env.Mpl_Event_Init_running ≠ MPL_SUCCESS
      · simp only [if_pos a3] at hret ⊢
        exact hfail _ _ h1
      · simp only [if_neg a3] at hret ⊢
        by_cases a4 : env.Mpl_Event_Init_terminated ≠ MPL_SUCCESS
        · simp only [if_pos a4] at hret ⊢
          exact hfail _ _ h1
        · simp only [if_neg a4] at hret ⊢
          split at hret
          · rename_i a5
            rw [if_pos a5]
            exact hfail _ _ h1
          · rename_i a5
            exact absurd (not_not.mp a5) hret

/-- C27 fails on the code when `libusb_init` fails: `usb_init` already
decrements the init lock on that path and `usb_initex` decrements it again, so
a first call (lock 0, no context) returns minus the value `errno` happened to
hold and leaves the lock at -1, not 0.  The next `usb_initex` call, whatever
its environment, then finds the incremented lock at 0, makes no `libusb_init`
call and returns 0 with no context. -/
theorem usb_initex_failed_libusb_init (env env2 : InitEnv) (s : LibState)
    (hctx : s.ctx = none) (hlock : s.g_usb0_lib_init_lock = 0)
    (hfail : env.libusb_init < 0) :
    (usb_initex env s).1 = -s.errno ∧
    (usb_initex env s).2.g_usb0_lib_init_lock = -1 ∧
    (usb_initex env s).2.ctx = none ∧
    (usb_initex env s).2.libusb_init_calls = s.libusb_init_calls + 1 ∧
    (usb_initex env2 (usb_initex env s).2).1 = 0 ∧
    (usb_initex env2 (usb_initex env s).2).2.ctx = none ∧
    (usb_initex env2 (usb_initex env s).2).2.libusb_init_calls = s.libusb_init_calls + 1 ∧
    (usb_initex env2 (usb_initex env s).2).2.g_usb0_lib_init_lock = 0 := by
  have h1 : MPL_Atomic_Inc32 s.g_usb0_lib_init_lock = 1 := by rw [hlock]; decide
  have hfirst : usb_initex env s =
      (-s.errno,
        { s with g_usb0_lib_init_lock := -1, libusb_init_calls := s.libusb_init_calls + 1 }) := by
    unfold usb_initex
    simp only [if_pos h1, usb_init, hctx, if_pos hfail]
    rw [h1]
    rfl
  rw [hfirst]
  refine ⟨rfl, rfl, hctx, rfl, ?_, ?_, ?_, ?_⟩ <;>
  · unfold usb_initex
    have h0 : ¬ (MPL_Atomic_Inc32 (-1) = 1) := by decide
    simp only [if_neg h0]
    try first | rfl | exact hctx | decide

/-- C27 on the code at the first call with a failing `libusb_init`: the lock is
left at -1 and a second call, in which everything would succeed, returns 0
without a context. -/
theorem usb_initex_failed_libusb_init_witness :
    (lib_start.ctx = none ∧ lib_start.g_usb0_lib_init_lock = 0 ∧
      init_env_no_usb.libusb_init < 0) ∧
    (usb_initex init_env_no_usb lib_start).2.g_usb0_lib_init_lock = -1 ∧
    (usb_initex init_env_ok (usb_initex init_env_no_usb lib_start).2).1 = 0 ∧
    (usb_initex init_env_ok (usb_initex init_env_no_usb lib_start).2).2.ctx = none :=
  have t := usb_initex_failed_libusb_init init_env_no_usb init_env_ok lib_start rfl rfl
    (by decide)
  ⟨⟨rfl, rfl, by decide⟩, t.2.1, t.2.2.2.2.1, t.2.2.2.2.2.1⟩

/-! ## Benchmark: the key byte from packet to packet -/

/-- C24 as stated fails for the key byte: the generator stores
`packetIndex & 0xFF`, so in a buffer of 257 four-byte packets the key of
packet 255 is 255 and the key of packet 256 is 0; and `VerifyData` accepts the
keys 255, 0 in a row while it writes a mismatch line for the second packet of
a stream with the keys 255, 1. -/
theorem key_after_255_is_zero :
    CreateTransferParam_fill sample_long_param (fun _ => 0) (255 * 4 + 1) = 255 ∧
    CreateTransferParam_fill sample_long_param (fun _ => 0) (256 * 4 + 1) = 0 ∧
    (VerifyData 4 (CreateVerifyBuffer 4 (fun _ => 0)) (sample_two_packets 255 0) 8).map
      (fun r => (r.1, r.2.mismatches)) = some (0, []) ∧
    (VerifyData 4 (CreateVerifyBuffer 4 (fun _ => 0)) (sample_two_packets 255 1) 8).map
      (fun r => (r.1, r.2.mismatches)) = some (0, [(1, 4)]) := by
  have h := CreateTransferParam_fill_well_formed sample_long_param (fun _ => 0) 257
    (by decide) (by decide)
  refine ⟨(h 255 (by decide) (by decide)).2.1, (h 256 (by decide) (by decide)).2.1, ?_, ?_⟩
  · unfold VerifyData
    rw [if_neg (by decide)]
    rw [VerifyData_loop_unfold, VerifyData_loop_unfold, VerifyData_loop_unfold]
    decide
  · unfold VerifyData
    rw [if_neg (by decide)]
    rw [VerifyData_loop_unfold, VerifyData_loop_unfold, VerifyData_loop_unfold]
    decide

/-- C24, amended: in the buffer written by the pattern generator, for a packet
size `s >= 2` and `N` packets, byte 0 of every packet is 0, the bytes from
offset 2 on are `(d - 1) mod 255 + 1` (2 at offset 2, then one more per byte,
from 255 to 1, never 0), and the key byte of packet `q` is `q mod 256`: it is
one more than the key before it, and 0 after 255.  The buffer of
`CreateVerifyBuffer` holds the same bytes at offset 0 and from offset 2 on,
and a pass of `VerifyData` that is not seeding expects the key 0 when the data
key is 0 and the last key plus one modulo 256 otherwise, so 0 after 255. -/
theorem pattern_bytes_and_key (p : BM_TRANSFER_PARAM) (Buffer mem : Int → Int) (N : Int)
    (hs : 2 ≤ p.Ep.wMaxPacketSize)
    (hN : p.Test.BufferCount * p.Test.BufferSize = N * p.Ep.wMaxPacketSize) :
    (∀ q : Int, 0 ≤ q → q < N →
      CreateTransferParam_fill p Buffer (q * p.Ep.wMaxPacketSize) = 0 ∧
      CreateTransferParam_fill p Buffer (q * p.Ep.wMaxPacketSize + 1) = q % 256 ∧
      (q + 1 < N →
        CreateTransferParam_fill p Buffer ((q + 1) * p.Ep.wMaxPacketSize + 1) =
          (CreateTransferParam_fill p Buffer (q * p.Ep.wMaxPacketSize + 1) + 1) % 256) ∧
      (∀ d : Int, 2 ≤ d → d < p.Ep.wMaxPacketSize →
        CreateTransferParam_fill p Buffer (q * p.Ep.wMaxPacketSize + d) = (d - 1) % 255 + 1 ∧
        1 ≤ CreateTransferParam_fill p Buffer (q * p.Ep.wMaxPacketSize + d) ∧
        CreateTransferParam_fill p Buffer (q * p.Ep.wMaxPacketSize + d) ≤ 255 ∧
        (d = 2 → CreateTransferParam_fill p Buffer (q * p.Ep.wMaxPacketSize + d) = 2) ∧
        (d + 1 < p.Ep.wMaxPacketSize →
          CreateTransferParam_fill p Buffer (q * p.Ep.wMaxPacketSize + (d + 1)) =
            if CreateTransferParam_fill p Buffer (q * p.Ep.wMaxPacketSize + d) = 255 then 1
            else CreateTransferParam_fill p Buffer (q * p.Ep.wMaxPacketSize + d) + 1))) ∧
    CreateVerifyBuffer p.Ep.wMaxPacketSize mem 0 = 0 ∧
    (∀ d : Int, 2 ≤ d → d < p.Ep.wMaxPacketSize →
      CreateVerifyBuffer p.Ep.wMaxPacketSize mem d = (d - 1) % 255 + 1) ∧
    (∀ (data : Int → Int) (st : VerifyState), st.seedKey = 0 →
      (VerifyData_pass p.Ep.wMaxPacketSize data st).keyC =
        (if data (st.dataIndex + 1) = 0 then 0 else (st.keyC + 1) % 256) ∧
      (VerifyData_pass p.Ep.wMaxPacketSize data st).verifyData 1 =
        (VerifyData_pass p.Ep.wMaxPacketSize data st).keyC ∧
      (st.keyC = 255 → (VerifyData_pass p.Ep.wMaxPacketSize data st).keyC = 0)) := by
  have hwf := CreateTransferParam_fill_well_formed p Buffer N hs hN
  obtain ⟨hv0, hvd⟩ := CreateVerifyBuffer_pattern p.Ep.wMaxPacketSize mem hs
  refine ⟨?_, hv0, hvd, ?_⟩
  · intro q hq0 hqN
    obtain ⟨w1, w2, w3⟩ := hwf q hq0 hqN
    refine ⟨w1, w2, ?_, ?_⟩
    · intro hq1
      rw [(hwf (q + 1) (by omega) hq1).2.1, w2]
      omega
    · intro d hd0 hd1
      rw [w3 d hd0 hd1]
      refine ⟨rfl, by omega, by omega, fun h => by rw [h]; decide, ?_⟩
      intro hd2
      rw [w3 (d + 1) (by omega) hd2]
      split_ifs <;> omega
  · intro data st hseed
    have hk : (VerifyData_pass p.Ep.wMaxPacketSize data st).keyC =
        (if data (st.dataIndex + 1) = 0 then 0 else (st.keyC + 1) % 256) := by
      unfold VerifyData_pass
      simp only [hseed, ne_eq, not_true_eq_false, if_false]
    refine ⟨hk, ?_, ?_⟩
    · unfold VerifyData_pass
      simp only [Function.update_same]
    · intro h255
      rw [hk, h255]
      split_ifs <;> decide

/-- C24 as amended, at two buffers of 8 bytes with 4-byte packets: the keys of
the four packets are 0, 1, 2, 3. -/
theorem pattern_bytes_and_key_witness :
    (2 ≤ sample_verify_param.Ep.wMaxPacketSize ∧
      sample_verify_param.Test.BufferCount * sample_verify_param.Test.BufferSize =
        4 * sample_verify_param.Ep.wMaxPacketSize) ∧
    sample_pattern (3 * 4 + 1) = 3 ∧ sample_pattern (3 * 4) = 0 ∧
    sample_pattern (3 * 4 + 2) = 2 :=
  have t := (pattern_bytes_and_key sample_verify_param (fun _ => 0) (fun _ => 0) 4
    (by decide) (by decide)).1 3 (by decide) (by decide)
  ⟨⟨by decide, by decide⟩, t.2.1, t.1, ((t.2.2.2 2 (by decide) (by decide)).2.2.2.1 rfl)⟩

/-! ## Benchmark: `VerifyData` comes to an end within its buffers -/

theorem Mpl_Event_Reset_IsAuto (e : MPL_EVENT_T) : (Mpl_Event_Reset e).IsAuto = e.IsAuto := by
  unfold Mpl_Event_Reset
  split_ifs <;> rfl

theorem Mpl_Event_Set_fields (e : MPL_EVENT_T) :
    (Mpl_Event_Set e).IsAuto = e.IsAuto ∧ (Mpl_Event_Set e).IsSet ≠ 0 := by
  unfold Mpl_Event_Set
  by_cases h : e.IsSet = 0
  · rw [if_pos h]
    exact ⟨rfl, by show (1 : Int) ≠ 0; decide⟩
  · rw [if_neg h]
    exact ⟨rfl, h⟩

theorem async_dec_ref_object (c : usb_async_transfer_t) (m : Machine) :
    (async_dec_ref c m).2.1 = { c with ref_count := c.ref_count - 1 } := by
  unfold async_dec_ref
  by_cases h1 : c.ref_count - 1 = 0
  · simp [h1]
  · by_cases h2 : c.ref_count - 1 < 0
    · simp [h1, h2]
    · simp [h1, h2]

theorem reap_finish_object (w : Int × usb_async_transfer_t × Machine) :
    (reap_finish w).2.1 = { w.2.1 with ref_count := w.2.1.ref_count - 1 } := by
  unfold reap_finish
  by_cases h0 : w.1 = MPL_SUCCESS
  · simp only [if_pos h0]
    by_cases h1 : libusb_transfer_to_errno w.2.1.transfer.status = 0 ∨
        (libusb_transfer_to_errno w.2.1.transfer.status = ETIMEDOUT ∧
          w.2.1.transfer.actual_length > 0)
    · simp only [if_pos h1]
      exact async_dec_ref_object _ _
    · simp only [if_neg h1]
      exact async_dec_ref_object _ _
  · simp only [if_neg h0]
    exact async_dec_ref_object _ _

theorem async_bulk_cb_object (c : usb_async_transfer_t) (m : Machine) :
    (async_bulk_cb c m).1 =
      { c with complete_event := Mpl_Event_Set c.complete_event,
               ref_count := c.ref_count - 1 } := by
  unfold async_bulk_cb
  simp only []
  rw [async_dec_ref_object]

theorem usb_submit_async_slot (env : Env) (c : usb_async_transfer_t) (b : Nat) (size : Int)
    (m : Machine) (h1 : c.ref_count = 1) :
    ∃ c1 : usb_async_transfer_t,
      (usb_submit_async env (some c) (some b) size m).2.1 = some c1 ∧
      c1.complete_event.IsAuto = c.complete_event.IsAuto ∧
      (((usb_submit_async env (some c) (some b) size m).1 = 0 ∧ c1.ref_count = 2 ∧
          c1.complete_event.IsSet = 0) ∨
        ((usb_submit_async env (some c) (some b) size m).1 < 0 ∧ c1.ref_count = 1)) := by
  unfold usb_submit_async
  cases hiso : async_submit_iso c size with
  | none =>
    have hchk : ¬ (((some b : Option Nat) = none ∧ size > 0) ∨ c.ref_count ≠ 1) := by
      rintro (⟨h, _⟩ | h)
      · cases h
      · exact h h1
    have he : async_submit env (some c) (some b) size 0 m =
        (-EINVAL, some c, { m with errno := EINVAL }) := by
      simp only [async_submit, if_neg hchk, hiso]
    rw [he]
    exact ⟨c, rfl, rfl, Or.inr ⟨by show -EINVAL < 0; decide, h1⟩⟩
  | some c0 =>
    obtain ⟨i1, i2, _, _⟩ := async_submit_iso_ref_count c c0 size hiso
    obtain ⟨hs, hf⟩ := async_submit_of_checked env c c0 (some b) size 0 m
      (fun h => by cases h) h1 hiso
    obtain ⟨a1, a2, _⟩ := async_submit_attach_fields { c0 with ref_count := 2 } (some b) size 0
    have hauto : (async_submit_attach { c0 with ref_count := 2 } (some b) size
        0).complete_event.IsAuto = c.complete_event.IsAuto := by
      show (Mpl_Event_Reset c0.complete_event).IsAuto = _
      rw [Mpl_Event_Reset_IsAuto, i2]
    by_cases hd : env.libusb_submit_transfer
        (async_submit_attach { c0 with ref_count := 2 } (some b) size 0).transfer =
          LIBUSB_SUCCESS
    · rw [hs hd]
      exact ⟨_, rfl, hauto, Or.inl ⟨rfl, a1, a2⟩⟩
    · rw [hf hd]
      refine ⟨_, rfl, hauto, Or.inr ⟨?_, rfl⟩⟩
      have := libusb_to_errno_pos _ hd
      show -(libusb_to_errno _) < 0
      omega

theorem usb_reap_async_nocancel_slot (c : usb_async_transfer_t) (blocked : WaitOutcome)
    (timeout : Int) (m : Machine) (hauto : c.complete_event.IsAuto = 0)
    (hb : blocked_ok blocked) (href : 1 ≤ c.ref_count) :
    ∃ c1 : usb_async_transfer_t,
      (usb_reap_async_nocancel (reap_env c blocked) (some c) timeout m).2.1 = some c1 ∧
      c1.complete_event.IsAuto = 0 ∧
      (c.ref_count = 1 → c1.ref_count = 1 ∧ c1.complete_event = c.complete_event) ∧
      (c.ref_count = 2 → c.complete_event.IsSet = 0 →
        (c1.ref_count = 1 ∧ c1.complete_event.IsSet ≠ 0) ∨
          (c1.ref_count = 2 ∧ c1.complete_event.IsSet = 0 ∧
            (usb_reap_async_nocancel (reap_env c blocked) (some c) timeout m).1 < 0)) := by
  unfold usb_reap_async_nocancel
  rw [async_reap_of_valid _ c timeout 0 m href, reap_retry_for_cancel_eq]
  have hn : ¬ ((wait_complete_event (reap_env c blocked) 0
      { c with ref_count := c.ref_count + 1 } timeout (fly_count_inc m)).1 = ETIMEDOUT ∧
      (0 : Int) ≠ 0) := fun h => h.2 rfl
  rw [if_neg hn]
  -- the three shapes of the wait
  by_cases hset : c.complete_event.IsSet ≠ 0
  · have hw : (reap_env c blocked).wait 0 timeout = ⟨MPL_SUCCESS, none⟩ := by
      show (match Mpl_Event_Wait_signalled c.complete_event with
        | some r => (⟨r.1, none⟩ : WaitOutcome)
        | none => if c.ref_count = 2 then blocked else ⟨blocked.ret, none⟩) = _
      unfold Mpl_Event_Wait_signalled
      rw [if_pos hset]
    rw [wait_complete_event_of_none _ 0 _ timeout _ MPL_SUCCESS hw, reap_finish_object]
    refine ⟨_, rfl, hauto, fun h1 => ⟨?_, rfl⟩, fun _ h0 => absurd h0 hset⟩
    show c.ref_count + 1 - 1 = 1
    omega
  · have hset0 : c.complete_event.IsSet = 0 := not_not.mp hset
    have hsig : Mpl_Event_Wait_signalled c.complete_event = none := by
      unfold Mpl_Event_Wait_signalled
      rw [if_neg hset]
    by_cases hcompl : c.ref_count = 2 ∧ blocked.completion ≠ none
    · obtain ⟨h2, hc⟩ := hcompl
      obtain ⟨st, len, hbc⟩ : ∃ st len, blocked.completion = some (st, len) := by
        cases hbc : blocked.completion with
        | none => exact absurd hbc hc
        | some v => exact ⟨v.1, v.2, rfl⟩
      have hw : (reap_env c blocked).wait 0 timeout = ⟨blocked.ret, some (st, len)⟩ := by
        show (match Mpl_Event_Wait_signalled c.complete_event with
          | some r => (⟨r.1, none⟩ : WaitOutcome)
          | none => if c.ref_count = 2 then blocked else ⟨blocked.ret, none⟩) = _
        rw [hsig]
        show (if c.ref_count = 2 then blocked else ⟨blocked.ret, none⟩) = _
        rw [if_pos h2, ← hbc]
      rw [wait_complete_event_of_some _ 0 _ timeout _ blocked.ret st len hw, reap_finish_object,
        async_bulk_cb_object]
      obtain ⟨s1, s2⟩ := Mpl_Event_Set_fields c.complete_event
      refine ⟨_, rfl, s1.trans hauto, fun h1 => ?_, fun _ _ => Or.inl ⟨?_, s2⟩⟩
      · omega
      · show c.ref_count + 1 - 1 - 1 = 1
        omega
    · have hw : (reap_env c blocked).wait 0 timeout = ⟨blocked.ret, none⟩ := by
        show (match Mpl_Event_Wait_signalled c.complete_event with
          | some r => (⟨r.1, none⟩ : WaitOutcome)
          | none => if c.ref_count = 2 then blocked else ⟨blocked.ret, none⟩) = _
        rw [hsig]
        show (if c.ref_count = 2 then blocked else ⟨blocked.ret, none⟩) = _
        by_cases h2 : c.ref_count = 2
        · rw [if_pos h2]
          have hnone : blocked.completion = none := by
            by_contra hne
            exact hcompl ⟨h2, hne⟩
          cases blocked with
          | mk ret completion =>
            cases hnone
            rfl
        · rw [if_neg h2]
      rw [wait_complete_event_of_none _ 0 _ timeout _ blocked.ret hw]
      have hobj := reap_finish_object (blocked.ret, { c with ref_count := c.ref_count + 1 },
        { fly_count_inc m with
          trace := (fly_count_inc m).trace ++ [Call.Mpl_Event_Wait timeout] })
      rw [hobj]
      refine ⟨_, rfl, hauto, fun h1 => ⟨?_, rfl⟩, fun h2 _ => Or.inr ⟨?_, hset0, ?_⟩⟩
      · show c.ref_count + 1 - 1 = 1
        omega
      · show c.ref_count + 1 - 1 = 2
        omega
      · have hne : blocked.ret ≠ MPL_SUCCESS := by
          intro heq
          exact hcompl ⟨h2, hb.2 heq⟩
        rw [(reap_finish_facts _).2.2.2.1 hne]
        have h0 := hb.1
        have hne' : blocked.ret ≠ 0 := hne
        show -blocked.ret < 0
        omega

theorem TransferAsync_setup_result (env : BenchEnv) (s : BenchState) (idx : Int) :
    (∀ j, j ≠ idx → (TransferAsync_setup env s idx).2.1 j = s.param.TransferHandles j) ∧
    ((TransferAsync_setup env s idx).2.1 idx).InUse = (s.param.TransferHandles idx).InUse ∧
    (((TransferAsync_setup env s idx).1 = 0 ∧
        ((TransferAsync_setup env s idx).2.1 idx).Context ≠ none) ∨
      ((TransferAsync_setup env s idx).1 < 0 ∧
        ((TransferAsync_setup env s idx).2.1 idx).Context =
          (s.param.TransferHandles idx).Context)) := by
  unfold TransferAsync_setup
  by_cases hty : ENDPOINT_TYPE s.param = USB_ENDPOINT_TYPE_ISOCHRONOUS ∨
      ENDPOINT_TYPE s.param = USB_ENDPOINT_TYPE_BULK ∨
      ENDPOINT_TYPE s.param = USB_ENDPOINT_TYPE_INTERRUPT
  · simp only [if_pos hty]
    cases hs : env.setup s.calls.length with
    | none =>
      refine ⟨fun j hj => Function.update_noteq hj _ _, ?_, Or.inr ⟨?_, ?_⟩⟩
      · show (Function.update s.param.TransferHandles idx _ idx).InUse = _
        rw [Function.update_same]
      · show -ENOMEM < 0
        decide
      · show (Function.update s.param.TransferHandles idx _ idx).Context = _
        rw [Function.update_same]
    | some context =>
      refine ⟨fun j hj => Function.update_noteq hj _ _, ?_, Or.inl ⟨rfl, ?_⟩⟩
      · show (Function.update s.param.TransferHandles idx _ idx).InUse = _
        rw [Function.update_same]
      · show (Function.update s.param.TransferHandles idx _ idx).Context ≠ none
        rw [Function.update_same]
        exact fun h => by cases h
  · simp only [if_neg hty]
    refine ⟨fun j hj => Function.update_noteq hj _ _, ?_, Or.inr ⟨?_, ?_⟩⟩
    · show (Function.update s.param.TransferHandles idx _ idx).InUse = _
      rw [Function.update_same]
    · show (-1 : Int) < 0
      decide
    · show (Function.update s.param.TransferHandles idx _ idx).Context = _
      rw [Function.update_same]

theorem worker_new_object_fresh (p : BM_TRANSFER_PARAM) :
    (worker_new_object p).ref_count = 1 ∧ (worker_new_object p).complete_event.IsAuto = 0 := by
  unfold worker_new_object
  split_ifs <;> exact ⟨rfl, rfl⟩

theorem worker_setup_slot (env : WorkerEnv) (w : WorkerState) (idx : Int)
    (hctx : (w.param.TransferHandles idx).Context = none) :
    (∀ j, j ≠ idx →
      (worker_setup env w idx).2.param.TransferHandles j = w.param.TransferHandles j ∧
      (worker_setup env w idx).2.objects j = w.objects j) ∧
    ((worker_setup env w idx).2.param.TransferHandles idx).InUse =
      (w.param.TransferHandles idx).InUse ∧
    (((worker_setup env w idx).1 < 0 ∧
        ((worker_setup env w idx).2.param.TransferHandles idx).Context = none) ∨
      (¬ (worker_setup env w idx).1 < 0 ∧
        ((worker_setup env w idx).2.param.TransferHandles idx).Context ≠ none ∧
        ((worker_setup env w idx).2.objects idx).ref_count = 1 ∧
        ((worker_setup env w idx).2.objects idx).complete_event.IsAuto = 0)) := by
  obtain ⟨s1, s2, s3⟩ := TransferAsync_setup_result (worker_bench_env env) ⟨w.param, w.calls⟩ idx
  unfold worker_setup
  simp only []
  refine ⟨fun j hj => ⟨s1 j hj, ?_⟩, s2, ?_⟩
  · split_ifs
    · rw [Function.update_noteq hj]
    · rfl
  · rcases s3 with ⟨h0, hc⟩ | ⟨hlt, hc⟩
    · right
      refine ⟨by rw [h0]; decide, hc, ?_⟩
      rw [if_pos h0, Function.update_same]
      exact worker_new_object_fresh w.param
    · left
      exact ⟨hlt, hc.trans hctx⟩

theorem worker_submit_slot (env : WorkerEnv) (w : WorkerState) (idx : Int)
    (hctx : (w.param.TransferHandles idx).Context ≠ none)
    (href : (w.objects idx).ref_count = 1)
    (hauto : (w.objects idx).complete_event.IsAuto = 0) :
    (∀ j, j ≠ idx →
      (worker_submit env w idx).2.param.TransferHandles j = w.param.TransferHandles j ∧
      (worker_submit env w idx).2.objects j = w.objects j) ∧
    ((worker_submit env w idx).2.param.TransferHandles idx).InUse =
      (w.param.TransferHandles idx).InUse ∧
    ((worker_submit env w idx).2.param.TransferHandles idx).Context ≠ none ∧
    ((worker_submit env w idx).2.objects idx).complete_event.IsAuto = 0 ∧
    (((worker_submit env w idx).1 = 0 ∧ ((worker_submit env w idx).2.objects idx).ref_count = 2 ∧
        ((worker_submit env w idx).2.objects idx).complete_event.IsSet = 0) ∨
      ((worker_submit env w idx).1 < 0 ∧
        ((worker_submit env w idx).2.objects idx).ref_count = 1)) := by
  have hwc : worker_context w idx = some (w.objects idx) := by
    unfold worker_context
    rw [if_neg hctx]
  obtain ⟨c1, e1, e2, e3⟩ := usb_submit_async_slot
    (api_env (env.libusb_submit_transfer w.calls.length) 0 0 0) (w.objects idx)
    (w.param.TransferHandles idx).Data.toNat (w.param.TransferHandles idx).DataMaxLength w.m href
  unfold worker_submit
  simp only [hwc, e1]
  refine ⟨fun j hj => ⟨Function.update_noteq hj _ _, Function.update_noteq hj _ _⟩, ?_, ?_, ?_, ?_⟩
  · rw [Function.update_same]
  · rw [Function.update_same]
    exact hctx
  · rw [Function.update_same]
    exact e2.trans hauto
  · rw [Function.update_same]
    exact e3

theorem worker_submit_pass_slot (env : WorkerEnv) (w : WorkerState) (ret : Int)
    (hslot : ∀ idx, slot_ok (w.param.TransferHandles idx) (w.objects idx))
    (hfree : (w.param.TransferHandles w.param.TransferHandleNextIndex).InUse = 0) :
    (∀ j, j ≠ w.param.TransferHandleNextIndex →
      (worker_submit_pass env w ret).2.2.param.TransferHandles j = w.param.TransferHandles j ∧
      (worker_submit_pass env w ret).2.2.objects j = w.objects j) ∧
    ((worker_submit_pass env w ret).2.2.param.TransferHandles
      w.param.TransferHandleNextIndex).InUse = 0 ∧
    ((worker_submit_pass env w ret).1 = true →
      slot_ok
        ((worker_submit_pass env w ret).2.2.param.TransferHandles
          w.param.TransferHandleNextIndex)
        ((worker_submit_pass env w ret).2.2.objects w.param.TransferHandleNextIndex)) ∧
    ((worker_submit_pass env w ret).1 = false →
      ((worker_submit_pass env w ret).2.2.param.TransferHandles
        w.param.TransferHandleNextIndex).Context ≠ none ∧
      ((worker_submit_pass env w ret).2.2.objects
        w.param.TransferHandleNextIndex).complete_event.IsAuto = 0 ∧
      ((worker_submit_pass env w ret).2.2.objects w.param.TransferHandleNextIndex).ref_count =
        2 ∧
      ((worker_submit_pass env w ret).2.2.objects
        w.param.TransferHandleNextIndex).complete_event.IsSet = 0) := by
  -- the state in which the submit is made, when it is made
  have tail : ∀ S : WorkerState,
      (S.param.TransferHandles w.param.TransferHandleNextIndex).Context ≠ none →
      (S.param.TransferHandles w.param.TransferHandleNextIndex).InUse = 0 →
      (S.objects w.param.TransferHandleNextIndex).ref_count = 1 →
      (S.objects w.param.TransferHandleNextIndex).complete_event.IsAuto = 0 →
      (∀ j, j ≠ w.param.TransferHandleNextIndex →
        S.param.TransferHandles j = w.param.TransferHandles j ∧ S.objects j = w.objects j) →
      (∀ j, j ≠ w.param.TransferHandleNextIndex →
        (worker_submit env S w.param.TransferHandleNextIndex).2.param.TransferHandles j =
          w.param.TransferHandles j ∧
        (worker_submit env S w.param.TransferHandleNextIndex).2.objects j = w.objects j) ∧
      ((worker_submit env S w.param.TransferHandleNextIndex).2.param.TransferHandles
        w.param.TransferHandleNextIndex).InUse = 0 ∧
      (decide ((worker_submit env S w.param.TransferHandleNextIndex).1 < 0) = true →
        slot_ok
          ((worker_submit env S w.param.TransferHandleNextIndex).2.param.TransferHandles
            w.param.TransferHandleNextIndex)
          ((worker_submit env S w.param.TransferHandleNextIndex).2.objects
            w.param.TransferHandleNextIndex)) ∧
      (decide ((worker_submit env S w.param.TransferHandleNextIndex).1 < 0) = false →
        ((worker_submit env S w.param.TransferHandleNextIndex).2.param.TransferHandles
          w.param.TransferHandleNextIndex).Context ≠ none ∧
        ((worker_submit env S w.param.TransferHandleNextIndex).2.objects
          w.param.TransferHandleNextIndex).complete_event.IsAuto = 0 ∧
        ((worker_submit env S w.param.TransferHandleNextIndex).2.objects
          w.param.TransferHandleNextIndex).ref_count = 2 ∧
        ((worker_submit env S w.param.TransferHandleNextIndex).2.objects
          w.param.TransferHandleNextIndex).complete_event.IsSet = 0) := by
    intro S hc hi hr ha hsame
    obtain ⟨b1, b2, b3, b4, b5⟩ := worker_submit_slot env S _ hc hr ha
    refine ⟨fun j hj => ⟨(b1 j hj).1.trans (hsame j hj).1, (b1 j hj).2.trans (hsame j hj).2⟩,
      b2.trans hi, ?_, ?_⟩
    · intro hd
      have hlt := of_decide_eq_true hd
      rcases b5 with ⟨h0, _, _⟩ | ⟨_, h1⟩
      · omega
      · exact ⟨fun h => absurd h b3, fun _ => ⟨b4, Or.inl ⟨b2.trans hi, h1⟩⟩⟩
    · intro hd
      have hge := of_decide_eq_false hd
      rcases b5 with ⟨_, h2, h3⟩ | ⟨hlt, _⟩
      · exact ⟨b3, b4, h2, h3⟩
      · exact absurd hlt hge
  by_cases hctx : (w.param.TransferHandles w.param.TransferHandleNextIndex).Context = none
  · obtain ⟨u1, u2, u3⟩ := worker_setup_slot env w w.param.TransferHandleNextIndex hctx
    rcases u3 with ⟨hlt, hnone⟩ | ⟨hge, hsome, hr, ha⟩
    · have hP : worker_submit_pass env w ret =
          (true, (worker_setup env w w.param.TransferHandleNextIndex).1,
            (worker_setup env w w.param.TransferHandleNextIndex).2) := by
        unfold worker_submit_pass
        simp only [if_pos hctx, if_pos (And.intro hctx hlt)]
      rw [hP]
      refine ⟨u1, u2.trans hfree, fun _ => ?_, fun h => by cases h⟩
      exact ⟨fun _ => u2.trans hfree, fun h => absurd hnone h⟩
    · have hP : worker_submit_pass env w ret =
          (decide ((worker_submit env (worker_setup env w w.param.TransferHandleNextIndex).2
              w.param.TransferHandleNextIndex).1 < 0),
            (worker_submit env (worker_setup env w w.param.TransferHandleNextIndex).2
              w.param.TransferHandleNextIndex).1,
            (worker_submit env (worker_setup env w w.param.TransferHandleNextIndex).2
              w.param.TransferHandleNextIndex).2) := by
        unfold worker_submit_pass
        simp only [if_pos hctx, if_neg (fun h : _ ∧ _ => hge h.2)]
      rw [hP]
      exact tail _ hsome (u2.trans hfree) hr ha u1
  · have hP : worker_submit_pass env w ret =
        (decide ((worker_submit env w w.param.TransferHandleNextIndex).1 < 0),
          (worker_submit env w w.param.TransferHandleNextIndex).1,
          (worker_submit env w w.param.TransferHandleNextIndex).2) := by
      unfold worker_submit_pass
      simp only [if_neg hctx, if_neg (fun h : _ ∧ _ => hctx h.1)]
    rw [hP]
    obtain ⟨_, hs2⟩ := hslot w.param.TransferHandleNextIndex
    obtain ⟨ha, hcase⟩ := hs2 hctx
    have hr : (w.objects w.param.TransferHandleNextIndex).ref_count = 1 := by
      rcases hcase with ⟨_, h1⟩ | ⟨hin, _⟩
      · exact h1
      · exact absurd hfree hin
    exact tail w hctx hfree hr ha (fun _ _ => ⟨rfl, rfl⟩)

theorem worker_ok_next_free (w : WorkerState) (hok : worker_ok w)
    (hlt : w.param.OutstandingTransferCount < w.param.Test.BufferCount) :
    (w.param.TransferHandles w.param.TransferHandleNextIndex).InUse = 0 := by
  obtain ⟨h1, h2, h3, h4, h5, h6, h7, h8, h9, _⟩ := hok
  by_contra hin
  have hwin : (w.param.TransferHandleWaitIndex ≤ w.param.TransferHandleNextIndex ∧
      w.param.TransferHandleNextIndex < w.param.Test.BufferCount ∧
      w.param.TransferHandleNextIndex <
        w.param.TransferHandleWaitIndex + w.param.OutstandingTransferCount) ∨
    (0 ≤ w.param.TransferHandleNextIndex ∧
      w.param.TransferHandleNextIndex + w.param.Test.BufferCount <
        w.param.TransferHandleWaitIndex + w.param.OutstandingTransferCount) :=
    h9 _ hin
  by_cases hw : w.param.TransferHandleWaitIndex + w.param.OutstandingTransferCount <
      w.param.Test.BufferCount
  · have hnext := h7 hw
    omega
  · have hnext := h8 (by omega)
    omega

theorem worker_submit_loop_ok (env : WorkerEnv) (d : Nat) :
    ∀ (w : WorkerState) (ret : Int) (handleRef : Option Int),
      (w.param.Test.BufferCount - w.param.OutstandingTransferCount).toNat = d →
      worker_ok w →
      worker_ok (worker_submit_loop env w ret handleRef).2.2.2 := by
  induction d with
  | zero =>
    intro w ret handleRef hd hok
    have hn : ¬ w.param.OutstandingTransferCount < w.param.Test.BufferCount := by omega
    rw [worker_submit_loop, dif_neg hn]
    exact hok
  | succ d ih =>
    intro w ret handleRef hd hok
    have hlt : w.param.OutstandingTransferCount < w.param.Test.BufferCount := by omega
    have hfree := worker_ok_next_free w hok hlt
    obtain ⟨h1, h2, h3, h4, h5, h6, h7, h8, h9, h10⟩ := hok
    obtain ⟨p1, p2, p3, p4⟩ := worker_submit_pass_slot env w ret h10 hfree
    rw [worker_submit_loop, dif_pos hlt]
    by_cases hdone : (worker_submit_pass env w ret).1 = true
    · rw [if_pos hdone]
      refine ⟨h1, h2, h3, h4, h5, h6, h7, h8, ?_, ?_⟩
      · intro idx hidx
        have hidx' : ((worker_submit_pass env w ret).2.2.param.TransferHandles idx).InUse ≠ 0 :=
          hidx
        by_cases hj : idx = w.param.TransferHandleNextIndex
        · rw [hj] at hidx'
          exact absurd p2 hidx'
        · rw [(p1 idx hj).1] at hidx'
          exact h9 idx hidx'
      · intro idx
        show slot_ok ((worker_submit_pass env w ret).2.2.param.TransferHandles idx)
          ((worker_submit_pass env w ret).2.2.objects idx)
        by_cases hj : idx = w.param.TransferHandleNextIndex
        · rw [hj]
          exact p3 hdone
        · rw [(p1 idx hj).1, (p1 idx hj).2]
          exact h10 idx
    · rw [if_neg hdone]
      have hfalse : (worker_submit_pass env w ret).1 = false := by
        cases hb : (worker_submit_pass env w ret).1
        · rfl
        · exact absurd hb hdone
      obtain ⟨q1, q2, q3, q4⟩ := p4 hfalse
      apply ih
      · show (w.param.Test.BufferCount - (w.param.OutstandingTransferCount + 1)).toNat = d
        omega
      · refine ⟨?_, ?_, ?_, ?_, h5, h6, ?_, ?_, ?_, ?_⟩
        · show 0 ≤ w.param.OutstandingTransferCount + 1
          omega
        · show w.param.OutstandingTransferCount + 1 ≤ w.param.Test.BufferCount
          omega
        · show 0 ≤ (if w.param.TransferHandleNextIndex + 1 ≥ w.param.Test.BufferCount then 0
            else w.param.TransferHandleNextIndex + 1)
          split_ifs <;> omega
        · show (if w.param.TransferHandleNextIndex + 1 ≥ w.param.Test.BufferCount then 0
            else w.param.TransferHandleNextIndex + 1) < w.param.Test.BufferCount
          split_ifs <;> omega
        · show w.param.TransferHandleWaitIndex + (w.param.OutstandingTransferCount + 1) <
            w.param.Test.BufferCount →
            (if w.param.TransferHandleNextIndex + 1 ≥ w.param.Test.BufferCount then 0
              else w.param.TransferHandleNextIndex + 1) =
            w.param.TransferHandleWaitIndex + (w.param.OutstandingTransferCount + 1)
          intro hh
          by_cases hw : w.param.TransferHandleWaitIndex +
              w.param.OutstandingTransferCount < w.param.Test.BufferCount
          · have hnext := h7 hw
            split_ifs <;> omega
          · have hnext := h8 (by omega)
            split_ifs <;> omega
        · show w.param.Test.BufferCount ≤
            w.param.TransferHandleWaitIndex + (w.param.OutstandingTransferCount + 1) →
            (if w.param.TransferHandleNextIndex + 1 ≥ w.param.Test.BufferCount then 0
              else w.param.TransferHandleNextIndex + 1) =
            w.param.TransferHandleWaitIndex + (w.param.OutstandingTransferCount + 1) -
              w.param.Test.BufferCount
          intro hh
          by_cases hw : w.param.TransferHandleWaitIndex +
              w.param.OutstandingTransferCount < w.param.Test.BufferCount
          · have hnext := h7 hw
            split_ifs <;> omega
          · have hnext := h8 (by omega)
            split_ifs <;> omega
        · intro idx hidx
          show (w.param.TransferHandleWaitIndex ≤ idx ∧ idx < w.param.Test.BufferCount ∧
              idx < w.param.TransferHandleWaitIndex +
                (w.param.OutstandingTransferCount + 1)) ∨
            (0 ≤ idx ∧ idx + w.param.Test.BufferCount <
              w.param.TransferHandleWaitIndex + (w.param.OutstandingTransferCount + 1))
          by_cases hj : idx = w.param.TransferHandleNextIndex
          · by_cases hw : w.param.TransferHandleWaitIndex +
                w.param.OutstandingTransferCount < w.param.Test.BufferCount
            · have hnext := h7 hw
              omega
            · have hnext := h8 (by omega)
              omega
          · have hidx' : (Function.update (worker_submit_pass env w ret).2.2.param.TransferHandles
                w.param.TransferHandleNextIndex
                { (worker_submit_pass env w ret).2.2.param.TransferHandles
                    w.param.TransferHandleNextIndex with InUse := 1 } idx).InUse ≠ 0 := hidx
            rw [Function.update_noteq hj, (p1 idx hj).1] at hidx'
            have hold : (w.param.TransferHandleWaitIndex ≤ idx ∧
                idx < w.param.Test.BufferCount ∧
                idx < w.param.TransferHandleWaitIndex + w.param.OutstandingTransferCount) ∨
              (0 ≤ idx ∧ idx + w.param.Test.BufferCount <
                w.param.TransferHandleWaitIndex + w.param.OutstandingTransferCount) :=
              h9 idx hidx'
            omega
        · intro idx
          show slot_ok
            (Function.update (worker_submit_pass env w ret).2.2.param.TransferHandles
              w.param.TransferHandleNextIndex
              { (worker_submit_pass env w ret).2.2.param.TransferHandles
                  w.param.TransferHandleNextIndex with InUse := 1 } idx)
            ((worker_submit_pass env w ret).2.2.objects idx)
          by_cases hj : idx = w.param.TransferHandleNextIndex
          · rw [hj, Function.update_same]
            refine ⟨fun hc => absurd hc q1, fun _ => ⟨q2, Or.inr ⟨?_, Or.inl ⟨q3, q4⟩⟩⟩⟩
            show (1 : Int) ≠ 0
            decide
          · rw [Function.update_noteq hj, (p1 idx hj).1, (p1 idx hj).2]
            exact h10 idx

theorem worker_reap_slot (env : WorkerEnv) (w : WorkerState) (idx : Int)
    (hslot : slot_ok (w.param.TransferHandles idx) (w.objects idx))
    (hb : ∀ k, blocked_ok (env.blocked k)) :
    (∀ j, j ≠ idx →
      (worker_reap env w idx).2.param.TransferHandles j = w.param.TransferHandles j ∧
      (worker_reap env w idx).2.objects j = w.objects j) ∧
    ((worker_reap env w idx).2.param.TransferHandles idx).InUse =
      (w.param.TransferHandles idx).InUse ∧
    slot_ok ((worker_reap env w idx).2.param.TransferHandles idx)
      ((worker_reap env w idx).2.objects idx) ∧
    (¬ (worker_reap env w idx).1 < 0 →
      slot_ok { (worker_reap env w idx).2.param.TransferHandles idx with InUse := 0 }
        ((worker_reap env w idx).2.objects idx)) := by
  by_cases hctx : (w.param.TransferHandles idx).Context = none
  · have hwc : worker_context w idx = none := by
      unfold worker_context
      rw [if_pos hctx]
    unfold worker_reap
    simp only [hwc, usb_reap_async_nocancel, async_reap]
    refine ⟨fun j hj => ⟨Function.update_noteq hj _ _, trivial⟩, ?_, ?_, ?_⟩
    · rw [Function.update_same]
    · rw [Function.update_same]
      exact ⟨fun _ => hslot.1 hctx, fun h => absurd hctx h⟩
    · intro _
      rw [Function.update_same]
      exact ⟨fun _ => rfl, fun h => absurd hctx h⟩
  · have hwc : worker_context w idx = some (w.objects idx) := by
      unfold worker_context
      rw [if_neg hctx]
    obtain ⟨hauto, hcase⟩ := hslot.2 hctx
    have href : 1 ≤ (w.objects idx).ref_count := by
      rcases hcase with ⟨_, h⟩ | ⟨_, ⟨h, _⟩ | ⟨h, _⟩⟩ <;> omega
    obtain ⟨c1, e1, e2, e3, e4⟩ := usb_reap_async_nocancel_slot (w.objects idx)
      (env.blocked w.calls.length) w.param.Test.Timeout w.m hauto (hb _) href
    unfold worker_reap
    simp only [hwc, e1]
    refine ⟨fun j hj => ⟨Function.update_noteq hj _ _, Function.update_noteq hj _ _⟩, ?_, ?_, ?_⟩
    · rw [Function.update_same]
    · rw [Function.update_same, Function.update_same]
      refine ⟨fun h => absurd h hctx, fun _ => ⟨e2, ?_⟩⟩
      rcases hcase with ⟨hi, hr⟩ | ⟨hi, ⟨hr, hs⟩ | ⟨hr, hs⟩⟩
      · exact Or.inl ⟨hi, (e3 hr).1⟩
      · rcases e4 hr hs with ⟨a, b⟩ | ⟨a, b, _⟩
        · exact Or.inr ⟨hi, Or.inr ⟨a, b⟩⟩
        · exact Or.inr ⟨hi, Or.inl ⟨a, b⟩⟩
      · refine Or.inr ⟨hi, Or.inr ⟨(e3 hr).1, ?_⟩⟩
        rw [(e3 hr).2]
        exact hs
    · intro hge
      rw [Function.update_same, Function.update_same]
      refine ⟨fun h => absurd h hctx, fun _ => ⟨e2, Or.inl ⟨rfl, ?_⟩⟩⟩
      rcases hcase with ⟨_, hr⟩ | ⟨_, ⟨hr, hs⟩ | ⟨hr, _⟩⟩
      · exact (e3 hr).1
      · rcases e4 hr hs with ⟨a, _⟩ | ⟨_, _, c⟩
        · exact a
        · exact absurd c hge
      · exact (e3 hr).1

theorem worker_TransferAsync_ok (env : WorkerEnv) (w : WorkerState)
    (hb : ∀ k, blocked_ok (env.blocked k)) (hok : worker_ok w) :
    worker_ok (worker_TransferAsync env w).2.2 := by
  have hl := worker_submit_loop_ok env _ w (-EFAULT) none rfl hok
  unfold worker_TransferAsync
  simp only []
  generalize worker_submit_loop env w (-EFAULT) none = l at hl
  by_cases hdone : l.1 = true
  · rw [if_pos hdone]
    exact hl
  · rw [if_neg hdone]
    by_cases hfull : l.2.2.2.param.OutstandingTransferCount = l.2.2.2.param.Test.BufferCount
    · rw [if_pos hfull]
      obtain ⟨h1, h2, h3, h4, h5, h6, h7, h8, h9, h10⟩ := hl
      obtain ⟨r1, r2, r3, r4⟩ := worker_reap_slot env l.2.2.2
        l.2.2.2.param.TransferHandleWaitIndex (h10 _) hb
      by_cases hneg : (worker_reap env l.2.2.2 l.2.2.2.param.TransferHandleWaitIndex).1 < 0
      · rw [if_pos hneg]
        refine ⟨h1, h2, h3, h4, h5, h6, h7, h8, ?_, ?_⟩
        · intro idx hidx
          have hidx' : ((worker_reap env l.2.2.2
              l.2.2.2.param.TransferHandleWaitIndex).2.param.TransferHandles idx).InUse ≠ 0 :=
            hidx
          by_cases hj : idx = l.2.2.2.param.TransferHandleWaitIndex
          · rw [hj, r2] at hidx'
            rw [hj]
            exact h9 _ hidx'
          · rw [(r1 idx hj).1] at hidx'
            exact h9 idx hidx'
        · intro idx
          show slot_ok ((worker_reap env l.2.2.2
              l.2.2.2.param.TransferHandleWaitIndex).2.param.TransferHandles idx)
            ((worker_reap env l.2.2.2 l.2.2.2.param.TransferHandleWaitIndex).2.objects idx)
          by_cases hj : idx = l.2.2.2.param.TransferHandleWaitIndex
          · rw [hj]
            exact r3
          · rw [(r1 idx hj).1, (r1 idx hj).2]
            exact h10 idx
      · rw [if_neg hneg]
        refine ⟨?_, ?_, h3, h4, ?_, ?_, ?_, ?_, ?_, ?_⟩
        · show 0 ≤ l.2.2.2.param.OutstandingTransferCount - 1
          omega
        · show l.2.2.2.param.OutstandingTransferCount - 1 ≤ l.2.2.2.param.Test.BufferCount
          omega
        · show 0 ≤ (if l.2.2.2.param.TransferHandleWaitIndex + 1 ≥
              l.2.2.2.param.Test.BufferCount then 0
            else l.2.2.2.param.TransferHandleWaitIndex + 1)
          split_ifs <;> omega
        · show (if l.2.2.2.param.TransferHandleWaitIndex + 1 ≥
              l.2.2.2.param.Test.BufferCount then 0
            else l.2.2.2.param.TransferHandleWaitIndex + 1) < l.2.2.2.param.Test.BufferCount
          split_ifs <;> omega
        · show (if l.2.2.2.param.TransferHandleWaitIndex + 1 ≥
              l.2.2.2.param.Test.BufferCount then 0
            else l.2.2.2.param.TransferHandleWaitIndex + 1) +
              (l.2.2.2.param.OutstandingTransferCount - 1) < l.2.2.2.param.Test.BufferCount →
            l.2.2.2.param.TransferHandleNextIndex =
              (if l.2.2.2.param.TransferHandleWaitIndex + 1 ≥
                  l.2.2.2.param.Test.BufferCount then 0
                else l.2.2.2.param.TransferHandleWaitIndex + 1) +
                (l.2.2.2.param.OutstandingTransferCount - 1)
          have hnext := h8 (by omega)
          split_ifs <;> intro hh <;> omega
        · show l.2.2.2.param.Test.BufferCount ≤
              (if l.2.2.2.param.TransferHandleWaitIndex + 1 ≥
                  l.2.2.2.param.Test.BufferCount then 0
                else l.2.2.2.param.TransferHandleWaitIndex + 1) +
                (l.2.2.2.param.OutstandingTransferCount - 1) →
            l.2.2.2.param.TransferHandleNextIndex =
              (if l.2.2.2.param.TransferHandleWaitIndex + 1 ≥
                  l.2.2.2.param.Test.BufferCount then 0
                else l.2.2.2.param.TransferHandleWaitIndex + 1) +
                (l.2.2.2.param.OutstandingTransferCount - 1) - l.2.2.2.param.Test.BufferCount
          have hnext := h8 (by omega)
          split_ifs <;> intro hh <;> omega
        · intro idx hidx
          show ((if l.2.2.2.param.TransferHandleWaitIndex + 1 ≥
                l.2.2.2.param.Test.BufferCount then 0
              else l.2.2.2.param.TransferHandleWaitIndex + 1) ≤ idx ∧
              idx < l.2.2.2.param.Test.BufferCount ∧
              idx < (if l.2.2.2.param.TransferHandleWaitIndex + 1 ≥
                  l.2.2.2.param.Test.BufferCount then 0
                else l.2.2.2.param.TransferHandleWaitIndex + 1) +
                (l.2.2.2.param.OutstandingTransferCount - 1)) ∨
            (0 ≤ idx ∧ idx + l.2.2.2.param.Test.BufferCount <
              (if l.2.2.2.param.TransferHandleWaitIndex + 1 ≥
                  l.2.2.2.param.Test.BufferCount then 0
                else l.2.2.2.param.TransferHandleWaitIndex + 1) +
                (l.2.2.2.param.OutstandingTransferCount - 1))
          have hidx' : (Function.update (worker_reap env l.2.2.2
              l.2.2.2.param.TransferHandleWaitIndex).2.param.TransferHandles
              l.2.2.2.param.TransferHandleWaitIndex
              { (worker_reap env l.2.2.2
                  l.2.2.2.param.TransferHandleWaitIndex).2.param.TransferHandles
                  l.2.2.2.param.TransferHandleWaitIndex with InUse := 0 } idx).InUse ≠ 0 := hidx
          by_cases hj : idx = l.2.2.2.param.TransferHandleWaitIndex
          · rw [hj, Function.update_same] at hidx'
            exact absurd rfl hidx'
          · rw [Function.update_noteq hj, (r1 idx hj).1] at hidx'
            have hold : (l.2.2.2.param.TransferHandleWaitIndex ≤ idx ∧
                idx < l.2.2.2.param.Test.BufferCount ∧
                idx < l.2.2.2.param.TransferHandleWaitIndex +
                  l.2.2.2.param.OutstandingTransferCount) ∨
              (0 ≤ idx ∧ idx + l.2.2.2.param.Test.BufferCount <
                l.2.2.2.param.TransferHandleWaitIndex +
                  l.2.2.2.param.OutstandingTransferCount) := h9 idx hidx'
            split_ifs <;> omega
        · intro idx
          show slot_ok
            (Function.update (worker_reap env l.2.2.2
              l.2.2.2.param.TransferHandleWaitIndex).2.param.TransferHandles
              l.2.2.2.param.TransferHandleWaitIndex
              { (worker_reap env l.2.2.2
                  l.2.2.2.param.TransferHandleWaitIndex).2.param.TransferHandles
                  l.2.2.2.param.TransferHandleWaitIndex with InUse := 0 } idx)
            ((worker_reap env l.2.2.2 l.2.2.2.param.TransferHandleWaitIndex).2.objects idx)
          by_cases hj : idx = l.2.2.2.param.TransferHandleWaitIndex
          · rw [hj, Function.update_same]
            exact r4 hneg
          · rw [Function.update_noteq hj, (r1 idx hj).1, (r1 idx hj).2]
            exact h10 idx
    · rw [if_neg hfull]
      exact hl

theorem worker_completion_ok (w : WorkerState) (slot status actual_length : Int)
    (hok : worker_ok w) : worker_ok (worker_completion w slot status actual_length) := by
  unfold worker_completion
  by_cases hg : (w.param.TransferHandles slot).Context ≠ none ∧ (w.objects slot).ref_count = 2
  · rw [if_pos hg]
    obtain ⟨h1, h2, h3, h4, h5, h6, h7, h8, h9, h10⟩ := hok
    refine ⟨h1, h2, h3, h4, h5, h6, h7, h8, h9, ?_⟩
    intro idx
    show slot_ok (w.param.TransferHandles idx)
      (Function.update w.objects slot _ idx)
    by_cases hj : idx = slot
    · rw [hj, Function.update_same, async_bulk_cb_object]
      obtain ⟨hauto, hcase⟩ := (h10 slot).2 hg.1
      refine ⟨(h10 slot).1, fun _ => ⟨?_, ?_⟩⟩
      · exact (Mpl_Event_Set_fields _).1.trans hauto
      · rcases hcase with ⟨_, hr⟩ | ⟨hi, ⟨hr, _⟩ | ⟨hr, _⟩⟩
        · have := hg.2
          omega
        · refine Or.inr ⟨hi, Or.inr ⟨?_, (Mpl_Event_Set_fields _).2⟩⟩
          show (w.objects slot).ref_count - 1 = 1
          omega
        · have := hg.2
          omega
    · rw [Function.update_noteq hj]
      exact h10 idx
  · rw [if_neg hg]
    exact hok

theorem fresh_worker_ok (test : BM_TEST_PARAM) (ep : usb_endpoint_descriptor)
    (h : 1 ≤ test.BufferCount) : worker_ok (fresh_worker test ep) := by
  refine ⟨Int.le_refl _, ?_, Int.le_refl _, ?_, Int.le_refl _, ?_, fun _ => rfl, ?_, ?_, ?_⟩
  · show (0 : Int) ≤ test.BufferCount
    omega
  · show (0 : Int) < test.BufferCount
    omega
  · show (0 : Int) < test.BufferCount
    omega
  · show test.BufferCount ≤ (0 : Int) + 0 → _
    intro hh; omega
  · intro idx hidx
    exact absurd rfl hidx
  · intro idx
    exact ⟨fun _ => rfl, fun hc => absurd rfl hc⟩

theorem worker_run_ok (env : WorkerEnv) (hb : ∀ k, blocked_ok (env.blocked k))
    (events : List WorkerEvent) :
    ∀ w : WorkerState, worker_ok w → worker_ok (worker_run env events w) := by
  induction events with
  | nil => exact fun w hok => hok
  | cons e rest ih =>
    intro w hok
    show worker_ok (worker_run env rest (worker_step env w e))
    apply ih
    cases e with
    | call => exact worker_TransferAsync_ok env w hb hok
    | completion slot status actual_length =>
      exact worker_completion_ok w slot status actual_length hok

theorem worker_submit_loop_exit (env : WorkerEnv) (w : WorkerState) (ret : Int)
    (handleRef : Option Int)
    (h : ¬ w.param.OutstandingTransferCount < w.param.Test.BufferCount) :
    worker_submit_loop env w ret handleRef = (false, ret, handleRef, w) := by
  rw [worker_submit_loop, dif_neg h]

theorem worker_submit_loop_step (env : WorkerEnv) (w : WorkerState) (ret : Int)
    (handleRef : Option Int)
    (h : w.param.OutstandingTransferCount < w.param.Test.BufferCount)
    (hp : (worker_submit_pass env w ret).1 = false) :
    worker_submit_loop env w ret handleRef =
      worker_submit_loop env
        { param :=
            { w.param with
              TransferHandles :=
                Function.update (worker_submit_pass env w ret).2.2.param.TransferHandles
                  w.param.TransferHandleNextIndex
                  { (worker_submit_pass env w ret).2.2.param.TransferHandles
                      w.param.TransferHandleNextIndex with InUse := 1 }
              OutstandingTransferCount := w.param.OutstandingTransferCount + 1
              TransferHandleNextIndex :=
                INC_ROLL w.param.TransferHandleNextIndex w.param.Test.BufferCount }
          calls := (worker_submit_pass env w ret).2.2.calls
          objects := (worker_submit_pass env w ret).2.2.objects
          m := (worker_submit_pass env w ret).2.2.m }
        (worker_submit_pass env w ret).2.1 (some w.param.TransferHandleNextIndex) := by
  have hne : ¬ (worker_submit_pass env w ret).1 = true := by rw [hp]; decide
  rw [worker_submit_loop, dif_pos h, if_neg hne]

theorem worker_submit_loop_last (env : WorkerEnv) (w : WorkerState) (ret : Int)
    (handleRef : Option Int)
    (h : w.param.OutstandingTransferCount + 1 = w.param.Test.BufferCount)
    (hp : (worker_submit_pass env w ret).1 = false) :
    worker_submit_loop env w ret handleRef =
      (false, (worker_submit_pass env w ret).2.1, some w.param.TransferHandleNextIndex,
        { param :=
            { w.param with
              TransferHandles :=
                Function.update (worker_submit_pass env w ret).2.2.param.TransferHandles
                  w.param.TransferHandleNextIndex
                  { (worker_submit_pass env w ret).2.2.param.TransferHandles
                      w.param.TransferHandleNextIndex with InUse := 1 }
              OutstandingTransferCount := w.param.OutstandingTransferCount + 1
              TransferHandleNextIndex :=
                INC_ROLL w.param.TransferHandleNextIndex w.param.Test.BufferCount }
          calls := (worker_submit_pass env w ret).2.2.calls
          objects := (worker_submit_pass env w ret).2.2.objects
          m := (worker_submit_pass env w ret).2.2.m }) := by
  rw [worker_submit_loop_step env w ret handleRef (by omega) hp]
  exact worker_submit_loop_exit env _ _ _
    (by show ¬ w.param.OutstandingTransferCount + 1 < w.param.Test.BufferCount
        omega)

theorem worker_first_pass_submits :
    (worker_submit_pass worker_env_timeouts (fresh_worker (sample_test 0 1) sample_bulk_in)
      (-EFAULT)).1 = false := by
  decide

/-- With a window of one slot, the first call submits slot 0 and its reap
times out; the driver then completes the transfer with `STALL`; the second
call reaps slot 0 again, reports `-EIO` and leaves the slot in use. -/
theorem worker_sample_error_reap :
    (worker_TransferAsync worker_env_timeouts
      (worker_run worker_env_timeouts
        [WorkerEvent.call, WorkerEvent.completion 0 LIBUSB_TRANSFER_STALL 0]
        (fresh_worker (sample_test 0 1) sample_bulk_in))).1 = - EIO ∧
    ((worker_run worker_env_timeouts
        [WorkerEvent.call, WorkerEvent.completion 0 LIBUSB_TRANSFER_STALL 0, WorkerEvent.call]
        (fresh_worker (sample_test 0 1) sample_bulk_in)).param.TransferHandles 0).InUse ≠ 0 := by
  simp only [worker_run, List.foldl, worker_step]
  unfold worker_TransferAsync
  rw [worker_submit_loop_last _ (fresh_worker (sample_test 0 1) sample_bulk_in) _ _
      (by decide) worker_first_pass_submits]
  simp only [worker_reap, usb_reap_async_nocancel, async_reap, reap_retry_for_cancel_eq]
  rw [worker_submit_loop_exit _ _ _ _ (by decide)]
  simp only [worker_reap, usb_reap_async_nocancel, async_reap, reap_retry_for_cancel_eq]
  decide

theorem reap_env_wait_signalled (c : usb_async_transfer_t) (blocked : WaitOutcome) (k : Nat)
    (timeout : Int) (hset : c.complete_event.IsSet ≠ 0) :
    (reap_env c blocked).wait k timeout = ⟨MPL_SUCCESS, none⟩ := by
  show (match Mpl_Event_Wait_signalled c.complete_event with
    | some r => (⟨r.1, none⟩ : WaitOutcome)
    | none => if c.ref_count = 2 then blocked else ⟨blocked.ret, none⟩) = _
  unfold Mpl_Event_Wait_signalled
  rw [if_pos hset]

/-- C25: in every state that the worker reaches from its initial state by
`TransferAsync` calls and driver completions, whatever the setup, submit and
wait results (a blocking wait returns a non-negative code, and `MPL_SUCCESS`
only if the transfer completed meanwhile), every slot whose `InUse` flag is
set has a context with a manual-reset completion event, and either its
transfer is in flight (ref-count 2, event not set) or the transfer has
completed (ref-count 1) and the event is still set, in which case the wait of
a reap returns `MPL_SUCCESS` at once.  Reaps that reported an error are among
the calls the state is reached by. -/
theorem worker_in_use_slot_reapable (env : WorkerEnv) (test : BM_TEST_PARAM)
    (ep : usb_endpoint_descriptor) (events : List WorkerEvent)
    (hargs : ValidateBenchmarkArgs test = 0) (hb : ∀ k, blocked_ok (env.blocked k))
    (idx : Int)
    (hin : ((worker_run env events (fresh_worker test ep)).param.TransferHandles idx).InUse ≠
      0) :
    ((worker_run env events (fresh_worker test ep)).param.TransferHandles idx).Context ≠
      none ∧
    ((worker_run env events (fresh_worker test ep)).objects idx).complete_event.IsAuto = 0 ∧
    ((((worker_run env events (fresh_worker test ep)).objects idx).ref_count = 2 ∧
        ((worker_run env events (fresh_worker test ep)).objects idx).complete_event.IsSet =
          0) ∨
      (((worker_run env events (fresh_worker test ep)).objects idx).ref_count = 1 ∧
        ((worker_run env events (fresh_worker test ep)).objects idx).complete_event.IsSet ≠
          0 ∧
        ∀ (blocked : WaitOutcome) (k : Nat) (timeout : Int),
          (reap_env ((worker_run env events (fresh_worker test ep)).objects idx)
            blocked).wait k timeout = ⟨MPL_SUCCESS, none⟩)) := by
  have hn : 1 ≤ test.BufferCount := by
    unfold ValidateBenchmarkArgs at hargs
    by_cases hbad : test.BufferCount < 1 ∨ test.BufferCount > MAX_OUTSTANDING_TRANSFERS
    · rw [if_pos hbad] at hargs
      exact absurd hargs (by decide)
    · have := not_or.mp hbad
      omega
  have hok := worker_run_ok env hb events _ (fresh_worker_ok test ep hn)
  generalize worker_run env events (fresh_worker test ep) = w at hok hin
  obtain ⟨hnone, hsome⟩ := hok.2.2.2.2.2.2.2.2.2 idx
  have hctx : (w.param.TransferHandles idx).Context ≠ none := fun h => hin (hnone h)
  obtain ⟨hauto, hcase⟩ := hsome hctx
  refine ⟨hctx, hauto, ?_⟩
  rcases hcase with ⟨h0, _⟩ | ⟨_, hfly | ⟨hr, hs⟩⟩
  · exact absurd h0 hin
  · exact Or.inl hfly
  · exact Or.inr ⟨hr, hs, fun blocked k timeout => reap_env_wait_signalled _ blocked k timeout hs⟩

theorem worker_in_use_slot_reapable_witness :
    ValidateBenchmarkArgs (sample_test 0 1) = 0 ∧
    (worker_TransferAsync worker_env_timeouts
      (worker_run worker_env_timeouts
        [WorkerEvent.call, WorkerEvent.completion 0 LIBUSB_TRANSFER_STALL 0]
        (fresh_worker (sample_test 0 1) sample_bulk_in))).1 = - EIO ∧
    ((worker_run worker_env_timeouts
        [WorkerEvent.call, WorkerEvent.completion 0 LIBUSB_TRANSFER_STALL 0, WorkerEvent.call]
        (fresh_worker (sample_test 0 1) sample_bulk_in)).param.TransferHandles 0).InUse ≠ 0 ∧
    ((worker_run worker_env_timeouts
        [WorkerEvent.call, WorkerEvent.completion 0 LIBUSB_TRANSFER_STALL 0, WorkerEvent.call]
        (fresh_worker (sample_test 0 1) sample_bulk_in)).param.TransferHandles 0).Context ≠
      none ∧
    ((worker_run worker_env_timeouts
        [WorkerEvent.call, WorkerEvent.completion 0 LIBUSB_TRANSFER_STALL 0, WorkerEvent.call]
        (fresh_worker (sample_test 0 1) sample_bulk_in)).objects 0).complete_event.IsAuto = 0 ∧
    ((((worker_run worker_env_timeouts
          [WorkerEvent.call, WorkerEvent.completion 0 LIBUSB_TRANSFER_STALL 0, WorkerEvent.call]
          (fresh_worker (sample_test 0 1) sample_bulk_in)).objects 0).ref_count = 2 ∧
        ((worker_run worker_env_timeouts
          [WorkerEvent.call, WorkerEvent.completion 0 LIBUSB_TRANSFER_STALL 0, WorkerEvent.call]
          (fresh_worker (sample_test 0 1) sample_bulk_in)).objects 0).complete_event.IsSet =
          0) ∨
      (((worker_run worker_env_timeouts
          [WorkerEvent.call, WorkerEvent.completion 0 LIBUSB_TRANSFER_STALL 0, WorkerEvent.call]
          (fresh_worker (sample_test 0 1) sample_bulk_in)).objects 0).ref_count = 1 ∧
        ((worker_run worker_env_timeouts
          [WorkerEvent.call, WorkerEvent.completion 0 LIBUSB_TRANSFER_STALL 0, WorkerEvent.call]
          (fresh_worker (sample_test 0 1) sample_bulk_in)).objects 0).complete_event.IsSet ≠
          0 ∧
        ∀ (blocked : WaitOutcome) (k : Nat) (timeout : Int),
          (reap_env ((worker_run worker_env_timeouts
            [WorkerEvent.call, WorkerEvent.completion 0 LIBUSB_TRANSFER_STALL 0,
              WorkerEvent.call]
            (fresh_worker (sample_test 0 1) sample_bulk_in)).objects 0)
            blocked).wait k timeout = ⟨MPL_SUCCESS, none⟩)) :=
  ⟨by decide, worker_sample_error_reap.1, worker_sample_error_reap.2,
    worker_in_use_slot_reapable worker_env_timeouts (sample_test 0 1) sample_bulk_in
      [WorkerEvent.call, WorkerEvent.completion 0 LIBUSB_TRANSFER_STALL 0, WorkerEvent.call]
      (by decide)
      (fun _ => ⟨(by decide : (0 : Int) ≤ ETIMEDOUT),
        fun h => absurd h (by decide : ¬ ETIMEDOUT = MPL_SUCCESS)⟩)
      0 worker_sample_error_reap.2⟩

end Libusbm
